import Mathlib

/-!
A verification development for the node-agwpe library: a shallow embedding
of its AGWPE frame codec, AX.25 packet codec, Receiver reassembler,
throttles, frame assembler, connection and port-router logic, with theorems
settling the specification's claims about them.

Buffers are modelled as `List Nat` of byte values; machine arithmetic is
explicit (`% 256`, `% 2^32`).  Fallible code returns `Except String`.
-/

namespace Agwpe

/-! ## Byte-level helpers -/

/-- The four bytes of `Buffer.writeUInt32LE` (little-endian). -/
def u32le (n : Nat) : List Nat :=
  [n % 256, n / 256 % 256, n / 65536 % 256, n / 16777216 % 256]

/-- `buffer.readUInt32LE(off)`: little-endian 32-bit read.  Out-of-range
indices read as 0 (JS `undefined` coerces to 0 in arithmetic). -/
def readU32LE (b : List Nat) (off : Nat) : Nat :=
  b.getD off 0 + 256 * b.getD (off + 1) 0
    + 65536 * b.getD (off + 2) 0 + 16777216 * b.getD (off + 3) 0

/-- `buffer.write(string, offset)` / `source.copy(target, offset)`: overwrite
bytes of `buf` starting at `off`, truncating the written bytes at the end of
`buf` (Node never grows a Buffer on write). -/
def writeBytes (buf : List Nat) (off : Nat) (bs : List Nat) : List Nat :=
  let bs' := bs.take (buf.length - off)
  buf.take off ++ bs' ++ buf.drop (off + bs'.length)

theorem writeBytes_nil (buf : List Nat) (off : Nat) :
    writeBytes buf off [] = buf := by
  simp [writeBytes]

theorem writeBytes_length (buf : List Nat) (off : Nat) (bs : List Nat)
    (h : off ≤ buf.length) : (writeBytes buf off bs).length = buf.length := by
  simp only [writeBytes, List.length_append, List.length_take, List.length_drop]
  have : (bs.take (buf.length - off)).length ≤ buf.length - off := by
    simp [List.length_take]
  omega

/-- Overwriting a region of exactly the written length, by list decomposition. -/
theorem writeBytes_exact (A old C bs : List Nat) (h : old.length = bs.length) :
    writeBytes (A ++ old ++ C) A.length bs = A ++ bs ++ C := by
  have hlen : (A ++ old ++ C).length = A.length + old.length + C.length := by
    simp [List.length_append]; omega
  have htake : bs.take ((A ++ old ++ C).length - A.length) = bs := by
    apply List.take_of_length_le; omega
  simp only [writeBytes, htake]
  have h1 : (A ++ old ++ C).take A.length = A := by
    rw [List.append_assoc, List.take_left]
  have h2 : (A ++ old ++ C).drop (A.length + bs.length) = C := by
    rw [List.append_assoc]
    rw [show A.length + bs.length = (A ++ old).length by simp [List.length_append, h]]
    rw [← List.append_assoc, List.drop_left]
  rw [h1, h2]

/-- Reading below the written region. -/
theorem getD_writeBytes_lt (buf : List Nat) (off : Nat) (bs : List Nat)
    (i : Nat) (hi : i < off) (hoff : off ≤ buf.length) :
    (writeBytes buf off bs).getD i 0 = buf.getD i 0 := by
  have hA : (buf.take off).length = off := by
    simp only [List.length_take]; omega
  simp only [writeBytes, List.getD_eq_getElem?_getD]
  rw [List.getElem?_append_left (by simp only [List.length_append]; omega),
    List.getElem?_append_left (by omega),
    List.getElem?_take_of_lt hi]

/-- Reading inside the written region. -/
theorem getD_writeBytes_mem (buf : List Nat) (off : Nat) (bs : List Nat)
    (i : Nat) (h1 : off ≤ i) (h2 : i < off + bs.length)
    (h3 : i < buf.length) :
    (writeBytes buf off bs).getD i 0 = bs.getD (i - off) 0 := by
  have hoff : off ≤ buf.length := le_of_lt (lt_of_le_of_lt h1 h3)
  have hA : (buf.take off).length = off := by
    simp only [List.length_take]; omega
  have hB : (bs.take (buf.length - off)).length = min bs.length (buf.length - off) := by
    simp only [List.length_take]; omega
  simp only [writeBytes, List.getD_eq_getElem?_getD]
  rw [List.getElem?_append_left (by simp only [List.length_append]; omega),
    List.getElem?_append_right (by omega), hA,
    List.getElem?_take_of_lt (by omega)]

/-- Reading above the written region. -/
theorem getD_writeBytes_ge (buf : List Nat) (off : Nat) (bs : List Nat)
    (i : Nat) (h1 : off + bs.length ≤ i) (hoff : off ≤ buf.length) :
    (writeBytes buf off bs).getD i 0 = buf.getD i 0 := by
  by_cases hb : i < buf.length
  · have hA : (buf.take off).length = off := by
      simp only [List.length_take]; omega
    have hB : (bs.take (buf.length - off)).length = min bs.length (buf.length - off) := by
      simp only [List.length_take]; omega
    simp only [writeBytes, List.getD_eq_getElem?_getD]
    rw [List.getElem?_append_right
        (by simp only [List.length_append]; omega),
      List.getElem?_drop]
    congr 2
    simp only [List.length_append]
    omega
  · have hlen := writeBytes_length buf off bs hoff
    rw [List.getD_eq_default _ _ (by omega), List.getD_eq_default _ _ (by omega)]

/-- Two lists of equal length agreeing at every `getD` position are equal. -/
theorem listEqOfGetD (l₁ l₂ : List Nat) (hlen : l₁.length = l₂.length)
    (h : ∀ i, i < l₁.length → l₁.getD i 0 = l₂.getD i 0) : l₁ = l₂ := by
  apply List.ext_getElem hlen
  intro i h1 h2
  have hi := h i h1
  rwa [List.getD_eq_getElem _ _ h1, List.getD_eq_getElem _ _ h2] at hi

theorem getD_take (l : List Nat) (m i : Nat) (h : i < m) :
    (l.take m).getD i 0 = l.getD i 0 := by
  simp only [List.getD_eq_getElem?_getD]
  rw [List.getElem?_take_of_lt h]

theorem getD_drop (l : List Nat) (k i : Nat) :
    (l.drop k).getD i 0 = l.getD (k + i) 0 := by
  simp only [List.getD_eq_getElem?_getD]
  rw [List.getElem?_drop]

/-- A `takeWhile (· ≠ 0)` computation determined pointwise: if `l` starts
with the NUL-free bytes of `pre` and then a zero byte (or ends), the scan
returns exactly `pre`. -/
theorem takeWhile_eq_of_getD (pre : List Nat) : ∀ l : List Nat,
    pre.length ≤ l.length →
    (∀ i, i < pre.length → l.getD i 0 = pre.getD i 0) →
    (∀ c ∈ pre, c ≠ 0) →
    (l.getD pre.length 0 = 0 ∨ l.length = pre.length) →
    l.takeWhile (fun c => decide (c ≠ 0)) = pre := by
  induction pre with
  | nil =>
    intro l _ _ _ hend
    cases l with
    | nil => simp
    | cons a t =>
      rcases hend with h | h
      · simp only [List.length_nil, List.getD_cons_zero] at h
        subst h
        simp [List.takeWhile_cons]
      · simp at h
  | cons p ps ih =>
    intro l hlen hpt hnz hend
    cases l with
    | nil => simp at hlen
    | cons a t =>
      have ha : a = p := by
        have := hpt 0 (by simp)
        simpa using this
      subst ha
      have hp0 : a ≠ 0 := hnz a (by simp)
      have htail : t.takeWhile (fun c => decide (c ≠ 0)) = ps := by
        apply ih t
        · simpa using hlen
        · intro i hi
          have := hpt (i + 1) (by simpa using Nat.succ_lt_succ hi)
          simpa using this
        · intro c hc; exact hnz c (by simp [hc])
        · rcases hend with h | h
          · left; simpa using h
          · right; simpa using h
      rw [List.takeWhile_cons, if_pos (by simp [hp0] : decide (a ≠ 0) = true), htail]

/-! ## AGWPE frame codec (src/guts.js: toFrame, fromHeader) -/

/-- An AGWPE frame in object form.  `dataKind` is the character code of the
single-character string in the source (`charCodeAt(0)`); callFrom/callTo are
byte strings; an absent payload is the empty list (an absent `data` and an
empty Buffer encode identically). -/
structure Frame where
  port : Nat
  dataKind : Nat
  PID : Option Nat
  callFrom : List Nat
  callTo : List Nat
  user : Nat
  data : List Nat
deriving Repr, DecidableEq

/-- `toFrame` (src/guts.js lines 172-200): allocate `36 + data.length` zeroed
bytes, then write port, dataKind, PID (0xF0 when absent), callFrom at 8 and
callTo at 18 in 'ascii' encoding (each char code masked to 7 bits), the
payload length and `user` as little-endian uint32, then the payload.
`writeUInt32LE` raises `ERR_OUT_OF_RANGE` for values ≥ 2^32. -/
def toFrameBuf (f : Frame) : List Nat :=
  writeBytes (writeBytes (writeBytes (writeBytes (writeBytes (writeBytes (writeBytes (writeBytes
    (List.replicate (36 + f.data.length) 0)
    0 [f.port % 256])
    4 [f.dataKind % 256])
    6 [(f.PID.getD 240) % 256])
    8 (f.callFrom.map (· % 128)))
    18 (f.callTo.map (· % 128)))
    28 (u32le f.data.length))
    32 (u32le f.user))
    36 f.data

def toFrame (f : Frame) : Except String (List Nat) :=
  if f.data.length ≥ 4294967296 then .error "ERR_OUT_OF_RANGE dataLength" else
  if f.user ≥ 4294967296 then .error "ERR_OUT_OF_RANGE user" else
  .ok (toFrameBuf f)

/-- The byte at each index of the buffer `toFrame` builds; later writes
shadow earlier ones. -/
def frameByteAt (f : Frame) (i : Nat) : Nat :=
  if 36 + f.data.length ≤ i then 0
  else if 36 ≤ i then f.data.getD (i - 36) 0
  else if 32 ≤ i then (u32le f.user).getD (i - 32) 0
  else if 28 ≤ i then (u32le f.data.length).getD (i - 28) 0
  else if 18 ≤ i ∧ i - 18 < f.callTo.length then f.callTo.getD (i - 18) 0 % 128
  else if 8 ≤ i ∧ i - 8 < f.callFrom.length then f.callFrom.getD (i - 8) 0 % 128
  else if i = 6 then (f.PID.getD 240) % 256
  else if i = 4 then f.dataKind % 256
  else if i = 0 then f.port % 256
  else 0

theorem toFrameBuf_length (f : Frame) :
    (toFrameBuf f).length = 36 + f.data.length := by
  have hb0 : (List.replicate (36 + f.data.length) (0:Nat)).length = 36 + f.data.length := by
    simp
  have hb1 := writeBytes_length (List.replicate (36 + f.data.length) 0) 0
    [f.port % 256] (by omega)
  set b1 := writeBytes (List.replicate (36 + f.data.length) 0) 0 [f.port % 256]
  have hb2 := writeBytes_length b1 4 [f.dataKind % 256] (by omega)
  set b2 := writeBytes b1 4 [f.dataKind % 256]
  have hb3 := writeBytes_length b2 6 [(f.PID.getD 240) % 256] (by omega)
  set b3 := writeBytes b2 6 [(f.PID.getD 240) % 256]
  have hb4 := writeBytes_length b3 8 (f.callFrom.map (· % 128)) (by omega)
  set b4 := writeBytes b3 8 (f.callFrom.map (· % 128))
  have hb5 := writeBytes_length b4 18 (f.callTo.map (· % 128)) (by omega)
  set b5 := writeBytes b4 18 (f.callTo.map (· % 128))
  have hb6 := writeBytes_length b5 28 (u32le f.data.length) (by omega)
  set b6 := writeBytes b5 28 (u32le f.data.length)
  have hb7 := writeBytes_length b6 32 (u32le f.user) (by omega)
  set b7 := writeBytes b6 32 (u32le f.user)
  have hb8 := writeBytes_length b7 36 f.data (by omega)
  have hbuf : toFrameBuf f = writeBytes b7 36 f.data := rfl
  rw [hbuf]
  omega

theorem toFrameBuf_getD (f : Frame) (i : Nat) :
    (toFrameBuf f).getD i 0 = frameByteAt f i := by
  have hb0 : (List.replicate (36 + f.data.length) (0:Nat)).length = 36 + f.data.length := by
    simp
  have hb1 := writeBytes_length (List.replicate (36 + f.data.length) 0) 0
    [f.port % 256] (by omega)
  set b1 := writeBytes (List.replicate (36 + f.data.length) 0) 0 [f.port % 256] with hb1d
  have hb2 := writeBytes_length b1 4 [f.dataKind % 256] (by omega)
  set b2 := writeBytes b1 4 [f.dataKind % 256] with hb2d
  have hb3 := writeBytes_length b2 6 [(f.PID.getD 240) % 256] (by omega)
  set b3 := writeBytes b2 6 [(f.PID.getD 240) % 256] with hb3d
  have hb4 := writeBytes_length b3 8 (f.callFrom.map (· % 128)) (by omega)
  set b4 := writeBytes b3 8 (f.callFrom.map (· % 128)) with hb4d
  have hb5 := writeBytes_length b4 18 (f.callTo.map (· % 128)) (by omega)
  set b5 := writeBytes b4 18 (f.callTo.map (· % 128)) with hb5d
  have hb6 := writeBytes_length b5 28 (u32le f.data.length) (by omega)
  set b6 := writeBytes b5 28 (u32le f.data.length) with hb6d
  have hb7 := writeBytes_length b6 32 (u32le f.user) (by omega)
  set b7 := writeBytes b6 32 (u32le f.user) with hb7d
  have hbuf : toFrameBuf f = writeBytes b7 36 f.data := rfl
  rw [hbuf]
  unfold frameByteAt
  by_cases hout : 36 + f.data.length ≤ i
  · rw [if_pos hout]
    have := writeBytes_length b7 36 f.data (by omega)
    exact List.getD_eq_default _ _ (by omega)
  · rw [if_neg hout]
    push_neg at hout
    by_cases h36 : 36 ≤ i
    · rw [if_pos h36]
      rw [getD_writeBytes_mem _ _ _ _ (by omega) (by omega) (by omega)]
    · rw [if_neg h36]
      push_neg at h36
      rw [getD_writeBytes_lt _ _ _ _ (by omega) (by omega)]
      by_cases h32 : 32 ≤ i
      · rw [if_pos h32]
        rw [hb7d, getD_writeBytes_mem _ _ _ _ (by omega) (by simp [u32le]; omega)
          (by omega)]
      · rw [if_neg h32]
        push_neg at h32
        rw [hb7d, getD_writeBytes_lt _ _ _ _ (by omega) (by omega)]
        by_cases h28 : 28 ≤ i
        · rw [if_pos h28]
          rw [hb6d, getD_writeBytes_mem _ _ _ _ (by omega) (by simp [u32le]; omega)
            (by omega)]
        · rw [if_neg h28]
          push_neg at h28
          rw [hb6d, getD_writeBytes_lt _ _ _ _ (by omega) (by omega)]
          by_cases hct : 18 ≤ i ∧ i - 18 < f.callTo.length
          · rw [if_pos hct]
            rw [hb5d, getD_writeBytes_mem _ _ _ _ (by omega)
              (by simp only [List.length_map]; omega) (by omega)]
            simp only [List.getD_eq_getElem?_getD, List.getElem?_map]
            have : i - 18 < f.callTo.length := hct.2
            rw [List.getElem?_eq_getElem this]
            simp
          · rw [if_neg hct]
            have hb5v : b5.getD i 0 = b4.getD i 0 := by
              by_cases h18 : 18 ≤ i
              · have : f.callTo.length ≤ i - 18 := by omega
                rw [hb5d, getD_writeBytes_ge _ _ _ _
                  (by simp only [List.length_map]; omega) (by omega)]
              · rw [hb5d, getD_writeBytes_lt _ _ _ _ (by omega) (by omega)]
            rw [hb5v]
            by_cases hcf : 8 ≤ i ∧ i - 8 < f.callFrom.length
            · rw [if_pos hcf]
              rw [hb4d, getD_writeBytes_mem _ _ _ _ (by omega)
                (by simp only [List.length_map]; omega) (by omega)]
              simp only [List.getD_eq_getElem?_getD, List.getElem?_map]
              have : i - 8 < f.callFrom.length := hcf.2
              rw [List.getElem?_eq_getElem this]
              simp
            · rw [if_neg hcf]
              have hb4v : b4.getD i 0 = b3.getD i 0 := by
                by_cases h8 : 8 ≤ i
                · have : f.callFrom.length ≤ i - 8 := by omega
                  rw [hb4d, getD_writeBytes_ge _ _ _ _
                    (by simp only [List.length_map]; omega) (by omega)]
                · rw [hb4d, getD_writeBytes_lt _ _ _ _ (by omega) (by omega)]
              rw [hb4v]
              by_cases h6 : i = 6
              · subst h6
                rw [if_pos rfl]
                rw [hb3d, getD_writeBytes_mem _ _ _ _ (by omega) (by simp) (by omega)]
                simp
              · rw [if_neg h6]
                have hb3v : b3.getD i 0 = b2.getD i 0 := by
                  rcases Nat.lt_or_ge i 6 with h | h
                  · rw [hb3d, getD_writeBytes_lt _ _ _ _ (by omega) (by omega)]
                  · rw [hb3d, getD_writeBytes_ge _ _ _ _ (by simp; omega) (by omega)]
                rw [hb3v]
                by_cases h4 : i = 4
                · subst h4
                  rw [if_pos rfl]
                  rw [hb2d, getD_writeBytes_mem _ _ _ _ (by omega) (by simp) (by omega)]
                  simp
                · rw [if_neg h4]
                  have hb2v : b2.getD i 0 = b1.getD i 0 := by
                    rcases Nat.lt_or_ge i 4 with h | h
                    · rw [hb2d, getD_writeBytes_lt _ _ _ _ (by omega) (by omega)]
                    · rw [hb2d, getD_writeBytes_ge _ _ _ _ (by simp; omega) (by omega)]
                  rw [hb2v]
                  by_cases h0 : i = 0
                  · subst h0
                    rw [if_pos rfl]
                    rw [hb1d, getD_writeBytes_mem _ _ _ _ (by omega) (by simp) (by omega)]
                    simp
                  · rw [if_neg h0]
                    have hb1v : b1.getD i 0 = 0 := by
                      rw [hb1d, getD_writeBytes_ge _ _ _ _ (by simp; omega) (by omega)]
                      simp [List.getD_eq_getElem?_getD]
                    exact hb1v

/-- `getASCII` (src/guts.js lines 444-450): read bytes from `offset` until a
zero byte or the end of the buffer (JS `frame[i]` is falsy for both). -/
def getASCII (b : List Nat) (off : Nat) : List Nat :=
  (b.drop off).takeWhile (· ≠ 0)

/-- The object produced by `fromHeader`: its `PID` is always a number. -/
structure FrameHeader where
  port : Nat
  dataKind : Nat
  PID : Nat
  callFrom : List Nat
  callTo : List Nat
  user : Nat
deriving Repr, DecidableEq

/-- `fromHeader` (src/guts.js lines 453-466): reject buffers shorter than 36
bytes, then read the fields by offset. -/
def fromHeader (b : List Nat) : Except String FrameHeader :=
  if b.length < 36 then .error "shorter than a header" else
  .ok { port := b.getD 0 0
        dataKind := b.getD 4 0
        PID := b.getD 6 0
        callFrom := getASCII b 8
        callTo := getASCII b 18
        user := readU32LE b 32 }

/-- Decode an encoded frame: `fromHeader` on the 36-byte header, and the rest
of the bytes as the payload. -/
def decodeFrame (b : List Nat) : Except String (FrameHeader × List Nat) :=
  match fromHeader (b.take 36) with
  | .error e => .error e
  | .ok h => .ok (h, b.drop 36)

/-- Reassemble a decoded header and payload into a `Frame` object for
comparison with the original (the decoded `PID` is always present). -/
def decodedAsFrame (h : FrameHeader) (payload : List Nat) : Frame :=
  { port := h.port, dataKind := h.dataKind, PID := some h.PID,
    callFrom := h.callFrom, callTo := h.callTo, user := h.user, data := payload }

/-- Encode, then decode, then reassemble; `none` on any codec error. -/
def codecRoundtrip (f : Frame) : Option Frame :=
  match toFrame f with
  | .error _ => none
  | .ok b =>
    match decodeFrame b with
    | .error _ => none
    | .ok (h, d) => some (decodedAsFrame h d)

/-- The validity conditions of the claim on AGWPE frame objects: port in
0..255, dataKind a single ASCII character, PID in 0..255 when present,
callFrom and callTo NUL-free ASCII of at most 9 bytes, user an unsigned
32-bit integer, payload of bytes. -/
def validFrame (f : Frame) : Bool :=
  f.port ≤ 255 && f.dataKind ≤ 127
    && (match f.PID with | some p => p ≤ 255 | none => true)
    && f.callFrom.length ≤ 9 && f.callFrom.all (fun c => 1 ≤ c && c ≤ 127)
    && f.callTo.length ≤ 9 && f.callTo.all (fun c => 1 ≤ c && c ≤ 127)
    && f.user < 4294967296
    && f.data.length < 4294967296 && f.data.all (· ≤ 255)

theorem u32le_getD_sum (n : Nat) (h : n < 4294967296) :
    (u32le n).getD 0 0 + 256 * (u32le n).getD 1 0
      + 65536 * (u32le n).getD 2 0 + 16777216 * (u32le n).getD 3 0 = n := by
  simp only [u32le, List.getD_cons_zero, List.getD_cons_succ]
  omega

theorem frameByteAt_lt8 (f : Frame) (i : Nat) (h : i < 8) :
    frameByteAt f i =
      if i = 6 then (f.PID.getD 240) % 256
      else if i = 4 then f.dataKind % 256
      else if i = 0 then f.port % 256
      else 0 := by
  unfold frameByteAt
  rw [if_neg (by omega), if_neg (by omega), if_neg (by omega), if_neg (by omega),
    if_neg (by omega), if_neg (by omega)]

theorem frameByteAt_cf (f : Frame) (i : Nat) (h8 : 8 ≤ i) (h18 : i < 18) :
    frameByteAt f i =
      if i - 8 < f.callFrom.length then f.callFrom.getD (i - 8) 0 % 128 else 0 := by
  unfold frameByteAt
  rw [if_neg (by omega), if_neg (by omega), if_neg (by omega), if_neg (by omega),
    if_neg (by omega)]
  by_cases hc : i - 8 < f.callFrom.length
  · rw [if_pos ⟨h8, hc⟩, if_pos hc]
  · rw [if_neg (by omega), if_neg hc, if_neg (by omega), if_neg (by omega),
      if_neg (by omega)]

theorem frameByteAt_ct (f : Frame) (i : Nat) (h1 : 18 ≤ i) (h2 : i < 28) :
    frameByteAt f i =
      if i - 18 < f.callTo.length then f.callTo.getD (i - 18) 0 % 128
      else if i - 8 < f.callFrom.length then f.callFrom.getD (i - 8) 0 % 128
      else 0 := by
  unfold frameByteAt
  rw [if_neg (by omega), if_neg (by omega), if_neg (by omega), if_neg (by omega)]
  by_cases hc : i - 18 < f.callTo.length
  · rw [if_pos ⟨h1, hc⟩, if_pos hc]
  · rw [if_neg (by omega), if_neg hc]
    by_cases hf : i - 8 < f.callFrom.length
    · rw [if_pos ⟨by omega, hf⟩, if_pos hf]
    · rw [if_neg (by omega), if_neg hf, if_neg (by omega), if_neg (by omega),
        if_neg (by omega)]

theorem frameByteAt_u32 (f : Frame) (i : Nat) (h1 : 28 ≤ i) (h2 : i < 36) :
    frameByteAt f i =
      if 32 ≤ i then (u32le f.user).getD (i - 32) 0
      else (u32le f.data.length).getD (i - 28) 0 := by
  unfold frameByteAt
  rw [if_neg (by omega), if_neg (by omega)]
  by_cases h32 : 32 ≤ i
  · rw [if_pos h32, if_pos h32]
  · rw [if_neg h32, if_neg h32, if_pos h1]

theorem frameByteAt_data (f : Frame) (i : Nat) (h1 : 36 ≤ i)
    (h2 : i < 36 + f.data.length) :
    frameByteAt f i = f.data.getD (i - 36) 0 := by
  unfold frameByteAt
  rw [if_neg (by omega), if_pos h1]

/-- Unpack the conjuncts of `validFrame`. -/
theorem validFrame_parts (f : Frame) (hv : validFrame f = true) :
    f.port ≤ 255 ∧ f.dataKind ≤ 127
      ∧ (∀ p, f.PID = some p → p ≤ 255)
      ∧ f.callFrom.length ≤ 9 ∧ (∀ c ∈ f.callFrom, 1 ≤ c ∧ c ≤ 127)
      ∧ f.callTo.length ≤ 9 ∧ (∀ c ∈ f.callTo, 1 ≤ c ∧ c ≤ 127)
      ∧ f.user < 4294967296 ∧ f.data.length < 4294967296 := by
  simp only [validFrame, Bool.and_eq_true, decide_eq_true_eq, List.all_eq_true] at hv
  obtain ⟨⟨⟨⟨⟨⟨⟨⟨⟨hport, hkind⟩, hpid⟩, hcfl⟩, hcfc⟩, hctl⟩, hctc⟩, huser⟩, hdl⟩, -⟩ := hv
  refine ⟨hport, hkind, ?_, hcfl, ?_, hctl, ?_, huser, hdl⟩
  · intro p hp
    rw [hp] at hpid
    simpa using hpid
  · intro c hc
    have := hcfc c hc
    simp only [Bool.and_eq_true, decide_eq_true_eq] at this
    exact this
  · intro c hc
    have := hctc c hc
    simp only [Bool.and_eq_true, decide_eq_true_eq] at this
    exact this

theorem toFrame_ok (f : Frame) (h1 : f.data.length < 4294967296)
    (h2 : f.user < 4294967296) : toFrame f = .ok (toFrameBuf f) := by
  unfold toFrame
  rw [if_neg (by omega), if_neg (by omega)]

theorem drop36_toFrameBuf (f : Frame) : (toFrameBuf f).drop 36 = f.data := by
  apply listEqOfGetD
  · rw [List.length_drop, toFrameBuf_length]
    omega
  · intro i hi
    rw [List.length_drop, toFrameBuf_length] at hi
    rw [getD_drop, toFrameBuf_getD, frameByteAt_data f _ (by omega) (by omega)]
    congr 1
    omega

theorem fromHeader_toFrameBuf (f : Frame) (hv : validFrame f = true) :
    fromHeader ((toFrameBuf f).take 36) =
      .ok { port := f.port, dataKind := f.dataKind, PID := f.PID.getD 240,
            callFrom := f.callFrom, callTo := f.callTo, user := f.user } := by
  obtain ⟨hport, hkind, hpid, hcfl, hcfc, hctl, hctc, huser, hdl⟩ := validFrame_parts f hv
  have hblen : (toFrameBuf f).length = 36 + f.data.length := toFrameBuf_length f
  have htlen : ((toFrameBuf f).take 36).length = 36 := by
    rw [List.length_take]; omega
  have hB : ∀ i, i < 36 → ((toFrameBuf f).take 36).getD i 0 = frameByteAt f i := by
    intro i hi
    rw [getD_take _ _ _ hi, toFrameBuf_getD]
  unfold fromHeader
  rw [if_neg (by omega)]
  have hpid' : ((toFrameBuf f).take 36).getD 6 0 = f.PID.getD 240 := by
    rw [hB 6 (by omega), frameByteAt_lt8 f 6 (by omega)]
    norm_num
    cases hp : f.PID with
    | none => simp
    | some p =>
      have := hpid p hp
      simp only [hp, Option.getD_some]
      omega
  have hport' : ((toFrameBuf f).take 36).getD 0 0 = f.port := by
    rw [hB 0 (by omega), frameByteAt_lt8 f 0 (by omega)]
    norm_num
    omega
  have hkind' : ((toFrameBuf f).take 36).getD 4 0 = f.dataKind := by
    rw [hB 4 (by omega), frameByteAt_lt8 f 4 (by omega)]
    norm_num
    omega
  have hcf : getASCII ((toFrameBuf f).take 36) 8 = f.callFrom := by
    unfold getASCII
    apply takeWhile_eq_of_getD
    · rw [List.length_drop, htlen]; omega
    · intro i hi
      rw [getD_drop, hB (8 + i) (by omega),
        frameByteAt_cf f _ (by omega) (by omega),
        show 8 + i - 8 = i by omega, if_pos hi]
      have hmem : f.callFrom.getD i 0 ∈ f.callFrom := by
        rw [List.getD_eq_getElem _ _ hi]
        exact List.getElem_mem _
      obtain ⟨-, hle⟩ := hcfc _ hmem
      exact Nat.mod_eq_of_lt (by omega)
    · intro c hc
      obtain ⟨h1, -⟩ := hcfc c hc
      omega
    · left
      rw [getD_drop, hB (8 + f.callFrom.length) (by omega),
        frameByteAt_cf f _ (by omega) (by omega), if_neg (by omega)]
  have hct : getASCII ((toFrameBuf f).take 36) 18 = f.callTo := by
    unfold getASCII
    apply takeWhile_eq_of_getD
    · rw [List.length_drop, htlen]; omega
    · intro i hi
      rw [getD_drop, hB (18 + i) (by omega),
        frameByteAt_ct f _ (by omega) (by omega),
        show 18 + i - 18 = i by omega, if_pos hi]
      have hmem : f.callTo.getD i 0 ∈ f.callTo := by
        rw [List.getD_eq_getElem _ _ hi]
        exact List.getElem_mem _
      obtain ⟨-, hle⟩ := hctc _ hmem
      exact Nat.mod_eq_of_lt (by omega)
    · intro c hc
      obtain ⟨h1, -⟩ := hctc c hc
      omega
    · left
      rw [getD_drop, hB (18 + f.callTo.length) (by omega),
        frameByteAt_ct f _ (by omega) (by omega), if_neg (by omega), if_neg (by omega)]
  have huser' : readU32LE ((toFrameBuf f).take 36) 32 = f.user := by
    unfold readU32LE
    rw [hB 32 (by omega), hB 33 (by omega), hB 34 (by omega), hB 35 (by omega),
      frameByteAt_u32 f 32 (by omega) (by omega),
      frameByteAt_u32 f 33 (by omega) (by omega),
      frameByteAt_u32 f 34 (by omega) (by omega),
      frameByteAt_u32 f 35 (by omega) (by omega),
      if_pos (by omega : 32 ≤ 32), if_pos (by omega : 32 ≤ 33),
      if_pos (by omega : 32 ≤ 34), if_pos (by omega : 32 ≤ 35)]
    exact u32le_getD_sum f.user huser
  rw [hpid', hport', hkind', hcf, hct, huser']

/-- C1 as amended: for every valid frame, decode of encode restores all
fields, with an absent PID decoded as the sentinel 0xF0 = 240. -/
theorem frame_roundtrip (f : Frame) (hv : validFrame f = true) :
    codecRoundtrip f = some { f with PID := some (f.PID.getD 240) } := by
  obtain ⟨hport, hkind, hpid, hcfl, hcfc, hctl, hctc, huser, hdl⟩ := validFrame_parts f hv
  have h1 : toFrame f = .ok (toFrameBuf f) := toFrame_ok f hdl huser
  have h2 : decodeFrame (toFrameBuf f) =
      .ok ({ port := f.port, dataKind := f.dataKind, PID := f.PID.getD 240,
             callFrom := f.callFrom, callTo := f.callTo, user := f.user }, f.data) := by
    unfold decodeFrame
    rw [fromHeader_toFrameBuf f hv, drop36_toFrameBuf f]
  simp only [codecRoundtrip, h1, h2, decodedAsFrame]

/-- A valid frame whose PID is absent, used to refute C1 as stated. -/
def pidlessFrame : Frame :=
  { port := 1, dataKind := 67, PID := none,
    callFrom := [78, 48, 67, 65, 76, 76], callTo := [87, 49, 65, 87],
    user := 0, data := [72, 73] }

/-- C1 counterexample: for the valid frame `pidlessFrame` (PID absent),
decode of encode does not restore the frame exactly — the decoded PID is
the sentinel 0xF0 = 240, not absent. -/
theorem frame_roundtrip_not_exact :
    validFrame pidlessFrame = true ∧
      codecRoundtrip pidlessFrame ≠ some pidlessFrame := by
  constructor
  · decide
  · decide

/-- A valid frame with every field populated, for the C1 witness. -/
def sampleFrame : Frame :=
  { port := 2, dataKind := 68, PID := some 204,
    callFrom := [75, 54, 65, 66], callTo := [87, 49, 65, 87],
    user := 3, data := [1, 2, 3] }

theorem frame_roundtrip_witness :
    validFrame sampleFrame = true ∧
      codecRoundtrip sampleFrame =
        some { sampleFrame with PID := some (sampleFrame.PID.getD 240) } :=
  ⟨by decide, frame_roundtrip sampleFrame (by decide)⟩

/-- C10: `toFrame` performs no length validation on callFrom: when callFrom
is ASCII longer than 10 bytes and callTo is empty, encoding succeeds and the
bytes of callFrom beyond the tenth land in the callTo field (offsets
18..27). -/
theorem toFrame_callFrom_overflow (f : Frame)
    (hascii : ∀ c ∈ f.callFrom, c < 128)
    (hlong : 10 < f.callFrom.length) (hto : f.callTo = [])
    (hu : f.user < 4294967296) (hd : f.data.length < 4294967296) :
    toFrame f = .ok (toFrameBuf f) ∧
      ∀ i, 18 ≤ i → i ≤ 27 → i - 8 < f.callFrom.length →
        (toFrameBuf f).getD i 0 = f.callFrom.getD (i - 8) 0 := by
  refine ⟨toFrame_ok f hd hu, ?_⟩
  intro i h1 h2 h3
  rw [toFrameBuf_getD, frameByteAt_ct f i h1 (by omega), hto]
  rw [if_neg (by simp), if_pos h3]
  have hmem : f.callFrom.getD (i - 8) 0 ∈ f.callFrom := by
    rw [List.getD_eq_getElem _ _ h3]
    exact List.getElem_mem _
  exact Nat.mod_eq_of_lt (hascii _ hmem)

/-- A frame whose callFrom is 12 ASCII bytes and callTo is empty. -/
def overflowFrame : Frame :=
  { port := 0, dataKind := 88, PID := none,
    callFrom := [65, 66, 67, 68, 69, 70, 71, 72, 73, 74, 75, 76], callTo := [],
    user := 0, data := [] }

theorem toFrame_callFrom_overflow_witness :
    toFrame overflowFrame = .ok (toFrameBuf overflowFrame) ∧
      (toFrameBuf overflowFrame).getD 18 0 = 75 := by
  have h := toFrame_callFrom_overflow overflowFrame (by decide) (by decide) rfl
    (by decide) (by decide)
  refine ⟨h.1, ?_⟩
  have h18 := h.2 18 (by decide) (by decide) (by decide)
  exact h18.trans (by decide)

/-! ## Receiver (src/guts.js lines 469-557: Receiver._write) -/

/-- The Receiver's mutable state: the filled prefix of its 36-byte header
buffer (`headerLength` bytes of `this.header`) and the elastic payload
buffer (`this.data`, `none` when null). -/
structure ReceiverState where
  header : List Nat
  data : Option (List Nat)
deriving Repr, DecidableEq

/-- A frame emitted by the Receiver, instrumented with the raw 36 header
bytes it was decoded from. -/
structure EmittedFrame where
  headerBytes : List Nat
  payload : List Nat
deriving Repr, DecidableEq

/-- The bytes currently buffered by the Receiver. -/
def rcvBuffered (st : ReceiverState) : List Nat :=
  st.header ++ st.data.getD []

/-- `dataLength`: the length field read from the completed header. -/
def rcvDL (st : ReceiverState) : Nat := readU32LE st.header 28

/-- One emission of the `Receiver._write` loop: the result frame carries the
current header bytes and exactly `dataLength` bytes of payload. -/
def rcvEmit (st : ReceiverState) : EmittedFrame :=
  { headerBytes := st.header, payload := (st.data.getD []).take (rcvDL st) }

/-- The shift after an emission: `headerLength = min(36, bufferLength -
dataLength)` bytes move into the header buffer and the rest (if non-empty)
stays as the payload buffer. -/
def rcvStep (st : ReceiverState) : ReceiverState :=
  { header := ((st.data.getD []).drop (rcvDL st)).take
      (min 36 ((st.data.getD []).length - rcvDL st))
    data :=
      if (st.data.getD []).length -
          (rcvDL st + min 36 ((st.data.getD []).length - rcvDL st)) = 0
      then none
      else some ((st.data.getD []).drop
        (rcvDL st + min 36 ((st.data.getD []).length - rcvDL st))) }

/-- The `while(true)` loop of `Receiver._write`: while the header is complete
and the payload buffer holds at least `dataLength` bytes, emit a frame and
shift the remainder. -/
def rcvDrain (st : ReceiverState) : ReceiverState × List EmittedFrame :=
  if st.header.length < 36 then (st, [])
  else if (st.data.getD []).length < rcvDL st then (st, [])
  else
    ((rcvDrain (rcvStep st)).1, rcvEmit st :: (rcvDrain (rcvStep st)).2)
termination_by st.header.length + (st.data.getD []).length
decreasing_by
  simp only [rcvStep, rcvDL]
  split <;>
    simp only [Option.getD_none, Option.getD_some, List.length_nil,
      List.length_take, List.length_drop] <;>
    omega

/-- `Receiver._write` on one chunk: append the chunk (topping up the header
first when no payload buffer is open), then drain whole frames. -/
def rcvWrite (st : ReceiverState) (chunk : List Nat) :
    ReceiverState × List EmittedFrame :=
  let st1 :=
    match st.data with
    | some d => { st with data := some (d ++ chunk) }
    | none =>
      let headerSlice := min (36 - st.header.length) chunk.length
      if headerSlice < chunk.length
      then { header := st.header ++ chunk.take headerSlice
             data := some (chunk.drop headerSlice) }
      else { header := st.header ++ chunk.take headerSlice
             data := none }
  rcvDrain st1

/-- Feed a sequence of chunks to the Receiver, collecting emitted frames. -/
def rcvRun (st : ReceiverState) : List (List Nat) → ReceiverState × List EmittedFrame
  | [] => (st, [])
  | c :: cs =>
    let r1 := rcvWrite st c
    let r2 := rcvRun r1.1 cs
    (r2.1, r1.2 ++ r2.2)

/-- The Receiver's initial state: empty header, no payload buffer. -/
def rcvInit : ReceiverState := { header := [], data := none }

/-- Flatten an emitted frame back to its wire bytes. -/
def emittedBytes (e : EmittedFrame) : List Nat := e.headerBytes ++ e.payload

theorem rcvStep_buffered (st : ReceiverState)
    (h : rcvDL st ≤ (st.data.getD []).length) :
    (rcvEmit st).payload ++ rcvBuffered (rcvStep st) = st.data.getD [] := by
  have hrest : rcvBuffered (rcvStep st) =
      ((st.data.getD []).drop (rcvDL st)).take
        (min 36 ((st.data.getD []).length - rcvDL st)) ++
      ((st.data.getD []).drop (rcvDL st)).drop
        (min 36 ((st.data.getD []).length - rcvDL st)) := by
    unfold rcvBuffered rcvStep
    simp only
    congr 1
    rw [List.drop_drop]
    by_cases hz : (st.data.getD []).length -
        (rcvDL st + min 36 ((st.data.getD []).length - rcvDL st)) = 0
    · rw [if_pos hz]
      have h0 : ((st.data.getD []).drop
          (rcvDL st + min 36 ((st.data.getD []).length - rcvDL st))).length = 0 := by
        rw [List.length_drop]; omega
      rw [List.eq_nil_of_length_eq_zero h0]
      rfl
    · rw [if_neg hz]
      rfl
  rw [hrest, List.take_append_drop]
  unfold rcvEmit
  simp only
  rw [List.take_append_drop]

theorem rcvDrain_conserves (st : ReceiverState) :
    ((rcvDrain st).2.map emittedBytes).join ++ rcvBuffered (rcvDrain st).1 =
      rcvBuffered st ∧
    ∀ e ∈ (rcvDrain st).2, e.payload.length = readU32LE e.headerBytes 28 := by
  generalize hn : st.header.length + (st.data.getD []).length = n
  induction n using Nat.strong_induction_on generalizing st with
  | _ n ih =>
  rw [rcvDrain]
  by_cases h36 : st.header.length < 36
  · rw [if_pos h36]
    simp
  · rw [if_neg h36]
    by_cases hlt : (st.data.getD []).length < rcvDL st
    · rw [if_pos hlt]
      simp
    · rw [if_neg hlt]
      have hmeas : (rcvStep st).header.length + ((rcvStep st).data.getD []).length < n := by
        simp only [rcvStep]
        split <;>
          simp only [Option.getD_none, Option.getD_some, List.length_nil,
            List.length_take, List.length_drop] <;>
          omega
      obtain ⟨ihc, ihl⟩ := ih _ hmeas (rcvStep st) rfl
      refine ⟨?_, ?_⟩
      · show (List.map emittedBytes (rcvEmit st :: (rcvDrain (rcvStep st)).2)).join ++
            rcvBuffered (rcvDrain (rcvStep st)).1 = rcvBuffered st
        calc (List.map emittedBytes (rcvEmit st :: (rcvDrain (rcvStep st)).2)).join ++
              rcvBuffered (rcvDrain (rcvStep st)).1
            = emittedBytes (rcvEmit st) ++
              ((List.map emittedBytes (rcvDrain (rcvStep st)).2).join ++
                rcvBuffered (rcvDrain (rcvStep st)).1) := by
              simp [List.append_assoc]
          _ = emittedBytes (rcvEmit st) ++ rcvBuffered (rcvStep st) := by rw [ihc]
          _ = st.header ++ ((rcvEmit st).payload ++ rcvBuffered (rcvStep st)) := by
              simp [emittedBytes, rcvEmit, List.append_assoc]
          _ = st.header ++ st.data.getD [] := by
              rw [rcvStep_buffered st (le_of_not_lt hlt)]
          _ = rcvBuffered st := rfl
      · show ∀ e ∈ rcvEmit st :: (rcvDrain (rcvStep st)).2,
          e.payload.length = readU32LE e.headerBytes 28
        intro e he
        rcases List.mem_cons.mp he with he | he
        · subst he
          show ((st.data.getD []).take (rcvDL st)).length = readU32LE st.header 28
          rw [List.length_take]
          unfold rcvDL at hlt ⊢
          omega
        · exact ihl e he

theorem rcvWrite_buffered (st : ReceiverState) (chunk : List Nat) :
    ((rcvWrite st chunk).2.map emittedBytes).join ++
        rcvBuffered (rcvWrite st chunk).1 =
      rcvBuffered st ++ chunk ∧
    ∀ e ∈ (rcvWrite st chunk).2, e.payload.length = readU32LE e.headerBytes 28 := by
  unfold rcvWrite
  cases hd : st.data with
  | some d =>
    simp only
    have h := rcvDrain_conserves { st with data := some (d ++ chunk) }
    refine ⟨?_, h.2⟩
    rw [h.1]
    unfold rcvBuffered
    simp [hd]
  | none =>
    simp only
    by_cases hs : min (36 - st.header.length) chunk.length < chunk.length
    · rw [if_pos hs]
      have h := rcvDrain_conserves
        { header := st.header ++ chunk.take (min (36 - st.header.length) chunk.length)
          data := some (chunk.drop (min (36 - st.header.length) chunk.length)) }
      refine ⟨?_, h.2⟩
      rw [h.1]
      unfold rcvBuffered
      simp only [Option.getD_some, Option.getD_none, hd, List.append_nil,
        List.append_assoc]
      rw [List.take_append_drop]
    · rw [if_neg hs]
      have h := rcvDrain_conserves
        { header := st.header ++ chunk.take (min (36 - st.header.length) chunk.length)
          data := none }
      refine ⟨?_, h.2⟩
      rw [h.1]
      unfold rcvBuffered
      simp only [Option.getD_none, hd, List.append_nil, List.append_assoc]
      rw [List.take_of_length_le (by omega)]

/-- C9: the concatenation of the frames emitted so far (raw header bytes
plus payload, in emission order) followed by the Receiver's partial header
and payload buffers equals the concatenation of all bytes received, and
every emitted frame's payload has exactly the length stated in its header's
length field (offset 28, uint32LE). -/
theorem receiver_conservation (chunks : List (List Nat)) :
    ((rcvRun rcvInit chunks).2.map emittedBytes).join ++
        rcvBuffered (rcvRun rcvInit chunks).1 =
      chunks.join ∧
    ∀ e ∈ (rcvRun rcvInit chunks).2,
      e.payload.length = readU32LE e.headerBytes 28 := by
  have main : ∀ cs (st : ReceiverState),
      ((rcvRun st cs).2.map emittedBytes).join ++ rcvBuffered (rcvRun st cs).1 =
        rcvBuffered st ++ cs.join ∧
      ∀ e ∈ (rcvRun st cs).2, e.payload.length = readU32LE e.headerBytes 28 := by
    intro cs
    induction cs with
    | nil => intro st; simp [rcvRun]
    | cons c cs ihcs =>
      intro st
      obtain ⟨hw, hwl⟩ := rcvWrite_buffered st c
      obtain ⟨hr, hrl⟩ := ihcs (rcvWrite st c).1
      unfold rcvRun
      constructor
      · simp only [List.map_append, List.join_append, List.append_assoc]
        rw [hr, ← List.append_assoc, hw]
        simp [List.join_cons]
      · intro e he
        simp only [List.mem_append] at he
        rcases he with he | he
        · exact hwl e he
        · exact hrl e he
  have h := main chunks rcvInit
  simpa [rcvBuffered, rcvInit] using h

/-- A 36-byte header announcing a 2-byte payload, for the C9 witness. -/
def rcvHdrExample : List Nat :=
  [0, 0, 0, 0, 68, 0, 240, 0,
   0, 0, 0, 0, 0, 0, 0, 0, 0, 0,
   0, 0, 0, 0, 0, 0, 0, 0, 0, 0,
   2, 0, 0, 0, 0, 0, 0, 0]

/-- The header and payload split across two odd-sized chunks. -/
def rcvChunksExample : List (List Nat) :=
  [rcvHdrExample.take 20, rcvHdrExample.drop 20 ++ [5, 6]]

theorem receiver_conservation_witness :
    ((rcvRun rcvInit rcvChunksExample).2.map emittedBytes).join ++
        rcvBuffered (rcvRun rcvInit rcvChunksExample).1 =
      rcvChunksExample.join :=
  (receiver_conservation rcvChunksExample).1

/-! ## Port router (src/server.js lines 453-501: PortRouter.onFrameFromAGW) -/

/-- One observable effect of `PortRouter.onFrameFromAGW`. -/
inductive RouterEffect
  | serverError (code : String)
  | toAGW (f : Frame)
  | setPorts (ports : List Nat)
  | toClient (f : Frame)
deriving Repr, DecidableEq

/-- The leading decimal digits of a byte string. -/
def leadingDigits (s : List Nat) : List Nat :=
  s.takeWhile (fun c => 48 ≤ c && c ≤ 57)

/-- The numeric value of a decimal digit string. -/
def digitsToNat (ds : List Nat) : Nat :=
  ds.foldl (fun a c => a * 10 + (c - 48)) 0

/-- JS `parseInt` as the source uses it (on strings with no sign, leading
whitespace or radix prefix): the leading decimal digits, `none` (NaN) when
there are none. -/
def parseIntJS (s : List Nat) : Option Nat :=
  if leadingDigits s = [] then none else some (digitsToNat (leadingDigits s))

/-- The port list parsed from a 'G' payload: `parts[0]` is the ASCII text up
to the first ';', and `ports = [0 .. parseInt(parts[0]) - 1]` (empty when
parseInt is NaN, since `p < NaN` is false). -/
def portsOfG (data : List Nat) : List Nat :=
  match parseIntJS ((data.map (· % 128)).takeWhile (· ≠ 59)) with
  | none => []
  | some n => List.range n

/-- `PortRouter.onFrameFromAGW` (src/server.js lines 472-500): 'G' parses the
port list, sends a 'g' query per port and records the ports on the Server;
'X' emits an ENOENT error on the Server unless the payload's first byte
is 1; anything else goes to the port's client. -/
def portRouterOnFrame (frame : Frame) : List RouterEffect :=
  if frame.dataKind = 71 then
    (portsOfG frame.data).map (fun p =>
      .toAGW { port := p, dataKind := 103, PID := none,
               callFrom := [], callTo := [], user := 0, data := [] })
      ++ [.setPorts (portsOfG frame.data)]
  else if frame.dataKind = 88 then
    if frame.data.length > 0 && frame.data.getD 0 0 == 1 then []
    else [.serverError "ENOENT"]
  else [.toClient frame]

/-- An 'X' register-call reply whose payload's first byte is 0 (failure). -/
def xFailFrame : Frame :=
  { port := 0, dataKind := 88, PID := none,
    callFrom := [78, 48, 67, 65, 76, 76], callTo := [], user := 0, data := [0] }

/-- C7 counterexample: a rejected 'X' reply makes the PortRouter emit a
Server error with code ENOENT — not a per-call-sign registration event
tagged EACCES; no EACCES-coded effect is emitted at all. -/
theorem registration_failure_not_eacces :
    portRouterOnFrame xFailFrame = [RouterEffect.serverError "ENOENT"] ∧
      RouterEffect.serverError "ENOENT" ≠ RouterEffect.serverError "EACCES" := by
  constructor
  · rfl
  · decide

/-- C7 as amended: for every inbound 'X' register-call reply, if the
payload's first byte is not 1 (or the payload is empty) the Server emits
exactly one error event, with code ENOENT; if the first byte is 1, nothing
is emitted.  Success produces no registration event at all. -/
theorem registration_reply_effects (f : Frame) (hk : f.dataKind = 88) :
    (f.data.length > 0 → f.data.getD 0 0 = 1 → portRouterOnFrame f = []) ∧
    (f.data.length = 0 ∨ f.data.getD 0 0 ≠ 1 →
      portRouterOnFrame f = [.serverError "ENOENT"]) := by
  unfold portRouterOnFrame
  rw [if_neg (by omega), if_pos hk]
  constructor
  · intro h1 h2
    rw [if_pos (by
      simp only [Bool.and_eq_true, decide_eq_true_eq, beq_iff_eq]
      exact ⟨h1, h2⟩)]
  · intro h
    have hcond : ¬((f.data.length > 0 && f.data.getD 0 0 == 1) = true) := by
      simp only [Bool.and_eq_true, decide_eq_true_eq, beq_iff_eq]
      rintro ⟨hl, h1⟩
      rcases h with h | h
      · omega
      · exact h h1
    rw [if_neg hcond]

theorem registration_reply_effects_witness :
    xFailFrame.dataKind = 88 ∧
      portRouterOnFrame xFailFrame = [.serverError "ENOENT"] :=
  ⟨rfl, (registration_reply_effects xFailFrame rfl).2 (Or.inr (by decide))⟩

/-! ## AX.25 Connection (src/server.js lines 946-1036) -/

/-- The Connection's boolean flags (`_closed`, `_ended`, `_pushable`,
`_finished`). -/
structure ConnectionState where
  closed : Bool
  ended : Bool
  pushable : Bool
  finished : Bool
deriving Repr, DecidableEq

/-- Events a Connection emits to the application. -/
inductive ConnEvent
  | endEvent (data : List Nat)
  | dataEvent (data : List Nat)
  | errorEvent (msg : String)
  | finishEvent
  | closeEvent
deriving Repr, DecidableEq

/-- Inputs driving a Connection: an inbound frame (with the boolean that
`this.push` would return, stream backpressure being external state), a
`_read` call, or a `destroy()` call. -/
inductive ConnInput
  | frame (f : Frame) (pushRet : Bool)
  | readCall
  | destroyCall
deriving Repr, DecidableEq

/-- A fresh Connection: `_pushable = false`, `_closed = false`. -/
def connInit : ConnectionState :=
  { closed := false, ended := false, pushable := false, finished := false }

/-- `Connection.onFrameFromAGW` (src/server.js lines 975-999): 'd' emits
'end' and sets `_ended`; 'D' errors after close, errors on overflow when not
pushable, otherwise pushes the payload (a 'data' event) and records push's
return; other kinds are ignored. -/
def connOnFrame (s : ConnectionState) (f : Frame) (pushRet : Bool) :
    ConnectionState × List ConnEvent :=
  if f.dataKind = 100 then
    ({ s with ended := true }, [.endEvent f.data])
  else if f.dataKind = 68 then
    if s.closed then (s, [.errorEvent "received data after close"])
    else if !s.pushable then (s, [.errorEvent "receive buffer overflow"])
    else ({ s with pushable := pushRet }, [.dataEvent f.data])
  else (s, [])

/-- `Connection._destroy` (src/server.js lines 1019-1034): run `_final` if it
has not run (emitting 'finish'), then emit 'end' and 'close' if not yet
emitted, setting the flags. -/
def connDestroy (s : ConnectionState) : ConnectionState × List ConnEvent :=
  let r1 := if s.finished then ([] : List ConnEvent) else [.finishEvent]
  let r2 := if s.ended then ([] : List ConnEvent) else [.endEvent []]
  let r3 := if s.closed then ([] : List ConnEvent) else [.closeEvent]
  ({ closed := true, ended := true, pushable := s.pushable, finished := true },
   r1 ++ r2 ++ r3)

/-- One input step of a Connection. -/
def connStep (s : ConnectionState) : ConnInput → ConnectionState × List ConnEvent
  | .frame f pushRet => connOnFrame s f pushRet
  | .readCall => ({ s with pushable := true }, [])
  | .destroyCall => connDestroy s

/-- A sequence of inputs. -/
def connRun (s : ConnectionState) : List ConnInput → ConnectionState × List ConnEvent
  | [] => (s, [])
  | i :: is =>
    let r1 := connStep s i
    let r2 := connRun r1.1 is
    (r2.1, r1.2 ++ r2.2)

/-- Whether an event is a 'data' event. -/
def isDataEvent : ConnEvent → Bool
  | .dataEvent _ => true
  | _ => false

/-- A disconnect frame followed by a data frame. -/
def connCounterInputs : List ConnInput :=
  [.readCall,
   .frame { port := 0, dataKind := 100, PID := none, callFrom := [], callTo := [],
            user := 0, data := [] } true,
   .frame { port := 0, dataKind := 68, PID := none, callFrom := [], callTo := [],
            user := 0, data := [72, 73] } true]

/-- C8 counterexample: a Connection that has emitted its disconnected event
(the 'end' for a 'd' frame) still emits a 'data' event for a later 'D'
frame: nothing in `onFrameFromAGW` checks `_ended`, only `_closed`. -/
theorem connection_data_after_disconnect :
    (connRun connInit connCounterInputs).2 =
      [ConnEvent.endEvent [], ConnEvent.dataEvent [72, 73]] := by
  decide

/-- After close, `onFrameFromAGW` emits no 'data' and keeps `_closed`. -/
theorem connOnFrame_closed (s : ConnectionState) (f : Frame) (pushRet : Bool)
    (hc : s.closed = true) :
    (connOnFrame s f pushRet).1.closed = true ∧
      ∀ e ∈ (connOnFrame s f pushRet).2, isDataEvent e = false := by
  unfold connOnFrame
  by_cases h100 : f.dataKind = 100
  · rw [if_pos h100]
    refine ⟨hc, ?_⟩
    intro e' he'
    simp only [List.mem_singleton] at he'
    rw [he']
    rfl
  · rw [if_neg h100]
    by_cases h68 : f.dataKind = 68
    · rw [if_pos h68, if_pos hc]
      refine ⟨hc, ?_⟩
      intro e' he'
      simp only [List.mem_singleton] at he'
      rw [he']
      rfl
    · rw [if_neg h68]
      exact ⟨hc, by intro e' he'; simp at he'⟩

/-- C8 as amended: once the Connection has been destroyed (its `_closed`
flag set, i.e. it has emitted 'close'), it never again emits a 'data'
event, no matter what frames or calls are delivered afterwards. -/
theorem connection_no_data_after_close (s : ConnectionState)
    (hc : s.closed = true) (inputs : List ConnInput) :
    ∀ e ∈ (connRun s inputs).2, isDataEvent e = false := by
  induction inputs generalizing s with
  | nil => intro e he; simp [connRun] at he
  | cons i is ih =>
    intro e he
    unfold connRun at he
    simp only [List.mem_append] at he
    have hstep : (connStep s i).1.closed = true ∧
        ∀ e' ∈ (connStep s i).2, isDataEvent e' = false := by
      cases i with
      | frame f pushRet => exact connOnFrame_closed s f pushRet hc
      | readCall => exact ⟨hc, by intro e' he'; simp [connStep] at he'⟩
      | destroyCall =>
        refine ⟨rfl, ?_⟩
        have hifev : ∀ (b : Bool) (ev : ConnEvent), isDataEvent ev = false →
            ∀ e' ∈ (if b then ([] : List ConnEvent) else [ev]),
              isDataEvent e' = false := by
          intro b ev hev e' he'
          cases b with
          | true => simp at he'
          | false =>
            simp at he'
            rw [he']
            exact hev
        intro e' he'
        have he2 : e' ∈ (connDestroy s).2 := he'
        simp only [connDestroy, List.mem_append] at he2
        rcases he2 with (he2 | he2) | he2
        · exact hifev s.finished ConnEvent.finishEvent rfl e' he2
        · exact hifev s.ended (ConnEvent.endEvent []) rfl e' he2
        · exact hifev s.closed ConnEvent.closeEvent rfl e' he2
    rcases he with he | he
    · exact hstep.2 e he
    · exact ih (connStep s i).1 hstep.1 e he

/-- An already-destroyed Connection. -/
def closedConnExample : ConnectionState :=
  { closed := true, ended := true, pushable := true, finished := true }

/-- A 'D' frame delivered to it. -/
def lateDataInput : ConnInput :=
  ConnInput.frame
    { port := 0, dataKind := 68, PID := none, callFrom := [],
      callTo := [], user := 0, data := [1] } true

theorem connection_no_data_after_close_witness :
    isDataEvent (ConnEvent.errorEvent "received data after close") = false :=
  connection_no_data_after_close closedConnExample rfl [lateDataInput]
    (ConnEvent.errorEvent "received data after close") (by decide)

/-! ## Throttle (src/server.js lines 574-694 and 727-807) -/

/-- The closures the source pushes into a throttle's buffer: the stream
write-callback from `_transform` (no effect on throttle state), the two
deferred actions of `bufferFinalFrames`, and the final `_flush` callback. -/
inductive ThrottleAction
  | afterTransform
  | setMaxOne
  | restoreMax
  | afterFlush
deriving Repr, DecidableEq

/-- A buffered item: an outbound frame or a deferred function. -/
inductive ThrottleItem
  | frame (f : Frame)
  | callback (a : ThrottleAction)
deriving Repr, DecidableEq

/-- A ConnectionThrottle's state.  `ID` is the configured station
identification bytes; the empty list plays the role of both an absent and an
empty `options.ID` (both falsy in the source). -/
structure ThrottleState where
  buffer : List ThrottleItem
  inFlight : Nat
  maxInFlight : Nat
  polling : Bool
  disconnected : Bool
  port : Nat
  myCall : List Nat
  theirCall : List Nat
  ID : List Nat
deriving Repr, DecidableEq

/-- A record of one `this.push(frame)` call, instrumented with the values of
`inFlight` and `maxInFlight` at the moment of the push. -/
structure PushRecord where
  frame : Frame
  inFlightAtPush : Nat
  maxAtPush : Nat
deriving Repr, DecidableEq

/-- The data-bearing dataKinds 'D', 'K', 'M', 'V' (the switch in
`Throttle.pushFrame`). -/
def dataBearing (f : Frame) : Bool :=
  f.dataKind = 68 || f.dataKind = 75 || f.dataKind = 77 || f.dataKind = 86

/-- `ConnectionThrottle.queryFramesInFlight` (lines 738-745): a 'Y' frame. -/
def queryFrame (s : ThrottleState) : Frame :=
  { port := s.port, dataKind := 89, PID := none,
    callFrom := s.myCall, callTo := s.theirCall, user := 0, data := [] }

/-- The effect of calling one buffered closure. -/
def applyAction (a : ThrottleAction) (s : ThrottleState) : ThrottleState :=
  match a with
  | .afterTransform => s
  | .setMaxOne => { s with maxInFlight := 1 }
  | .restoreMax => { s with maxInFlight := 8, disconnected := true }
  | .afterFlush => { s with polling := false }

/-- `Throttle.pushFrame` (lines 636-658): a data-bearing frame increments
`inFlight`; when `inFlight` then equals `maxInFlight / 2` (JS exact rational
division, i.e. `2 * inFlight = maxInFlight` over integers) a look-ahead 'Y'
query is pushed first; then the frame itself is pushed. -/
def pushFrame (s : ThrottleState) (f : Frame) : ThrottleState × List PushRecord :=
  if dataBearing f then
    ({ s with inFlight := s.inFlight + 1 },
     (if 2 * (s.inFlight + 1) = s.maxInFlight
       then [{ frame := queryFrame s, inFlightAtPush := s.inFlight + 1,
               maxAtPush := s.maxInFlight }]
       else ([] : List PushRecord)) ++
     [{ frame := f, inFlightAtPush := s.inFlight + 1, maxAtPush := s.maxInFlight }])
  else
    (s, [{ frame := f, inFlightAtPush := s.inFlight, maxAtPush := s.maxInFlight }])

/-- The loop of `Throttle.pushBuffer` (lines 612-634) over the buffered
items: call leading callbacks; push a frame while `inFlight < maxInFlight`
(stopping the poll timer); otherwise leave the rest buffered and start
polling. -/
def pushBufferLoop (s : ThrottleState) : List ThrottleItem → ThrottleState × List PushRecord
  | [] => ({ s with buffer := [] }, [])
  | .callback a :: rest => pushBufferLoop (applyAction a s) rest
  | .frame f :: rest =>
    if s.inFlight < s.maxInFlight then
      let p := pushFrame s f
      let r := pushBufferLoop { p.1 with polling := false } rest
      (r.1, p.2 ++ r.2)
    else
      ({ s with buffer := .frame f :: rest, polling := true }, [])

def pushBuffer (s : ThrottleState) : ThrottleState × List PushRecord :=
  pushBufferLoop { s with buffer := [] } s.buffer

/-- The 'd' disconnect frame `bufferFinalFrames` enqueues. -/
def connDFrame (s : ThrottleState) : Frame :=
  { port := s.port, dataKind := 100, PID := none,
    callFrom := s.myCall, callTo := s.theirCall, user := 0, data := [] }

/-- The tail 'M' UNPROTO ID frame, with callTo = "ID". -/
def connMFrame (s : ThrottleState) : Frame :=
  { port := s.port, dataKind := 77, PID := none,
    callFrom := s.myCall, callTo := [73, 68], user := 0, data := s.ID }

/-- `ConnectionThrottle.bufferFinalFrames` (lines 774-806): unless already
disconnected, append a deferred `maxInFlight := 1`, the 'd' frame and a
deferred `maxInFlight := 8; _disconnected := true`; then, if an ID is
configured, append the 'M' UNPROTO ID frame. -/
def bufferFinalFrames (s : ThrottleState) : ThrottleState :=
  let s1 := if s.disconnected then s
    else { s with buffer := s.buffer ++
      [.callback .setMaxOne, .frame (connDFrame s), .callback .restoreMax] }
  if s.ID ≠ [] then { s1 with buffer := s1.buffer ++ [.frame (connMFrame s)] }
  else s1

/-- The events that drive a ConnectionThrottle. -/
inductive ThrottleEvent
  | write (f : Frame)
  | updateInFlight (n : Nat)
  | pollTick
  | flushEnd
deriving Repr, DecidableEq

/-- One event: `_transform` appends the frame and its callback then drains;
a 'Y' reply sets `inFlight` then drains; a poll tick pushes a query while
polling; `_flush` appends the final frames and the flush callback then
drains. -/
def throttleStep (s : ThrottleState) : ThrottleEvent → ThrottleState × List PushRecord
  | .write f =>
    pushBuffer { s with buffer := s.buffer ++ [.frame f, .callback .afterTransform] }
  | .updateInFlight n => pushBuffer { s with inFlight := n }
  | .pollTick => if s.polling then pushFrame s (queryFrame s) else (s, [])
  | .flushEnd =>
    pushBuffer { bufferFinalFrames s with
      buffer := (bufferFinalFrames s).buffer ++ [.callback .afterFlush] }

def throttleRun (s : ThrottleState) : List ThrottleEvent → ThrottleState × List PushRecord
  | [] => (s, [])
  | e :: es =>
    let r1 := throttleStep s e
    let r2 := throttleRun r1.1 es
    (r2.1, r1.2 ++ r2.2)

/-- A fresh ConnectionThrottle (`inFlight = 0`, `maxInFlight = 8`). -/
def connThrottleInit (port : Nat) (myCall theirCall ID : List Nat) : ThrottleState :=
  { buffer := [], inFlight := 0, maxInFlight := 8, polling := false,
    disconnected := false, port := port, myCall := myCall,
    theirCall := theirCall, ID := ID }

theorem pushFrame_bound (s : ThrottleState) (f : Frame)
    (h : s.inFlight < s.maxInFlight) :
    ∀ r ∈ (pushFrame s f).2, dataBearing r.frame = true →
      r.inFlightAtPush ≤ r.maxAtPush := by
  intro r hr hdata
  unfold pushFrame at hr
  by_cases hd : dataBearing f
  · rw [if_pos hd] at hr
    simp only [List.mem_append] at hr
    rcases hr with hr | hr
    · split at hr
      · simp only [List.mem_singleton] at hr
        subst hr
        simp [queryFrame, dataBearing] at hdata
      · simp at hr
    · simp only [List.mem_singleton] at hr
      subst hr
      simpa using h
  · rw [if_neg hd] at hr
    simp only [List.mem_singleton] at hr
    subst hr
    exact absurd hdata (by simpa using hd)

theorem pushBufferLoop_bound (items : List ThrottleItem) :
    ∀ s, ∀ r ∈ (pushBufferLoop s items).2, dataBearing r.frame = true →
      r.inFlightAtPush ≤ r.maxAtPush := by
  induction items with
  | nil => intro s r hr; simp [pushBufferLoop] at hr
  | cons item rest ih =>
    intro s r hr hdata
    cases item with
    | callback a =>
      exact ih (applyAction a s) r hr hdata
    | frame f =>
      unfold pushBufferLoop at hr
      by_cases h : s.inFlight < s.maxInFlight
      · rw [if_pos h] at hr
        simp only [List.mem_append] at hr
        rcases hr with hr | hr
        · exact pushFrame_bound s f h r hr hdata
        · exact ih _ r hr hdata
      · rw [if_neg h] at hr
        simp at hr

/-- C3: in every run of a throttle, at the moment any data-bearing frame
('D', 'K', 'M' or 'V') is pushed downstream, `inFlight` (including that
frame) does not exceed `maxInFlight` — frames are pushed from the queue only
while `inFlight < maxInFlight`; and pushing a non-data frame never changes
`inFlight`. -/
theorem throttle_inflight_bound (s : ThrottleState) (events : List ThrottleEvent) :
    (∀ r ∈ (throttleRun s events).2, dataBearing r.frame = true →
      r.inFlightAtPush ≤ r.maxAtPush) ∧
    (∀ (s' : ThrottleState) (f : Frame), dataBearing f = false →
      (pushFrame s' f).1.inFlight = s'.inFlight) := by
  constructor
  · induction events generalizing s with
    | nil => intro r hr; simp [throttleRun] at hr
    | cons e es ih =>
      intro r hr hdata
      unfold throttleRun at hr
      simp only [List.mem_append] at hr
      rcases hr with hr | hr
      · cases e with
        | write f => exact pushBufferLoop_bound _ _ r hr hdata
        | updateInFlight n => exact pushBufferLoop_bound _ _ r hr hdata
        | pollTick =>
          have hr' : r ∈ (if s.polling = true then pushFrame s (queryFrame s)
              else (s, [])).2 := hr
          by_cases hp : s.polling = true
          · rw [if_pos hp] at hr'
            unfold pushFrame at hr'
            rw [if_neg (by simp [queryFrame, dataBearing])] at hr'
            simp only [List.mem_singleton] at hr'
            subst hr'
            simp [queryFrame, dataBearing] at hdata
          · rw [if_neg hp] at hr'
            simp at hr'
        | flushEnd => exact pushBufferLoop_bound _ _ r hr hdata
      · exact ih _ r hr hdata
  · intro s' f hf
    unfold pushFrame
    rw [if_neg (by simp [hf])]

theorem throttle_inflight_bound_witness :
    (∃ r ∈ (throttleRun (connThrottleInit 0 [] [] [])
        [ThrottleEvent.write
          { port := 0, dataKind := 68, PID := some 240, callFrom := [],
            callTo := [], user := 0, data := [1] }]).2,
      dataBearing r.frame = true) ∧
    (∀ r ∈ (throttleRun (connThrottleInit 0 [] [] [])
        [ThrottleEvent.write
          { port := 0, dataKind := 68, PID := some 240, callFrom := [],
            callTo := [], user := 0, data := [1] }]).2,
      dataBearing r.frame = true → r.inFlightAtPush ≤ r.maxAtPush) :=
  ⟨by decide, (throttle_inflight_bound (connThrottleInit 0 [] [] [])
      [ThrottleEvent.write
        { port := 0, dataKind := 68, PID := some 240, callFrom := [],
          callTo := [], user := 0, data := [1] }]).1⟩

/-- The frame kinds the disconnect-ordering claim tracks: 'D', 'd', 'M'. -/
def projKind (f : Frame) : Bool :=
  f.dataKind = 68 || f.dataKind = 100 || f.dataKind = 77

/-- The 'D'/'d'/'M' frames among pushed records, in push order. -/
def outProj (recs : List PushRecord) : List Frame :=
  (recs.map PushRecord.frame).filter projKind

/-- The 'D'/'d'/'M' frames among buffered items, in queue order. -/
def bufProj (items : List ThrottleItem) : List Frame :=
  (items.filterMap (fun it => match it with
    | ThrottleItem.frame f => some f
    | ThrottleItem.callback _ => none)).filter projKind

/-- Items whose execution cannot set the disconnected flag. -/
def itemSafe : ThrottleItem → Bool
  | .callback .restoreMax => false
  | _ => true

theorem bufProj_append (a b : List ThrottleItem) :
    bufProj (a ++ b) = bufProj a ++ bufProj b := by
  unfold bufProj
  rw [List.filterMap_append, List.filter_append]

theorem outProj_append (a b : List PushRecord) :
    outProj (a ++ b) = outProj a ++ outProj b := by
  unfold outProj
  rw [List.map_append, List.filter_append]

theorem pushFrame_proj (s : ThrottleState) (f : Frame) :
    outProj (pushFrame s f).2 = (if projKind f then [f] else []) ∧
    (pushFrame s f).1.buffer = s.buffer ∧
    (pushFrame s f).1.port = s.port ∧
    (pushFrame s f).1.myCall = s.myCall ∧
    (pushFrame s f).1.theirCall = s.theirCall ∧
    (pushFrame s f).1.ID = s.ID ∧
    (pushFrame s f).1.disconnected = s.disconnected := by
  unfold pushFrame
  by_cases hd : dataBearing f
  · rw [if_pos hd]
    refine ⟨?_, rfl, rfl, rfl, rfl, rfl, rfl⟩
    by_cases ha : 2 * (s.inFlight + 1) = s.maxInFlight
    · rw [if_pos ha]
      simp only [outProj, List.map_append, List.map_cons, List.map_nil,
        List.filter_append, List.filter_cons, List.filter_nil,
        show projKind (queryFrame s) = false from rfl, Bool.false_eq_true,
        if_false, List.nil_append]
    · rw [if_neg ha]
      simp only [outProj, List.map_append, List.map_cons, List.map_nil,
        List.filter_append, List.filter_cons, List.filter_nil, List.nil_append]
  · rw [if_neg hd]
    refine ⟨?_, rfl, rfl, rfl, rfl, rfl, rfl⟩
    simp only [outProj, List.map_cons, List.map_nil, List.filter_cons,
      List.filter_nil]

theorem pushBufferLoop_frame_cons (s : ThrottleState) (f : Frame)
    (rest : List ThrottleItem) :
    pushBufferLoop s (ThrottleItem.frame f :: rest) =
      if s.inFlight < s.maxInFlight then
        ((pushBufferLoop { (pushFrame s f).1 with polling := false } rest).1,
         (pushFrame s f).2 ++
           (pushBufferLoop { (pushFrame s f).1 with polling := false } rest).2)
      else ({ s with buffer := .frame f :: rest, polling := true }, []) := rfl

theorem pushBufferLoop_proj (items : List ThrottleItem) : ∀ s : ThrottleState,
    outProj (pushBufferLoop s items).2 ++ bufProj (pushBufferLoop s items).1.buffer =
      bufProj items ∧
    (pushBufferLoop s items).1.port = s.port ∧
    (pushBufferLoop s items).1.myCall = s.myCall ∧
    (pushBufferLoop s items).1.theirCall = s.theirCall ∧
    (pushBufferLoop s items).1.ID = s.ID ∧
    (items.all itemSafe = true → (pushBufferLoop s items).1.disconnected = s.disconnected) ∧
    (items.all itemSafe = true → (pushBufferLoop s items).1.buffer.all itemSafe = true) := by
  induction items with
  | nil =>
    intro s
    simp [pushBufferLoop, outProj, bufProj]
  | cons item rest ih =>
    intro s
    cases item with
    | callback a =>
      have hred : pushBufferLoop s (ThrottleItem.callback a :: rest) =
          pushBufferLoop (applyAction a s) rest := rfl
      rw [hred]
      obtain ⟨ihp, ih1, ih2, ih3, ih4, ih5, ih6⟩ := ih (applyAction a s)
      have hbp : bufProj (ThrottleItem.callback a :: rest) = bufProj rest := by
        simp [bufProj]
      have hsafe : (ThrottleItem.callback a :: rest).all itemSafe = true →
          rest.all itemSafe = true := by
        simp only [List.all_cons, Bool.and_eq_true]
        exact fun h => h.2
      have hact : ∀ b : ThrottleAction, itemSafe (ThrottleItem.callback b) = true →
          (applyAction b s).disconnected = s.disconnected := by
        intro b hb
        cases b <;> simp [applyAction] <;> simp [itemSafe] at hb
      have hactf : ∀ b : ThrottleAction,
          (applyAction b s).port = s.port ∧ (applyAction b s).myCall = s.myCall ∧
          (applyAction b s).theirCall = s.theirCall ∧ (applyAction b s).ID = s.ID := by
        intro b; cases b <;> exact ⟨rfl, rfl, rfl, rfl⟩
      obtain ⟨hf1, hf2, hf3, hf4⟩ := hactf a
      refine ⟨by rw [hbp] at *; exact ihp, by rw [ih1, hf1], by rw [ih2, hf2],
        by rw [ih3, hf3], by rw [ih4, hf4], ?_, ?_⟩
      · intro hall
        rw [ih5 (hsafe hall)]
        exact hact a (by simp only [List.all_cons, Bool.and_eq_true] at hall; exact hall.1)
      · intro hall
        exact ih6 (hsafe hall)
    | frame f =>
      by_cases h : s.inFlight < s.maxInFlight
      · have hred : pushBufferLoop s (ThrottleItem.frame f :: rest) =
            ((pushBufferLoop { (pushFrame s f).1 with polling := false } rest).1,
             (pushFrame s f).2 ++
               (pushBufferLoop { (pushFrame s f).1 with polling := false } rest).2) := by
          rw [pushBufferLoop_frame_cons, if_pos h]
        obtain ⟨pp, pb, p1, p2, p3, p4, p5⟩ := pushFrame_proj s f
        obtain ⟨ihp, ih1, ih2, ih3, ih4, ih5, ih6⟩ :=
          ih { (pushFrame s f).1 with polling := false }
        rw [hred]
        have hbp : bufProj (ThrottleItem.frame f :: rest) =
            (if projKind f then [f] else []) ++ bufProj rest := by
          by_cases hp : projKind f
          · simp [bufProj, hp]
          · simp [bufProj, hp]
        have hsafe : (ThrottleItem.frame f :: rest).all itemSafe = true →
            rest.all itemSafe = true := by
          simp only [List.all_cons, Bool.and_eq_true]
          exact fun hh => hh.2
        refine ⟨?_, by rw [ih1]; exact p1, by rw [ih2]; exact p2,
          by rw [ih3]; exact p3, by rw [ih4]; exact p4, ?_, ?_⟩
        · rw [outProj_append, pp, hbp, List.append_assoc, ihp]
        · intro hall
          rw [ih5 (hsafe hall)]
          exact p5
        · intro hall
          exact ih6 (hsafe hall)
      · have hred : pushBufferLoop s (ThrottleItem.frame f :: rest) =
            ({ s with buffer := .frame f :: rest, polling := true }, []) := by
          rw [pushBufferLoop_frame_cons, if_neg h]
        rw [hred]
        exact ⟨by simp [outProj], rfl, rfl, rfl, rfl, fun _ => rfl, fun hall => hall⟩

/-- Events legal before `end()` on a throttle fed by a FrameAssembler:
writes of 'D' frames, in-flight updates and poll ticks. -/
def isPreEvent : ThrottleEvent → Bool
  | .write f => f.dataKind = 68
  | .updateInFlight _ => true
  | .pollTick => true
  | .flushEnd => false

/-- Events possible after `end()`: in-flight updates and poll ticks. -/
def isPostEvent : ThrottleEvent → Bool
  | .updateInFlight _ => true
  | .pollTick => true
  | _ => false

/-- The frames written to a throttle, in order. -/
def writesOf (events : List ThrottleEvent) : List Frame :=
  events.filterMap (fun e => match e with | .write f => some f | _ => none)

theorem pushBuffer_proj (s : ThrottleState) :
    outProj (pushBuffer s).2 ++ bufProj (pushBuffer s).1.buffer = bufProj s.buffer ∧
    (pushBuffer s).1.port = s.port ∧
    (pushBuffer s).1.myCall = s.myCall ∧
    (pushBuffer s).1.theirCall = s.theirCall ∧
    (pushBuffer s).1.ID = s.ID ∧
    (s.buffer.all itemSafe = true → (pushBuffer s).1.disconnected = s.disconnected) ∧
    (s.buffer.all itemSafe = true → (pushBuffer s).1.buffer.all itemSafe = true) := by
  obtain ⟨hp, h1, h2, h3, h4, h5, h6⟩ := pushBufferLoop_proj s.buffer { s with buffer := [] }
  exact ⟨hp, h1, h2, h3, h4, h5, h6⟩

theorem throttleStep_proj_pre (s : ThrottleState) (e : ThrottleEvent)
    (he : isPreEvent e = true) (hs : s.buffer.all itemSafe = true) :
    outProj (throttleStep s e).2 ++ bufProj (throttleStep s e).1.buffer =
      bufProj s.buffer ++ (writesOf [e]).filter projKind ∧
    (throttleStep s e).1.port = s.port ∧
    (throttleStep s e).1.myCall = s.myCall ∧
    (throttleStep s e).1.theirCall = s.theirCall ∧
    (throttleStep s e).1.ID = s.ID ∧
    (throttleStep s e).1.disconnected = s.disconnected ∧
    (throttleStep s e).1.buffer.all itemSafe = true := by
  cases e with
  | write f =>
    have hstep : throttleStep s (.write f) = pushBuffer { s with buffer := s.buffer ++
        [ThrottleItem.frame f, ThrottleItem.callback .afterTransform] } := rfl
    rw [hstep]
    obtain ⟨hp, h1, h2, h3, h4, h5, h6⟩ := pushBuffer_proj
      { s with buffer := s.buffer ++
        [ThrottleItem.frame f, ThrottleItem.callback .afterTransform] }
    have hb : (s.buffer ++
        [ThrottleItem.frame f, ThrottleItem.callback ThrottleAction.afterTransform]).all
        itemSafe = true := by
      simp only [List.all_append, Bool.and_eq_true]
      exact ⟨hs, by simp [itemSafe]⟩
    refine ⟨?_, h1, h2, h3, h4, h5 hb, h6 hb⟩
    rw [hp]
    show bufProj (s.buffer ++
      [ThrottleItem.frame f, ThrottleItem.callback ThrottleAction.afterTransform]) = _
    rw [bufProj_append]
    have hone : bufProj [ThrottleItem.frame f,
        ThrottleItem.callback ThrottleAction.afterTransform] =
        List.filter projKind (writesOf [ThrottleEvent.write f]) := by
      simp [bufProj, writesOf]
    rw [hone]
  | updateInFlight n =>
    have hstep : throttleStep s (.updateInFlight n) =
        pushBuffer { s with inFlight := n } := rfl
    rw [hstep]
    obtain ⟨hp, h1, h2, h3, h4, h5, h6⟩ := pushBuffer_proj { s with inFlight := n }
    refine ⟨?_, h1, h2, h3, h4, h5 hs, h6 hs⟩
    rw [hp]
    simp [writesOf]
  | pollTick =>
    by_cases hpol : s.polling = true
    · have hred : throttleStep s .pollTick = pushFrame s (queryFrame s) := by
        show (if s.polling = true then pushFrame s (queryFrame s) else (s, [])) = _
        rw [if_pos hpol]
      obtain ⟨pp, pb, p1, p2, p3, p4, p5⟩ := pushFrame_proj s (queryFrame s)
      rw [hred]
      refine ⟨?_, p1, p2, p3, p4, p5, by rw [pb]; exact hs⟩
      rw [pp, pb, if_neg (by simp [projKind, queryFrame])]
      simp [writesOf]
    · have hred : throttleStep s .pollTick = (s, []) := by
        show (if s.polling = true then pushFrame s (queryFrame s) else (s, [])) = _
        rw [if_neg hpol]
      rw [hred]
      exact ⟨by simp [outProj, writesOf], rfl, rfl, rfl, rfl, rfl, hs⟩
  | flushEnd => simp [isPreEvent] at he

theorem throttleRun_pre (pre : List ThrottleEvent) : ∀ s : ThrottleState,
    (∀ e ∈ pre, isPreEvent e = true) → s.buffer.all itemSafe = true →
    outProj (throttleRun s pre).2 ++ bufProj (throttleRun s pre).1.buffer =
      bufProj s.buffer ++ (writesOf pre).filter projKind ∧
    (throttleRun s pre).1.port = s.port ∧
    (throttleRun s pre).1.myCall = s.myCall ∧
    (throttleRun s pre).1.theirCall = s.theirCall ∧
    (throttleRun s pre).1.ID = s.ID ∧
    (throttleRun s pre).1.disconnected = s.disconnected ∧
    (throttleRun s pre).1.buffer.all itemSafe = true := by
  induction pre with
  | nil =>
    intro s _ hs
    simp [throttleRun, outProj, writesOf, hs]
  | cons e es ih =>
    intro s hpre hs
    obtain ⟨hp, h1, h2, h3, h4, h5, h6⟩ :=
      throttleStep_proj_pre s e (hpre e (by simp)) hs
    obtain ⟨ip, i1, i2, i3, i4, i5, i6⟩ :=
      ih (throttleStep s e).1 (fun e' he' => hpre e' (by simp [he'])) h6
    have hrun : throttleRun s (e :: es) =
        ((throttleRun (throttleStep s e).1 es).1,
         (throttleStep s e).2 ++ (throttleRun (throttleStep s e).1 es).2) := rfl
    rw [hrun]
    refine ⟨?_, by rw [i1, h1], by rw [i2, h2], by rw [i3, h3], by rw [i4, h4],
      by rw [i5, h5], i6⟩
    rw [outProj_append, List.append_assoc, ip, ← List.append_assoc, hp]
    have hw : writesOf (e :: es) = writesOf [e] ++ writesOf es := by
      cases e <;> simp [writesOf]
    rw [hw, List.filter_append, List.append_assoc]

theorem throttleRun_post (post : List ThrottleEvent) : ∀ s : ThrottleState,
    (∀ e ∈ post, isPostEvent e = true) →
    outProj (throttleRun s post).2 ++ bufProj (throttleRun s post).1.buffer =
      bufProj s.buffer := by
  induction post with
  | nil => intro s _; simp [throttleRun, outProj]
  | cons e es ih =>
    intro s hpost
    have hstep : outProj (throttleStep s e).2 ++ bufProj (throttleStep s e).1.buffer =
        bufProj s.buffer := by
      cases e with
      | updateInFlight n =>
        have hred : throttleStep s (.updateInFlight n) =
            pushBuffer { s with inFlight := n } := rfl
        rw [hred]
        exact (pushBuffer_proj { s with inFlight := n }).1
      | pollTick =>
        by_cases hpol : s.polling = true
        · have hred : throttleStep s .pollTick = pushFrame s (queryFrame s) := by
            show (if s.polling = true then pushFrame s (queryFrame s) else (s, [])) = _
            rw [if_pos hpol]
          obtain ⟨pp, pb, -, -, -, -, -⟩ := pushFrame_proj s (queryFrame s)
          rw [hred, pp, pb, if_neg (by simp [projKind, queryFrame])]
          simp
        · have hred : throttleStep s .pollTick = (s, []) := by
            show (if s.polling = true then pushFrame s (queryFrame s) else (s, [])) = _
            rw [if_neg hpol]
          rw [hred]
          simp [outProj]
      | write f =>
        exact absurd (hpost (ThrottleEvent.write f) (by simp))
          (by simp [isPostEvent])
      | flushEnd =>
        exact absurd (hpost ThrottleEvent.flushEnd (by simp))
          (by simp [isPostEvent])
    have ihr := ih (throttleStep s e).1 (fun e' he' => hpost e' (by simp [he']))
    have hrun : throttleRun s (e :: es) =
        ((throttleRun (throttleStep s e).1 es).1,
         (throttleStep s e).2 ++ (throttleRun (throttleStep s e).1 es).2) := rfl
    rw [hrun]
    rw [outProj_append, List.append_assoc, ihr, hstep]

theorem throttleStep_flush (s : ThrottleState) (hd : s.disconnected = false) :
    outProj (throttleStep s .flushEnd).2 ++ bufProj (throttleStep s .flushEnd).1.buffer =
      bufProj s.buffer ++ [connDFrame s] ++
        (if s.ID ≠ [] then [connMFrame s] else []) := by
  have hfinal : (bufferFinalFrames s).buffer =
      s.buffer ++ ([.callback .setMaxOne, .frame (connDFrame s), .callback .restoreMax] ++
        (if s.ID ≠ [] then [ThrottleItem.frame (connMFrame s)] else [])) := by
    unfold bufferFinalFrames
    have hd' : ¬(s.disconnected = true) := by simp [hd]
    by_cases hid : s.ID ≠ []
    · rw [if_pos hid, if_neg hd']
      simp [List.append_assoc]
      rw [if_neg hid]
    · rw [if_neg hid, if_neg hd']
      simp
      simpa using hid
  have hstep : throttleStep s .flushEnd = pushBuffer
      { bufferFinalFrames s with buffer :=
        (bufferFinalFrames s).buffer ++ [ThrottleItem.callback .afterFlush] } := rfl
  rw [hstep]
  rw [(pushBuffer_proj _).1]
  show bufProj ((bufferFinalFrames s).buffer ++ [ThrottleItem.callback .afterFlush]) = _
  rw [hfinal]
  rw [bufProj_append, bufProj_append, bufProj_append]
  have h1 : bufProj [ThrottleItem.callback .afterFlush] = [] := by simp [bufProj]
  have h2 : bufProj [ThrottleItem.callback ThrottleAction.setMaxOne,
      ThrottleItem.frame (connDFrame s), ThrottleItem.callback ThrottleAction.restoreMax] =
      [connDFrame s] := by
    simp [bufProj, projKind, connDFrame]
  have h3 : bufProj (if s.ID ≠ [] then [ThrottleItem.frame (connMFrame s)] else []) =
      (if s.ID ≠ [] then [connMFrame s] else []) := by
    by_cases hid : s.ID ≠ []
    · rw [if_pos hid, if_pos hid]
      simp [bufProj, projKind, connMFrame]
    · rw [if_neg hid, if_neg hid]
      simp [bufProj]
  rw [h1, h2, h3, List.append_nil, List.append_assoc]

theorem throttleRun_append (s : ThrottleState) (es1 es2 : List ThrottleEvent) :
    throttleRun s (es1 ++ es2) =
      ((throttleRun (throttleRun s es1).1 es2).1,
       (throttleRun s es1).2 ++ (throttleRun (throttleRun s es1).1 es2).2) := by
  induction es1 generalizing s with
  | nil => simp [throttleRun]
  | cons e es ih =>
    have h1 : throttleRun s ((e :: es) ++ es2) =
        ((throttleRun (throttleStep s e).1 (es ++ es2)).1,
         (throttleStep s e).2 ++ (throttleRun (throttleStep s e).1 (es ++ es2)).2) := rfl
    have h2 : throttleRun s (e :: es) =
        ((throttleRun (throttleStep s e).1 es).1,
         (throttleStep s e).2 ++ (throttleRun (throttleStep s e).1 es).2) := rfl
    rw [h1, ih (throttleStep s e).1, h2]
    simp [List.append_assoc]

/-- C4: started fresh (no disconnect observed), fed 'D' writes and in-flight
updates, then `end()`, then drained by further updates: the 'D'/'d'/'M'
projection of the output plus the still-queued part equals the writes, then
exactly one 'd', then the optional 'M' ID frame; so once the queue drains
the output contains exactly one 'd', after every 'D' accepted before
`end()` and before the optional tail 'M'. -/
theorem connection_throttle_disconnect_order (port : Nat)
    (myCall theirCall ID : List Nat) (pre post : List ThrottleEvent)
    (hpre : ∀ e ∈ pre, isPreEvent e = true)
    (hpost : ∀ e ∈ post, isPostEvent e = true) :
    outProj (throttleRun (connThrottleInit port myCall theirCall ID)
        (pre ++ ThrottleEvent.flushEnd :: post)).2 ++
      bufProj (throttleRun (connThrottleInit port myCall theirCall ID)
        (pre ++ ThrottleEvent.flushEnd :: post)).1.buffer =
      writesOf pre ++ [connDFrame (connThrottleInit port myCall theirCall ID)] ++
        (if ID ≠ [] then [connMFrame (connThrottleInit port myCall theirCall ID)]
          else []) ∧
    (bufProj (throttleRun (connThrottleInit port myCall theirCall ID)
        (pre ++ ThrottleEvent.flushEnd :: post)).1.buffer = [] →
      ((outProj (throttleRun (connThrottleInit port myCall theirCall ID)
          (pre ++ ThrottleEvent.flushEnd :: post)).2).filter
        (fun f => f.dataKind = 100)).length = 1) := by
  set s0 := connThrottleInit port myCall theirCall ID with hs0
  obtain ⟨pp, p1, p2, p3, p4, p5, p6⟩ := throttleRun_pre pre s0 hpre (by simp [hs0, connThrottleInit])
  set s1 := (throttleRun s0 pre).1 with hs1
  have hdisc : s1.disconnected = false := by rw [p5]; rfl
  have hdf : connDFrame s1 = connDFrame s0 := by
    unfold connDFrame
    rw [p1, p2, p3]
  have hmf : connMFrame s1 = connMFrame s0 := by
    unfold connMFrame
    rw [p1, p2, p4]
  have hflush := throttleStep_flush s1 hdisc
  set s2 := (throttleStep s1 ThrottleEvent.flushEnd).1 with hs2
  have hpostc := throttleRun_post post s2 hpost
  have hrun : throttleRun s0 (pre ++ ThrottleEvent.flushEnd :: post) =
      ((throttleRun s2 post).1,
       (throttleRun s0 pre).2 ++ ((throttleStep s1 ThrottleEvent.flushEnd).2 ++
         (throttleRun s2 post).2)) := by
    rw [throttleRun_append]
    rw [← hs1]
    have : throttleRun s1 (ThrottleEvent.flushEnd :: post) =
        ((throttleRun s2 post).1,
         (throttleStep s1 ThrottleEvent.flushEnd).2 ++ (throttleRun s2 post).2) := rfl
    rw [this]
  have hid1 : s1.ID = ID := by rw [p4]; rfl
  have hwpre : (writesOf pre).filter projKind = writesOf pre := by
    apply List.filter_eq_self.mpr
    intro f hf
    unfold writesOf at hf
    rw [List.mem_filterMap] at hf
    obtain ⟨e, he, hfe⟩ := hf
    have := hpre e he
    cases e <;> simp at hfe
    subst hfe
    simp only [isPreEvent, decide_eq_true_eq] at this
    simp [projKind, this]
  have hmain : outProj (throttleRun s0 (pre ++ ThrottleEvent.flushEnd :: post)).2 ++
      bufProj (throttleRun s0 (pre ++ ThrottleEvent.flushEnd :: post)).1.buffer =
      writesOf pre ++ [connDFrame s0] ++ (if ID ≠ [] then [connMFrame s0] else []) := by
    rw [hrun]
    simp only
    rw [outProj_append, outProj_append]
    rw [List.append_assoc, List.append_assoc, hpostc, hflush]
    rw [← List.append_assoc, ← List.append_assoc]
    rw [show outProj (throttleRun s0 pre).2 ++ bufProj s1.buffer ++ [connDFrame s1] =
        (outProj (throttleRun s0 pre).2 ++ bufProj s1.buffer) ++ [connDFrame s1] from rfl]
    rw [pp]
    rw [show bufProj s0.buffer = [] from rfl, List.nil_append, hwpre, hdf, hmf, hid1]
  refine ⟨hmain, ?_⟩
  intro hdrain
  rw [hdrain, List.append_nil] at hmain
  rw [hmain]
  rw [List.filter_append, List.filter_append]
  have hw100 : (writesOf pre).filter (fun f => f.dataKind = 100) = [] := by
    apply List.filter_eq_nil_iff.mpr
    intro f hf
    unfold writesOf at hf
    rw [List.mem_filterMap] at hf
    obtain ⟨e, he, hfe⟩ := hf
    have := hpre e he
    cases e <;> simp at hfe
    subst hfe
    simp only [isPreEvent, decide_eq_true_eq] at this
    simp [this]
  have hd100 : ([connDFrame s0] : List Frame).filter (fun f => f.dataKind = 100) =
      [connDFrame s0] := by
    simp [connDFrame]
  have hm100 : (if ID ≠ [] then [connMFrame s0] else []).filter
      (fun f => f.dataKind = 100) = [] := by
    by_cases hid : ID ≠ []
    · rw [if_pos hid]
      simp [connMFrame, connThrottleInit, hs0]
    · rw [if_neg hid]
      rfl
  rw [hw100, hd100, hm100]
  simp

theorem connection_throttle_disconnect_order_witness :
    outProj (throttleRun (connThrottleInit 0 [] [] [])
        ([] ++ ThrottleEvent.flushEnd :: [])).2 ++
      bufProj (throttleRun (connThrottleInit 0 [] [] [])
        ([] ++ ThrottleEvent.flushEnd :: [])).1.buffer =
      writesOf [] ++ [connDFrame (connThrottleInit 0 [] [] [])] ++
        (if ([] : List Nat) ≠ [] then [connMFrame (connThrottleInit 0 [] [] [])]
          else []) :=
  (connection_throttle_disconnect_order 0 [] [] [] [] []
    (by intro e he; simp at he) (by intro e he; simp at he)).1

/-- C6 as amended: `end()` on a ConnectionThrottle that has not observed a
disconnect appends, in this order: a deferred action setting `maxInFlight`
to 1, the 'd' disconnect frame, a deferred action restoring `maxInFlight`
to 8 (and marking the throttle disconnected), and then, if an ID string is
configured, an 'M' UNPROTO frame with callTo = "ID" carrying the ID. -/
theorem buffer_final_frames_spec (s : ThrottleState) (h : s.disconnected = false) :
    (bufferFinalFrames s).buffer =
      s.buffer ++ ([.callback .setMaxOne, .frame (connDFrame s), .callback .restoreMax] ++
        (if s.ID ≠ [] then [ThrottleItem.frame (connMFrame s)] else [])) ∧
    (∀ s' : ThrottleState, (applyAction .setMaxOne s').maxInFlight = 1) ∧
    (∀ s' : ThrottleState, (applyAction .restoreMax s').maxInFlight = 8 ∧
      (applyAction .restoreMax s').disconnected = true) := by
  refine ⟨?_, fun s' => rfl, fun s' => ⟨rfl, rfl⟩⟩
  unfold bufferFinalFrames
  have hd' : ¬(s.disconnected = true) := by simp [h]
  by_cases hid : s.ID ≠ []
  · rw [if_pos hid, if_neg hd']
    simp [List.append_assoc]
    rw [if_neg hid]
  · rw [if_neg hid, if_neg hd']
    simp
    simpa using hid

theorem buffer_final_frames_spec_witness :
    (bufferFinalFrames (connThrottleInit 3 [65] [66] [75])).buffer =
      (connThrottleInit 3 [65] [66] [75]).buffer ++
        ([.callback .setMaxOne,
          .frame (connDFrame (connThrottleInit 3 [65] [66] [75])),
          .callback .restoreMax] ++
          (if (connThrottleInit 3 [65] [66] [75]).ID ≠ []
            then [ThrottleItem.frame (connMFrame (connThrottleInit 3 [65] [66] [75]))]
            else [])) :=
  (buffer_final_frames_spec (connThrottleInit 3 [65] [66] [75]) rfl).1

/-- C6 counterexample: after the only observed in-flight count is 2 (so the
spec's minInFlight would be 2), `end()`'s first deferred action sets
`maxInFlight` to 1, not to minInFlight + 1 = 3: the code has no minInFlight
at all. -/
theorem final_frames_not_min_plus_one :
    (bufferFinalFrames ((throttleStep (connThrottleInit 0 [] [] [])
        (ThrottleEvent.updateInFlight 2)).1)).buffer.getD 0
        (ThrottleItem.callback .afterFlush) =
      ThrottleItem.callback ThrottleAction.setMaxOne ∧
    (applyAction ThrottleAction.setMaxOne
        ((throttleStep (connThrottleInit 0 [] [] [])
          (ThrottleEvent.updateInFlight 2)).1)).maxInFlight = 1 ∧
    (1 : Nat) ≠ 2 + 1 := by
  decide

/-! ## FrameAssembler (src/server.js lines 816-943) -/

/-- `maxDataLength = options.frameLength || DefaultFrameLength` (a zero or
absent frameLength is falsy and falls back to 128). -/
def asmMax (frameLength : Nat) : Nat :=
  if frameLength = 0 then 128 else frameLength

theorem asmMax_pos (frameLength : Nat) : 0 < asmMax frameLength := by
  unfold asmMax
  split <;> omega

/-- The FrameAssembler's coalescing state: `some content` is an allocated
buffer filled with `bufferCount = content.length` bytes (possibly zero);
`none` is a null buffer.  `timer` is whether the MaxWriteDelay timeout is
armed. -/
structure AsmState where
  buf : Option (List Nat)
  timer : Bool
deriving Repr, DecidableEq

def asmInit : AsmState := { buf := none, timer := false }

/-- The bytes currently coalesced. -/
def asmContent (s : AsmState) : List Nat := s.buf.getD []

/-- The `for (; dataNext < data.length; dataNext += maxDataLength)` loop of
`FrameAssembler._transform`: emit each full `maxDataLength` slice as its own
frame; a trailing remainder becomes a fresh buffer with the timer armed. -/
def asmSplit (fl : Nat) (data : List Nat) (dataNext : Nat) :
    List (List Nat) × Option (List Nat) :=
  if dataNext < data.length then
    if dataNext + asmMax fl ≤ data.length then
      let r := asmSplit fl data (dataNext + asmMax fl)
      ((data.drop dataNext).take (asmMax fl) :: r.1, r.2)
    else
      ([], some (data.drop dataNext))
  else
    ([], none)
termination_by data.length - dataNext
decreasing_by
  have := asmMax_pos fl
  omega

/-- `FrameAssembler.pushBuffer` (lines 912-926): cancel the timer; if any
bytes are buffered, emit them as one frame and clear the buffer. -/
def asmPushBuffer (s : AsmState) : AsmState × List (List Nat) :=
  ({ buf := none, timer := false },
   if (asmContent s).length > 0 then [asmContent s] else [])

/-- `FrameAssembler._transform` (lines 844-904) on one chunk: coalesce when
it fits strictly below `maxDataLength`, arming the timer; otherwise fill and
flush the buffer, then split the rest of the chunk. -/
def asmTransform (fl : Nat) (s : AsmState) (chunk : List Nat) :
    AsmState × List (List Nat) :=
  if (asmContent s).length + chunk.length < asmMax fl then
    ({ buf := some (asmContent s ++ chunk), timer := true }, [])
  else
    let dataNext := match s.buf with
      | none => 0
      | some c => asmMax fl - c.length
    let filled := asmContent s ++ chunk.take dataNext
    let pushed := if filled.length > 0 then [filled] else []
    let r := asmSplit fl chunk dataNext
    ({ buf := r.2, timer := r.2.isSome }, pushed ++ r.1)

/-- An input to the assembler: a written chunk, or the coalescing timer
firing (which flushes the buffer). -/
inductive AsmEvent
  | chunk (data : List Nat)
  | tick
deriving Repr, DecidableEq

def asmStep (fl : Nat) (s : AsmState) : AsmEvent → AsmState × List (List Nat)
  | .chunk data => asmTransform fl s data
  | .tick => if s.timer then asmPushBuffer s else (s, [])

def asmRun (fl : Nat) (s : AsmState) : List AsmEvent → AsmState × List (List Nat)
  | [] => (s, [])
  | e :: es =>
    let r1 := asmStep fl s e
    let r2 := asmRun fl r1.1 es
    (r2.1, r1.2 ++ r2.2)

/-- The chunks written, in order. -/
def chunksOf (events : List AsmEvent) : List (List Nat) :=
  events.filterMap (fun e => match e with | .chunk c => some c | .tick => none)

theorem asmSplit_spec (fl : Nat) (data : List Nat) : ∀ dataNext,
    (asmSplit fl data dataNext).1.flatten ++
        ((asmSplit fl data dataNext).2.getD []) = data.drop dataNext ∧
    (∀ p ∈ (asmSplit fl data dataNext).1, p.length = asmMax fl) ∧
    (∀ c, (asmSplit fl data dataNext).2 = some c →
      1 ≤ c.length ∧ c.length < asmMax fl) := by
  have hm := asmMax_pos fl
  intro dataNext
  generalize hfuel : data.length - dataNext = fuel
  induction fuel using Nat.strong_induction_on generalizing dataNext with
  | _ fuel ih =>
  rw [asmSplit]
  by_cases h1 : dataNext < data.length
  · rw [if_pos h1]
    by_cases h2 : dataNext + asmMax fl ≤ data.length
    · rw [if_pos h2]
      obtain ⟨ic, il, ir⟩ := ih (data.length - (dataNext + asmMax fl)) (by omega)
        (dataNext + asmMax fl) rfl
      refine ⟨?_, ?_, ir⟩
      · show ((data.drop dataNext).take (asmMax fl) ::
            (asmSplit fl data (dataNext + asmMax fl)).1).flatten ++
            ((asmSplit fl data (dataNext + asmMax fl)).2.getD []) = data.drop dataNext
        rw [List.flatten_cons, List.append_assoc, ic]
        have hdd : (data.drop dataNext).drop (asmMax fl) =
            data.drop (dataNext + asmMax fl) := by
          rw [List.drop_drop] <;> try (congr 1; omega)
        rw [← hdd, List.take_append_drop]
      · intro p hp
        have hp' : p ∈ (data.drop dataNext).take (asmMax fl) ::
            (asmSplit fl data (dataNext + asmMax fl)).1 := hp
        rcases List.mem_cons.mp hp' with hq | hq
        · subst hq
          rw [List.length_take, List.length_drop]
          omega
        · exact il p hq
    · rw [if_neg h2]
      refine ⟨by simp, by simp, ?_⟩
      intro c hc
      simp only [Option.some.injEq] at hc
      rw [← hc]
      rw [List.length_drop]
      omega
  · rw [if_neg h1]
    refine ⟨?_, by simp, by simp⟩
    simp only [List.flatten, Option.getD_none, List.append_nil]
    rw [List.drop_eq_nil_of_le (by omega)]

theorem asmStep_spec (fl : Nat) (s : AsmState) (e : AsmEvent)
    (hwf : (asmContent s).length < asmMax fl) :
    (asmStep fl s e).2.flatten ++ asmContent (asmStep fl s e).1 =
      asmContent s ++ (chunksOf [e]).flatten ∧
    (asmContent (asmStep fl s e).1).length < asmMax fl ∧
    (∀ p ∈ (asmStep fl s e).2, 1 ≤ p.length ∧ p.length ≤ asmMax fl) := by
  have hm := asmMax_pos fl
  cases e with
  | tick =>
    have hred : asmStep fl s .tick =
        (if s.timer = true then asmPushBuffer s else (s, [])) := rfl
    rw [hred]
    by_cases ht : s.timer = true
    · rw [if_pos ht]
      unfold asmPushBuffer
      by_cases hc : (asmContent s).length > 0
      · rw [if_pos hc]
        refine ⟨?_, by simp [asmContent]; omega, ?_⟩
        · simp [asmContent, chunksOf]
        · intro p hp
          simp only [List.mem_singleton] at hp
          subst hp
          omega
      · rw [if_neg hc]
        refine ⟨?_, by simp [asmContent]; omega, by intro p hp; simp at hp⟩
        have hnil : asmContent s = [] := List.eq_nil_of_length_eq_zero (by omega)
        show ([] : List (List Nat)).flatten ++
            asmContent ({ buf := none, timer := false } : AsmState) =
          asmContent s ++ (chunksOf [AsmEvent.tick]).flatten
        rw [hnil]
        simp [asmContent, chunksOf]
    · rw [if_neg ht]
      refine ⟨by simp [chunksOf], hwf, by intro p hp; simp at hp⟩
  | chunk data =>
    have hred : asmStep fl s (.chunk data) = asmTransform fl s data := rfl
    rw [hred]
    unfold asmTransform
    by_cases hfit : (asmContent s).length + data.length < asmMax fl
    · rw [if_pos hfit]
      refine ⟨?_, ?_, by intro p hp; simp at hp⟩
      · simp [asmContent, chunksOf]
      · simp only [asmContent, Option.getD_some]
        rw [List.length_append]
        show (asmContent s).length + data.length < asmMax fl
        exact hfit
    · rw [if_neg hfit]
      cases hbuf : s.buf with
      | none =>
        have hc0 : asmContent s = [] := by simp [asmContent, hbuf]
        have hdl : asmMax fl ≤ data.length := by
          rw [hc0] at hfit
          simpa using hfit
        obtain ⟨sc, sl, sr⟩ := asmSplit_spec fl data 0
        simp only [hbuf, hc0]
        have hfill : ([] : List Nat) ++ data.take 0 = [] := by simp
        rw [hfill]
        simp only [List.length_nil, gt_iff_lt, lt_irrefl, if_false]
        refine ⟨?_, ?_, ?_⟩
        · simp only [List.nil_append, asmContent, chunksOf, List.filterMap_cons,
            List.filterMap_nil, List.flatten_cons, List.flatten_nil, List.append_nil]
          rw [List.drop_zero] at sc
          exact sc
        · cases hr2 : (asmSplit fl data 0).2 with
          | none => simp [asmContent]; omega
          | some c =>
            have := sr c hr2
            simp [asmContent]
            omega
        · intro p hp
          simp only [List.nil_append] at hp
          have := sl p hp
          omega
      | some c =>
        have hcc : asmContent s = c := by simp [asmContent, hbuf]
        have hcl : c.length < asmMax fl := by rw [hcc] at hwf; exact hwf
        have hdl : asmMax fl - c.length ≤ data.length := by
          rw [hcc] at hfit
          omega
        obtain ⟨sc, sl, sr⟩ := asmSplit_spec fl data (asmMax fl - c.length)
        simp only [hbuf, hcc]
        have hfl : (c ++ data.take (asmMax fl - c.length)).length = asmMax fl := by
          rw [List.length_append, List.length_take]
          omega
        rw [if_pos (by omega : (c ++ data.take (asmMax fl - c.length)).length > 0)]
        refine ⟨?_, ?_, ?_⟩
        · simp only [List.cons_append, List.flatten_cons, asmContent, chunksOf,
            List.filterMap_cons, List.filterMap_nil, List.append_assoc,
            List.flatten_nil, List.append_nil, List.nil_append]
          rw [sc, List.take_append_drop]
        · cases hr2 : (asmSplit fl data (asmMax fl - c.length)).2 with
          | none => simp [asmContent]; omega
          | some c' =>
            have := sr c' hr2
            simp [asmContent]
            omega
        · intro p hp
          simp only [List.cons_append, List.mem_cons] at hp
          rcases hp with hp | hp
          · subst hp
            omega
          · have := sl p hp
            omega

theorem asmRun_spec (fl : Nat) (events : List AsmEvent) : ∀ s : AsmState,
    (asmContent s).length < asmMax fl →
    ((asmRun fl s events).2.flatten ++ asmContent (asmRun fl s events).1 =
      asmContent s ++ (chunksOf events).flatten) ∧
    (asmContent (asmRun fl s events).1).length < asmMax fl ∧
    (∀ p ∈ (asmRun fl s events).2, 1 ≤ p.length ∧ p.length ≤ asmMax fl) := by
  induction events with
  | nil =>
    intro s hwf
    refine ⟨by simp [asmRun, chunksOf], hwf, by intro p hp; simp [asmRun] at hp⟩
  | cons e es ih =>
    intro s hwf
    obtain ⟨hc, hw, hl⟩ := asmStep_spec fl s e hwf
    obtain ⟨ic, iw, il⟩ := ih (asmStep fl s e).1 hw
    have hrun : asmRun fl s (e :: es) =
        ((asmRun fl (asmStep fl s e).1 es).1,
         (asmStep fl s e).2 ++ (asmRun fl (asmStep fl s e).1 es).2) := rfl
    rw [hrun]
    refine ⟨?_, iw, ?_⟩
    · simp only [List.flatten_append, List.append_assoc]
      rw [ic]
      rw [← List.append_assoc, hc]
      have hch : chunksOf (e :: es) = chunksOf [e] ++ chunksOf es := by
        cases e <;> simp [chunksOf]
      rw [hch, List.flatten_append, List.append_assoc]
    · intro p hp
      simp only [List.mem_append] at hp
      rcases hp with hp | hp
      · exact hl p hp
      · exact il p hp

/-- C5: for every sequence of chunks written to a FrameAssembler (with timer
firings interleaved anywhere), after the final flush the concatenation of
the emitted 'D' payloads equals the concatenation of the chunks, and every
emitted payload is non-empty and at most `maxDataLength` =
`frameLength || 128` bytes. -/
theorem frame_assembler_conservation (fl : Nat) (events : List AsmEvent) :
    ((asmRun fl asmInit events).2 ++
        (asmPushBuffer (asmRun fl asmInit events).1).2).flatten =
      (chunksOf events).flatten ∧
    ∀ p ∈ (asmRun fl asmInit events).2 ++
        (asmPushBuffer (asmRun fl asmInit events).1).2,
      1 ≤ p.length ∧ p.length ≤ asmMax fl := by
  have hm := asmMax_pos fl
  obtain ⟨hc, hw, hl⟩ := asmRun_spec fl events asmInit
    (by simp [asmContent, asmInit]; omega)
  constructor
  · rw [List.flatten_append]
    have hflush : ((asmPushBuffer (asmRun fl asmInit events).1).2).flatten =
        asmContent (asmRun fl asmInit events).1 := by
      unfold asmPushBuffer
      by_cases hz : (asmContent (asmRun fl asmInit events).1).length > 0
      · rw [if_pos hz]
        simp
      · rw [if_neg hz]
        simp only [List.flatten_nil]
        rw [List.eq_nil_of_length_eq_zero (by omega :
          (asmContent (asmRun fl asmInit events).1).length = 0)]
    rw [hflush, hc]
    simp [asmContent, asmInit]
  · intro p hp
    simp only [List.mem_append] at hp
    rcases hp with hp | hp
    · exact hl p hp
    · unfold asmPushBuffer at hp
      by_cases hz : (asmContent (asmRun fl asmInit events).1).length > 0
      · rw [if_pos hz] at hp
        simp only [List.mem_singleton] at hp
        subst hp
        omega
      · rw [if_neg hz] at hp
        simp at hp

theorem frame_assembler_conservation_witness :
    ((asmRun 4 asmInit [AsmEvent.chunk [1, 2], AsmEvent.tick,
        AsmEvent.chunk [3, 4, 5, 6, 7, 8, 9]]).2 ++
      (asmPushBuffer (asmRun 4 asmInit [AsmEvent.chunk [1, 2], AsmEvent.tick,
        AsmEvent.chunk [3, 4, 5, 6, 7, 8, 9]]).1).2).flatten =
      (chunksOf [AsmEvent.chunk [1, 2], AsmEvent.tick,
        AsmEvent.chunk [3, 4, 5, 6, 7, 8, 9]]).flatten :=
  (frame_assembler_conservation 4 [AsmEvent.chunk [1, 2], AsmEvent.tick,
    AsmEvent.chunk [3, 4, 5, 6, 7, 8, 9]]).1


/-! ## C2: the AX.25 packet codec (guts.js encodePacket / decodePacket)

Call signs are byte strings (JS strings of char codes).  `encodePacket`
validates, then writes the destination and source address blocks, the
command/response bit (bit 7 of the SSID bytes), the digipeater blocks, the
end-of-addresses bit (`buffer[next-1] += 1`), the control byte from the
`controlBits` table with the type switch (S types carry P/F in address
bit 7), the PID byte for I/UI, and the info bytes.  `decodePacket` walks
the same layout.  The TNC `port` is validated by `encodePacket` but never
encoded, and `decodePacket` never produces one, so it is not part of the
codec's domain and is omitted from the packet structure. -/

/-- The AX.25 packet types: the keys of guts.js's `controlBits` table. -/
inductive PType
  | I | RR | RNR | REJ | SREJ | SABME | SABM | DISC | DM | UA | FRMR | UI | XID | TEST
deriving DecidableEq, Repr

/-- guts.js `controlBits`. -/
def controlBits : PType → Nat
  | .I => 0x00
  | .RR => 0x01
  | .RNR => 0x05
  | .REJ => 0x09
  | .SREJ => 0x0D
  | .SABME => 0x6F
  | .SABM => 0x2F
  | .DISC => 0x43
  | .DM => 0x0F
  | .UA => 0x63
  | .FRMR => 0x87
  | .UI => 0x03
  | .XID => 0xAF
  | .TEST => 0xC3

/-- guts.js `sTypes = ['RR','RNR','REJ','SREJ']`, indexed by
`(control >> 2) & 3`. -/
def sTypes (i : Nat) : PType :=
  if i = 0 then .RR else if i = 1 then .RNR else if i = 2 then .REJ else .SREJ

/-- guts.js `uTypes`: a sparse array with entries at the listed indices and
`null` (`none`) everywhere else (indices 0..0x1C are pushed as null first). -/
def uTypes (i : Nat) : Option PType :=
  if i = 0x00 then some .UI
  else if i = 0x03 then some .DM
  else if i = 0x07 then some .SABM
  else if i = 0x08 then some .DISC
  else if i = 0x0C then some .UA
  else if i = 0x0F then some .SABME
  else if i = 0x10 then some .FRMR
  else if i = 0x17 then some .XID
  else if i = 0x1C then some .TEST
  else none

/-- An AX.25 packet object.  Absent JS fields are `none` / `false`;
an absent `via` is the empty list (the source normalises `!packet.via`
to `[]` and `decodePacket` only sets `via` when nonempty). -/
structure Packet where
  type : Option PType
  toAddress : List Nat
  fromAddress : List Nat
  via : List (List Nat)
  command : Bool
  response : Bool
  P : Bool
  F : Bool
  NR : Option Nat
  NS : Option Nat
  PID : Option Nat
  info : Option (List Nat)
deriving DecidableEq, Repr

/-- JS `parseInt` on an arbitrary string (radix 10): skip leading
whitespace, accept an optional sign, then read the leading decimal digits;
`none` is NaN. -/
def parseIntSign (s : List Nat) : Option Int :=
  let t := s.dropWhile (fun c => c = 32 || c = 9 || c = 10 || c = 13)
  match t with
  | 43 :: r => (parseIntJS r).map (fun n => (n : Int))
  | 45 :: r => (parseIntJS r).map (fun n => -(n : Int))
  | _ => (parseIntJS t).map (fun n => (n : Int))

/-- The character class `[a-zA-Z0-9/]` of guts.js `validateCallSign`. -/
def isCallChar (c : Nat) : Bool :=
  c = 47 || (48 ≤ c && c ≤ 57) || (65 ≤ c && c ≤ 90) || (97 ≤ c && c ≤ 122)

/-- guts.js `validateCallSign` as a predicate (`true` = it does not throw):
the value is nonempty, the base before the first '-' (`end` =
`indexOf('-')`, or the length when absent) is at most 6 characters, all in
`[a-zA-Z0-9/]`, and when characters follow position `end + 1`, `parseInt`
of them is in 0..15. -/
def validateCallSign (value : List Nat) : Bool :=
  !value.isEmpty &&
  decide ((value.takeWhile (· ≠ 45)).length ≤ 6) &&
  (value.take (value.takeWhile (· ≠ 45)).length).all isCallChar &&
  (if (value.takeWhile (· ≠ 45)).length + 1 < value.length then
    match parseIntSign (value.drop ((value.takeWhile (· ≠ 45)).length + 1)) with
    | some n => decide (0 ≤ n) && decide (n ≤ 15)
    | none => false
  else true)

/-- The six 7-bit base characters of an encoded call sign, 0x20-padded and
shifted left one bit (guts.js `encodeCallSign`'s loop). -/
def encBase (base : List Nat) : List Nat :=
  (List.range 6).map (fun b => (if base.length ≤ b then 32 else (base.getD b 0) &&& 0x7F) <<< 1)

/-- `ssid << 1` written into a Buffer byte: NaN shifts to 0, and the write
truncates to a byte (two's complement for negative values). -/
def jsShlByte : Option Int → Nat
  | none => 0
  | some z => ((2 * z) % 256).toNat

/-- guts.js `encodeCallSign`, producing the 7 encoded bytes.  The call is
split at '-'; `parts[1]` (the text between the first and second '-') gives
the SSID when truthy, else 0.  Errors when the base exceeds 6 characters;
the source's buffer-room check cannot fire here because the packet buffer
is built by concatenation with exactly 7 bytes per call sign. -/
def encodeCallSign (call : List Nat) : Except String (List Nat) :=
  if (call.takeWhile (· ≠ 45)).length > 6 then .error "call sign length > 6"
  else .ok (encBase (call.takeWhile (· ≠ 45)) ++
    [jsShlByte (if (((call.dropWhile (· ≠ 45)).drop 1).takeWhile (· ≠ 45)).isEmpty then some 0
      else parseIntSign (((call.dropWhile (· ≠ 45)).drop 1).takeWhile (· ≠ 45)))])

/-- The decimal digits of `'' + n` for `n < 100` (SSIDs are at most 15). -/
def decDigits (n : Nat) : List Nat :=
  if n < 10 then [48 + n] else [48 + n / 10, 48 + n % 10]

/-- guts.js `decodeCallSign` at `start`: up to 6 characters (`byte >> 1`)
stopping at the first space, then `-ssid` when `(byte6 >> 1) & 0xF` is
nonzero.  Errors when fewer than 7 bytes are available. -/
def decodeCallSign (buffer : List Nat) (start : Nat) : Except String (List Nat) :=
  if start + 7 > buffer.length then .error "There is no room for a call sign"
  else
    let chars := (((buffer.drop start).take 6).map (· >>> 1)).takeWhile (· ≠ 32)
    let ssid := ((buffer.getD (start + 6) 0) >>> 1) &&& 0xF
    .ok (chars ++ (if ssid ≠ 0 then 45 :: decDigits ssid else []))

/-- `buffer[i] |= v` on a Node Buffer (out-of-range writes are ignored). -/
def setOr (l : List Nat) (i v : Nat) : List Nat :=
  l.set i ((l.getD i 0) ||| v)

/-- `buffer[i] += v` on a Node Buffer (bytes wrap at 256). -/
def setAdd (l : List Nat) (i v : Nat) : List Nat :=
  l.set i (((l.getD i 0) + v) % 256)

/-- The `via.forEach` encoding loop: the digipeater blocks in order. -/
def encodeVia : List (List Nat) → Except String (List Nat)
  | [] => .ok []
  | v :: rest =>
    match encodeCallSign v, encodeVia rest with
    | .ok b, .ok bs => .ok (b ++ bs)
    | .error e, _ => .error e
    | .ok _, .error e => .error e

/-- guts.js `encodePacket`.  Validations in source order (`validatePort` and
the `Buffer.isBuffer(info)` check are typed away by the embedding); then the
address section with the command/response bit, the end-of-addresses bit
added to the last address byte, the control byte from the type switch
(which for S types adds P/F to address bit 7 instead), the PID byte for
I/UI (`NoPID` = 0xF0 when absent), and the info bytes. -/
def encodePacket (p : Packet) : Except String (List Nat) :=
  if !validateCallSign p.toAddress then .error "invalid destination call sign"
  else if !validateCallSign p.fromAddress then .error "invalid source call sign"
  else if p.P && p.F then .error "Packet contains both P[oll] and F[inal]."
  else if p.command && p.response then .error "Packet contains both command and response."
  else if !(p.via.all validateCallSign) then .error "invalid repeater call sign"
  else
    match encodeCallSign p.toAddress, encodeCallSign p.fromAddress, encodeVia p.via with
    | .ok to7, .ok from7, .ok viaBytes =>
      let addr := to7 ++ from7 ++ viaBytes
      let addr := if p.command then setOr addr 6 0x80
        else if p.response then setOr addr 13 0x80 else addr
      let addr := setAdd addr (addr.length - 1) 1
      let base := (p.type.map controlBits).getD 0
      let ca : Nat × List Nat :=
        match p.type with
        | some .SABME | some .SABM | some .DISC | some .UI =>
          (base + (if p.P then 0x10 else 0), addr)
        | some .DM | some .UA | some .FRMR =>
          (base + (if p.F then 0x10 else 0), addr)
        | some .RR | some .RNR | some .REJ | some .SREJ =>
          (base + (match p.NR with | some n => (n &&& 7) <<< 5 | none => 0),
           if p.P then setAdd addr 6 0x80
           else if p.F then setAdd addr 13 0x80 else addr)
        | some .I =>
          (base + (if p.P then 0x10 else 0)
            + (match p.NR with | some n => (n &&& 7) <<< 5 | none => 0)
            + (match p.NS with | some n => (n &&& 7) <<< 1 | none => 0), addr)
        | _ => (base, addr)
      .ok (ca.2 ++ [ca.1 % 256]
        ++ (if p.type = some PType.I ∨ p.type = some PType.UI then [(p.PID.getD 0xF0) % 256] else [])
        ++ p.info.getD [])
    | .error e, _, _ => .error e
    | .ok _, .error e, _ => .error e
    | .ok _, .ok _, .error e => .error e

/-- The `for (next = 14; (buffer[next-1] & 1) == 0; next += 7)` digipeater
loop of `decodePacket`: while the previous byte's end-of-addresses bit is
clear, read a call sign (whose room check is the only other exit), append
'*' (42) when the has-been-repeated bit is set, and advance by 7.  Fuel
(`buffer.length + 1` at the call site) bounds the iterations, each of which
consumes 7 fresh bytes. -/
def decodeViaLoop (buffer : List Nat) : Nat → Nat → List (List Nat) →
    Except String (List (List Nat) × Nat)
  | 0, _, _ => .error "via loop out of fuel"
  | fuel + 1, next, acc =>
    if (buffer.getD (next - 1) 0) &&& 1 = 0 then
      match decodeCallSign buffer next with
      | .error e => .error e
      | .ok call =>
        decodeViaLoop buffer fuel (next + 7)
          (acc ++ [if (buffer.getD (next + 6) 0) >>> 7 ≠ 0 then call ++ [42] else call])
    else .ok (acc, next)

/-- guts.js `decodePacket`.  `next` below stays at the control byte's
index; the source's `next++` reads are the `+ 1` / `+ 2` offsets. -/
def decodePacket (buffer : List Nat) : Except String Packet :=
  match decodeCallSign buffer 0 with
  | .error e => .error e
  | .ok toAddress =>
    match decodeCallSign buffer 7 with
    | .error e => .error e
    | .ok fromAddress =>
      let toC : Bool := decide ((buffer.getD 6 0) >>> 7 ≠ 0)
      let fromC : Bool := decide ((buffer.getD 13 0) >>> 7 ≠ 0)
      let command := toC && !fromC
      let response := !toC && fromC
      match decodeViaLoop buffer (buffer.length + 1) 14 [] with
      | .error e => .error e
      | .ok (via, next) =>
        if buffer.length ≤ next then .error "No control field"
        else
          let control := buffer.getD next 0
          let tns : Option PType × Option Nat × Option Nat :=
            if control &&& 1 = 0 then
              (some .I, some (control >>> 5), some ((control >>> 1) &&& 7))
            else if control &&& 2 = 0 then
              (some (sTypes ((control >>> 2) &&& 3)), some (control >>> 5), none)
            else
              (uTypes (((control &&& 0xE0) >>> 3) + ((control >>> 2) &&& 3)), none, none)
          let pidNext : Except String (Option Nat × Nat) :=
            if tns.1 = some PType.I ∨ tns.1 = some PType.UI then
              if buffer.length ≤ next + 1 then .error "No PID field"
              else
                let pid := buffer.getD (next + 1) 0
                if pid = 0xF0 then .ok (none, next + 2)
                else if pid = 0xFF ∨ pid = 0x08 then
                  if buffer.length ≤ next + 2 then .error "No escaped PID field"
                  else .ok (some (buffer.getD (next + 2) 0), next + 3)
                else .ok (some pid, next + 2)
            else .ok (none, next + 1)
          match pidNext with
          | .error e => .error e
          | .ok (pid, next2) =>
            let pf : Bool × Bool :=
              if (control >>> 4) &&& 1 = 1 then
                match tns.1 with
                | some .SABM | some .SABME | some .DISC | some .I => (true, false)
                | some .DM | some .UA | some .FRMR => (false, true)
                | some .RR | some .RNR | some .REJ | some .SREJ =>
                  if command then (true, false) else (false, true)
                | _ => (false, false)
              else (false, false)
            .ok { type := tns.1,
                  toAddress := toAddress, fromAddress := fromAddress,
                  via := via,
                  command := command, response := response,
                  P := pf.1, F := pf.2,
                  NR := tns.2.1, NS := tns.2.2,
                  PID := pid,
                  info := if next2 < buffer.length then some (buffer.drop next2) else none }



instance {ε α : Type} [DecidableEq ε] [DecidableEq α] : DecidableEq (Except ε α) := fun x y =>
  match x, y with
  | .ok a, .ok b =>
    if h : a = b then isTrue (by rw [h]) else isFalse (fun hh => h (by injection hh))
  | .error a, .error b =>
    if h : a = b then isTrue (by rw [h]) else isFalse (fun hh => h (by injection hh))
  | .ok _, .error _ => isFalse (fun hh => by injection hh)
  | .error _, .ok _ => isFalse (fun hh => by injection hh)

/-! ### Canonical packets

`validPacket` is the validity notion of the amended claim: the fields a
packet must have for the byte-level codec to reproduce it exactly.  It is
written from the decoder's observable behaviour: canonical call signs
(what `decodeCallSign` can output), no FRMR/TEST (their `uTypes` decode
indices miss the table), P only where the codec round-trips it (SABM,
SABME, DISC, I — not UI, not S types), F only for DM/UA, N(R)/N(S)
present exactly where the decoder produces them, a PID other than the
sentinel/escape values, info only for I/UI and nonempty. -/

/-- The canonical SSID suffixes: absent, or '-' followed by the decimal
digits of 1..15 — exactly what `decodeCallSign` can produce. -/
def ssidSuffixes : List (List Nat) :=
  [[], [45, 49], [45, 50], [45, 51], [45, 52], [45, 53], [45, 54], [45, 55],
   [45, 56], [45, 57], [45, 49, 48], [45, 49, 49], [45, 49, 50], [45, 49, 51],
   [45, 49, 52], [45, 49, 53]]

/-- The numeric SSID of a canonical suffix (0 when absent). -/
def suffixVal (suffix : List Nat) : Nat :=
  (parseIntJS (suffix.drop 1)).getD 0

/-- A canonical call sign: nonempty, base of at most 6 characters from
`[a-zA-Z0-9/]`, canonical SSID suffix. -/
def callOkB (c : List Nat) : Bool :=
  !c.isEmpty &&
  decide ((c.takeWhile (· ≠ 45)).length ≤ 6) &&
  (c.takeWhile (· ≠ 45)).all isCallChar &&
  decide (c.dropWhile (· ≠ 45) ∈ ssidSuffixes)

/-- Types whose encoding decodes back to the same type (`FRMR` and `TEST`
decode to `uTypes` indices 17 and 24 where the table holds `null`). -/
def validType : Option PType → Bool
  | some .FRMR => false
  | some .TEST => false
  | none => false
  | some _ => true

/-- Types that carry N(R) (S frames and I). -/
def nrHas : PType → Bool
  | .RR | .RNR | .REJ | .SREJ | .I => true
  | _ => false

/-- Types whose P bit round-trips (UI's P is dropped by the decoder's P/F
switch; S types lose it to the address bit). -/
def pAllowed : PType → Bool
  | .SABM | .SABME | .DISC | .I => true
  | _ => false

/-- Types whose F bit round-trips. -/
def fAllowed : PType → Bool
  | .DM | .UA => true
  | _ => false

/-- The types that carry a PID and info. -/
def isIUI : PType → Bool
  | .I | .UI => true
  | _ => false

def optNRok (t : Option PType) (nr : Option Nat) : Bool :=
  match nr with
  | some n => (t.map nrHas).getD false && decide (n ≤ 7)
  | none => !(t.map nrHas).getD false

def optNSok (t : Option PType) (ns : Option Nat) : Bool :=
  match ns with
  | some n => decide (t = some PType.I) && decide (n ≤ 7)
  | none => !decide (t = some PType.I)

def optPIDok (t : Option PType) (pid : Option Nat) : Bool :=
  match pid with
  | some v => (t.map isIUI).getD false &&
      decide (v < 256) && decide (v ≠ 0xF0) && decide (v ≠ 0xFF) && decide (v ≠ 0x08)
  | none => true

def optInfoOk (t : Option PType) (info : Option (List Nat)) : Bool :=
  match info with
  | some l => (t.map isIUI).getD false && !l.isEmpty && l.all (· < 256)
  | none => true

/-- A valid AX.25 packet object, in the sense of the amended claim. -/
def validPacket (p : Packet) : Prop :=
  validType p.type = true ∧
  callOkB p.toAddress = true ∧ callOkB p.fromAddress = true ∧
  (∀ v ∈ p.via, callOkB v = true) ∧ p.via.length ≤ 8 ∧
  (p.command = true → p.response = false) ∧
  (p.P = true → p.F = false) ∧
  (p.P = true → (p.type.map pAllowed).getD false = true) ∧
  (p.F = true → (p.type.map fAllowed).getD false = true) ∧
  optNRok p.type p.NR = true ∧ optNSok p.type p.NS = true ∧
  optPIDok p.type p.PID = true ∧ optInfoOk p.type p.info = true

instance (p : Packet) : Decidable (validPacket p) := by
  unfold validPacket
  exact inferInstance

/-- An RR supervisory frame with the Poll bit set: the packet that breaks
the original round-trip claim. -/
def pktRRP : Packet :=
  { type := some .RR, toAddress := [65], fromAddress := [66], via := [],
    command := false, response := false, P := true, F := false,
    NR := some 0, NS := none, PID := none, info := none }

/-- An I frame exercising every field: mixed-length call signs with and
without SSIDs, two digipeaters, command, P, N(R), N(S), a PID and info. -/
def pktI : Packet :=
  { type := some .I, toAddress := [78, 49, 67, 65, 76, 76],
    fromAddress := [87, 50, 88, 45, 49, 53],
    via := [[82, 80, 84, 45, 49], [68, 73, 71, 73]],
    command := true, response := false, P := true, F := false,
    NR := some 5, NS := some 2, PID := some 0xCC, info := some [1, 2, 3] }


/-- C2 (counterexample): `pktRRP` satisfies the claim's validity conditions
(`RR` is in the control table, the call signs are valid, no digipeaters,
not both P and F, not both command and response, no info), yet
`decodePacket (encodePacket pktRRP)` is not `pktRRP`: the encoder stores an
S frame's P bit in bit 7 of the destination SSID byte, which the decoder
reads as the command bit, and the decoder's P/F switch reads control bit 4,
which the encoder never set — so the packet comes back with
`command := true` and `P := false`. -/
theorem packet_roundtrip_not_exact :
    validateCallSign pktRRP.toAddress = true ∧
    validateCallSign pktRRP.fromAddress = true ∧
    encodePacket pktRRP =
      .ok [130, 64, 64, 64, 64, 64, 128, 132, 64, 64, 64, 64, 64, 1, 1] ∧
    decodePacket [130, 64, 64, 64, 64, 64, 128, 132, 64, 64, 64, 64, 64, 1, 1] =
      .ok { pktRRP with command := true, P := false } ∧
    ({ pktRRP with command := true, P := false } : Packet) ≠ pktRRP := by
  decide


/-! ### Round-trip lemmas for the AX.25 codec -/

theorem and3_eq (x : Nat) : x &&& 3 = x % 4 := by
  have h := Nat.and_pow_two_sub_one_eq_mod x 2
  norm_num at h
  exact h

theorem and7_eq (x : Nat) : x &&& 7 = x % 8 := by
  have h := Nat.and_pow_two_sub_one_eq_mod x 3
  norm_num at h
  exact h

theorem and15_eq (x : Nat) : x &&& 15 = x % 16 := by
  have h := Nat.and_pow_two_sub_one_eq_mod x 4
  norm_num at h
  exact h

theorem and127_eq (x : Nat) : x &&& 127 = x % 128 := by
  have h := Nat.and_pow_two_sub_one_eq_mod x 7
  norm_num at h
  exact h

theorem getD_append_lt (l₁ l₂ : List Nat) (i : Nat) (h : i < l₁.length) :
    (l₁ ++ l₂).getD i 0 = l₁.getD i 0 := by
  simp only [List.getD_eq_getElem?_getD]
  rw [List.getElem?_append_left h]

theorem getD_append_ge (l₁ l₂ : List Nat) (i : Nat) (h : l₁.length ≤ i) :
    (l₁ ++ l₂).getD i 0 = l₂.getD (i - l₁.length) 0 := by
  simp only [List.getD_eq_getElem?_getD]
  rw [List.getElem?_append_right h]

theorem setOr_append_lt (l₁ l₂ : List Nat) (i v : Nat) (h : i < l₁.length) :
    setOr (l₁ ++ l₂) i v = setOr l₁ i v ++ l₂ := by
  unfold setOr
  rw [getD_append_lt _ _ _ h, List.set_append_left _ _ h]

theorem setOr_append_ge (l₁ l₂ : List Nat) (i v : Nat) (h : l₁.length ≤ i) :
    setOr (l₁ ++ l₂) i v = l₁ ++ setOr l₂ (i - l₁.length) v := by
  unfold setOr
  rw [getD_append_ge _ _ _ h, List.set_append_right _ _ h]

theorem setAdd_append_lt (l₁ l₂ : List Nat) (i v : Nat) (h : i < l₁.length) :
    setAdd (l₁ ++ l₂) i v = setAdd l₁ i v ++ l₂ := by
  unfold setAdd
  rw [getD_append_lt _ _ _ h, List.set_append_left _ _ h]

theorem setAdd_append_ge (l₁ l₂ : List Nat) (i v : Nat) (h : l₁.length ≤ i) :
    setAdd (l₁ ++ l₂) i v = l₁ ++ setAdd l₂ (i - l₁.length) v := by
  unfold setAdd
  rw [getD_append_ge _ _ _ h, List.set_append_right _ _ h]

theorem encBase_length (base : List Nat) : (encBase base).length = 6 := by
  simp [encBase]

theorem setOr_block (b : List Nat) (x v : Nat) :
    setOr (encBase b ++ [x]) 6 v = encBase b ++ [x ||| v] := by
  rw [setOr_append_ge _ _ _ _ (by rw [encBase_length])]
  simp [setOr, encBase_length]

theorem setAdd_block (b : List Nat) (x v : Nat) :
    setAdd (encBase b ++ [x]) 6 v = encBase b ++ [(x + v) % 256] := by
  rw [setAdd_append_ge _ _ _ _ (by rw [encBase_length])]
  simp [setAdd, encBase_length]

theorem or128_eq (s : Nat) (h : s ≤ 15) : (2 * s) ||| 128 = 2 * s + 128 := by
  interval_cases s <;> decide

/-- The sixteen canonical SSID suffixes, case by case: the value is at most
15, the encoder's SSID byte is twice the value, the decoder reconstructs
the suffix from the value, and `parseInt` on the digits after '-' returns
the value. -/
theorem suffix_facts (s : List Nat) (h : s ∈ ssidSuffixes) :
    suffixVal s ≤ 15 ∧
    jsShlByte (if (((s.drop 1).takeWhile (· ≠ 45)).isEmpty) = true then some 0
      else parseIntSign ((s.drop 1).takeWhile (· ≠ 45))) = 2 * suffixVal s ∧
    (if suffixVal s ≠ 0 then 45 :: decDigits (suffixVal s) else []) = s ∧
    (2 ≤ s.length → parseIntSign (s.drop 1) = some (suffixVal s : Int)) ∧
    (s = [] ∨ 2 ≤ s.length) := by
  simp only [ssidSuffixes, List.mem_cons, List.not_mem_nil, or_false] at h
  rcases h with rfl | rfl | rfl | rfl | rfl | rfl | rfl | rfl | rfl | rfl | rfl | rfl |
    rfl | rfl | rfl | rfl <;> decide

theorem callOk_parts (c : List Nat) (h : callOkB c = true) :
    c = c.takeWhile (· ≠ 45) ++ c.dropWhile (· ≠ 45) ∧
    (c.takeWhile (· ≠ 45)).length ≤ 6 ∧
    (∀ x ∈ c.takeWhile (· ≠ 45), isCallChar x = true) ∧
    c.dropWhile (· ≠ 45) ∈ ssidSuffixes ∧ c ≠ [] := by
  unfold callOkB at h
  simp only [Bool.and_eq_true, decide_eq_true_eq, List.all_eq_true,
    Bool.not_eq_true', List.isEmpty_eq_false] at h
  exact ⟨(List.takeWhile_append_dropWhile _ c).symm, h.1.1.2, h.1.2, h.2, h.1.1.1⟩

theorem isCallChar_facts (x : Nat) (h : isCallChar x = true) :
    47 ≤ x ∧ x ≤ 122 ∧ x ≠ 32 ∧ x ≠ 45 := by
  unfold isCallChar at h
  simp only [Bool.or_eq_true, decide_eq_true_eq, Bool.and_eq_true] at h
  omega


theorem encBase_eq (base : List Nat) (h6 : base.length ≤ 6)
    (hch : ∀ x ∈ base, isCallChar x = true) :
    (encBase base).map (· >>> 1) = base ++ List.replicate (6 - base.length) 32 := by
  apply listEqOfGetD
  · simp only [List.length_map, encBase_length, List.length_append, List.length_replicate]
    omega
  · intro i hi
    rw [List.length_map, encBase_length] at hi
    have hL : ((encBase base).map (· >>> 1)).getD i 0 =
        ((if base.length ≤ i then 32 else (base.getD i 0) &&& 0x7F) <<< 1) >>> 1 := by
      rw [List.getD_eq_getElem _ _ (by rw [List.length_map, encBase_length]; omega)]
      simp only [List.getElem_map, encBase, List.getElem_range]
    rw [hL]
    by_cases hb : i < base.length
    · rw [if_neg (by omega), getD_append_lt _ _ _ hb]
      have hmem : base.getD i 0 ∈ base := by
        rw [List.getD_eq_getElem _ _ hb]
        exact List.getElem_mem _
      have hcc := isCallChar_facts _ (hch _ hmem)
      rw [Nat.shiftLeft_eq, Nat.shiftRight_eq_div_pow, and127_eq]
      have : base.getD i 0 % 128 = base.getD i 0 := Nat.mod_eq_of_lt (by omega)
      rw [this]
      omega
    · rw [if_pos (by omega), getD_append_ge _ _ _ (by omega)]
      rw [List.getD_eq_getElem _ _ (by simp only [List.length_replicate]; omega)]
      simp


theorem decode_encBase (base : List Nat) (h6 : base.length ≤ 6)
    (hch : ∀ x ∈ base, isCallChar x = true) :
    ((encBase base).map (· >>> 1)).takeWhile (· ≠ 32) = base := by
  rw [encBase_eq base h6 hch]
  rw [List.takeWhile_append_of_pos (by
    intro a ha
    have := isCallChar_facts a (hch a ha)
    simp only [ne_eq, decide_eq_true_eq]
    omega)]
  have hrep : (List.replicate (6 - base.length) 32).takeWhile (fun x => decide (x ≠ 32)) = [] := by
    cases h : 6 - base.length with
    | zero => simp
    | succ n => simp [List.replicate_succ, List.takeWhile_cons]
  rw [hrep, List.append_nil]


/-- Decoding an encoded call-sign block embedded in a buffer.  The SSID
byte may carry the command/response bit (`+ 128`) and/or the
end-of-addresses bit (`+ a`): `decodeCallSign` masks both away. -/
theorem decodeCallSign_block (c : List Nat) (x a b : Nat) (pre rest : List Nat)
    (hc : callOkB c = true) (ha : a ≤ 1) (hb : b ≤ 1)
    (hx : x = 2 * suffixVal (c.dropWhile (· ≠ 45)) + a + 128 * b) :
    decodeCallSign (pre ++ ((encBase (c.takeWhile (· ≠ 45)) ++ [x]) ++ rest)) pre.length
      = .ok c := by
  obtain ⟨hsplit, h6, hch, hmem, hne⟩ := callOk_parts c hc
  obtain ⟨hs15, hjs, hrec, hparse, hlen2⟩ := suffix_facts _ hmem
  have hblen : (encBase (c.takeWhile (· ≠ 45)) ++ [x]).length = 7 := by
    simp [encBase_length]
  have hlenB : (pre ++ ((encBase (c.takeWhile (· ≠ 45)) ++ [x]) ++ rest)).length
      = pre.length + (7 + rest.length) := by
    simp only [List.length_append, hblen, List.length_cons]
  unfold decodeCallSign
  have hno : ¬ (pre.length + 7 >
      (pre ++ ((encBase (c.takeWhile (· ≠ 45)) ++ [x]) ++ rest)).length) := by
    rw [hlenB]; omega
  rw [if_neg hno]
  have hdrop : (pre ++ ((encBase (c.takeWhile (· ≠ 45)) ++ [x]) ++ rest)).drop pre.length
      = (encBase (c.takeWhile (· ≠ 45)) ++ [x]) ++ rest := List.drop_left _ _
  have htake : ((encBase (c.takeWhile (· ≠ 45)) ++ [x]) ++ rest).take 6
      = encBase (c.takeWhile (· ≠ 45)) := by
    rw [List.append_assoc, List.take_left' (encBase_length _)]
  have hgd : (pre ++ ((encBase (c.takeWhile (· ≠ 45)) ++ [x]) ++ rest)).getD
      (pre.length + 6) 0 = x := by
    rw [getD_append_ge _ _ _ (by omega), Nat.add_sub_cancel_left,
      getD_append_lt _ _ _ (by rw [hblen]; omega),
      getD_append_ge _ _ _ (by rw [encBase_length])]
    simp [encBase_length]
  have hssid : (x >>> 1) &&& 15 = suffixVal (c.dropWhile (· ≠ 45)) := by
    rw [Nat.shiftRight_eq_div_pow, and15_eq]
    have h2 : (2 : Nat) ^ 1 = 2 := rfl
    rw [h2]
    subst hx
    omega
  simp only [hdrop, htake, hgd, decode_encBase _ h6 hch, hssid, hrec]
  rw [← hsplit]


/-- The 7 bytes `encodeCallSign` writes for a canonical call sign. -/
def callBlock0 (c : List Nat) : List Nat :=
  encBase (c.takeWhile (· ≠ 45)) ++ [2 * suffixVal (c.dropWhile (· ≠ 45))]

theorem callBlock0_length (c : List Nat) : (callBlock0 c).length = 7 := by
  simp [callBlock0, encBase_length]

theorem encodeCallSign_ok (c : List Nat) (h : callOkB c = true) :
    encodeCallSign c = .ok (callBlock0 c) := by
  obtain ⟨hsplit, h6, hch, hmem, hne⟩ := callOk_parts c h
  obtain ⟨hs15, hjs, hrec, hparse, hlen2⟩ := suffix_facts _ hmem
  unfold encodeCallSign callBlock0
  rw [if_neg (by omega), hjs]

theorem encodeVia_ok (via : List (List Nat)) (h : ∀ v ∈ via, callOkB v = true) :
    encodeVia via = .ok ((via.map callBlock0).flatten) := by
  induction via with
  | nil => rfl
  | cons v rest ih =>
    unfold encodeVia
    rw [encodeCallSign_ok v (h v (by simp)), ih (fun w hw => h w (by simp [hw]))]
    rfl

/-- The digipeater blocks as laid down in the final packet: the last one
carries the end-of-addresses bit. -/
def viaBumped : List (List Nat) → List Nat
  | [] => []
  | [v] => setAdd (callBlock0 v) 6 1
  | v :: rest => callBlock0 v ++ viaBumped rest

theorem viaBumped_cons (v : List Nat) (rest : List (List Nat)) :
    viaBumped (v :: rest) =
      (if rest.isEmpty then setAdd (callBlock0 v) 6 1 else callBlock0 v) ++ viaBumped rest := by
  cases rest with
  | nil => simp [viaBumped]
  | cons w ws => simp [viaBumped]

theorem setAdd_length (l : List Nat) (i v : Nat) : (setAdd l i v).length = l.length := by
  simp [setAdd]

theorem viaBumped_length (via : List (List Nat)) :
    (viaBumped via).length = 7 * via.length := by
  induction via with
  | nil => simp [viaBumped]
  | cons v rest ih =>
    rw [viaBumped_cons]
    by_cases h : rest.isEmpty <;>
      simp [h, setAdd_length, callBlock0_length, ih, List.length_append] <;> ring

theorem setAdd_flatten_last (via : List (List Nat)) (hne : via ≠ []) :
    setAdd ((via.map callBlock0).flatten) (7 * via.length - 1) 1 = viaBumped via := by
  induction via with
  | nil => exact absurd rfl hne
  | cons v rest ih =>
    rw [viaBumped_cons]
    by_cases h : rest = []
    · subst h
      simp only [List.map_cons, List.map_nil, List.flatten_cons, List.flatten_nil,
        List.append_nil, List.length_cons, List.length_nil, List.isEmpty_nil, if_true]
      have h7 : 7 * (0 + 1) - 1 = 6 := by norm_num
      rw [h7]
      simp [viaBumped]
    · have hre : rest.isEmpty = false := by simp [h]
      simp only [List.map_cons, List.flatten_cons, List.length_cons, hre, Bool.false_eq_true,
        if_false]
      have hge : (callBlock0 v).length ≤ 7 * (rest.length + 1) - 1 := by
        rw [callBlock0_length]
        have : 1 ≤ rest.length := List.length_pos.mpr h
        omega
      rw [setAdd_append_ge _ _ _ _ hge, callBlock0_length]
      have hidx : 7 * (rest.length + 1) - 1 - 7 = 7 * rest.length - 1 := by omega
      rw [hidx, ih h]


/-- `validateCallSign` on a split into base and canonical suffix. -/
theorem validate_of_parts (tw dw : List Nat)
    (h6 : tw.length ≤ 6) (hch : ∀ x ∈ tw, isCallChar x = true)
    (hdw : dw ∈ ssidSuffixes) (hne : tw ++ dw ≠ [])
    (htw : (tw ++ dw).takeWhile (· ≠ 45) = tw) :
    validateCallSign (tw ++ dw) = true := by
  obtain ⟨hs15, hjs, hrec, hparse, hlen2⟩ := suffix_facts _ hdw
  unfold validateCallSign
  have h1 : (tw ++ dw).isEmpty = false := by simp [hne]
  rw [h1, htw, List.take_left]
  simp only [Bool.not_false, Bool.true_and, Bool.and_eq_true, decide_eq_true_eq,
    List.all_eq_true]
  refine ⟨⟨h6, hch⟩, ?_⟩
  have hclen : (tw ++ dw).length = tw.length + dw.length := by
    simp [List.length_append]
  by_cases hlt : tw.length + 1 < (tw ++ dw).length
  · rw [if_pos hlt]
    have h2len : 2 ≤ dw.length := by
      rcases hlen2 with h0 | h2
      · rw [h0, List.append_nil] at hlt
        omega
      · exact h2
    have hdrop : (tw ++ dw).drop (tw.length + 1) = dw.drop 1 := by
      rw [List.drop_add, List.drop_left]
    rw [hdrop, hparse h2len]
    simp only [Bool.and_eq_true, decide_eq_true_eq]
    exact ⟨Int.natCast_nonneg _, by exact_mod_cast hs15⟩
  · rw [if_neg hlt]

/-- A canonical call sign passes the source's `validateCallSign`. -/
theorem callOk_validateCallSign (c : List Nat) (h : callOkB c = true) :
    validateCallSign c = true := by
  obtain ⟨hsplit, h6, hch, hmem, hne⟩ := callOk_parts c h
  have := validate_of_parts (c.takeWhile (· ≠ 45)) (c.dropWhile (· ≠ 45)) h6 hch hmem
    (by rw [← hsplit]; exact hne) (by rw [← hsplit])
  rw [← hsplit] at this
  exact this

/-- The control byte `encodePacket` computes (before the Buffer write's
byte truncation). -/
def controlVal (p : Packet) : Nat :=
  (p.type.map controlBits).getD 0 +
  match p.type with
  | some .SABME | some .SABM | some .DISC | some .UI => if p.P then 0x10 else 0
  | some .DM | some .UA | some .FRMR => if p.F then 0x10 else 0
  | some .RR | some .RNR | some .REJ | some .SREJ =>
    match p.NR with | some n => (n &&& 7) <<< 5 | none => 0
  | some .I =>
    (if p.P then 0x10 else 0)
      + (match p.NR with | some n => (n &&& 7) <<< 5 | none => 0)
      + (match p.NS with | some n => (n &&& 7) <<< 1 | none => 0)
  | _ => 0


/-- The command/response bit (`buffer[6] |= 0x80` / `buffer[13] |= 0x80`)
on the address section. -/
theorem addr_tweak1 (cB rB : Bool) (toc fr V : List Nat)
    (hsT : suffixVal (toc.dropWhile (· ≠ 45)) ≤ 15)
    (hsF : suffixVal (fr.dropWhile (· ≠ 45)) ≤ 15) :
    (if cB then setOr (callBlock0 toc ++ callBlock0 fr ++ V) 6 0x80
     else if rB then setOr (callBlock0 toc ++ callBlock0 fr ++ V) 13 0x80
     else (callBlock0 toc ++ callBlock0 fr ++ V))
    = (encBase (toc.takeWhile (· ≠ 45)) ++
        [2 * suffixVal (toc.dropWhile (· ≠ 45)) + (if cB then 128 else 0)]) ++
      (encBase (fr.takeWhile (· ≠ 45)) ++
        [2 * suffixVal (fr.dropWhile (· ≠ 45)) + (if rB && !cB then 128 else 0)]) ++ V := by
  have h14 : (callBlock0 toc ++ callBlock0 fr).length = 14 := by
    simp [List.length_append, callBlock0_length]
  cases cB with
  | true =>
    simp only [eq_self_iff_true, if_true, Bool.not_true, Bool.and_false,
      Bool.false_eq_true, if_false]
    rw [setOr_append_lt _ _ _ _ (by rw [h14]; omega),
      setOr_append_lt _ _ _ _ (by rw [callBlock0_length]; omega)]
    unfold callBlock0
    rw [setOr_block, or128_eq _ hsT]
    simp
  | false =>
    cases rB with
    | true =>
      simp only [eq_self_iff_true, if_true, Bool.not_false, Bool.and_true,
        Bool.false_eq_true, if_false]
      rw [setOr_append_lt _ _ _ _ (by rw [h14]; omega),
        setOr_append_ge _ _ _ _ (by rw [callBlock0_length]; omega)]
      rw [callBlock0_length]
      unfold callBlock0
      rw [show (13 : Nat) - 7 = 6 from rfl, setOr_block, or128_eq _ hsF]
      simp
    | false =>
      simp only [Bool.false_eq_true, if_false, Bool.and_false]
      unfold callBlock0
      simp

/-- The end-of-addresses bit (`buffer[next - 1] += 1`): it lands on the
source SSID byte when there are no digipeaters, else on the last
digipeater block. -/
theorem addr_end (T : List Nat) (hT : T.length = 7) (fr : List Nat) (r : Nat) (hr : r ≤ 128)
    (hsF : suffixVal (fr.dropWhile (· ≠ 45)) ≤ 15) (via : List (List Nat)) :
    setAdd (T ++ (encBase (fr.takeWhile (· ≠ 45)) ++
        [2 * suffixVal (fr.dropWhile (· ≠ 45)) + r]) ++ (via.map callBlock0).flatten)
      ((T ++ (encBase (fr.takeWhile (· ≠ 45)) ++
        [2 * suffixVal (fr.dropWhile (· ≠ 45)) + r]) ++ (via.map callBlock0).flatten).length - 1) 1
    = T ++ (encBase (fr.takeWhile (· ≠ 45)) ++
        [2 * suffixVal (fr.dropWhile (· ≠ 45)) + r + (if via.isEmpty then 1 else 0)]) ++
        viaBumped via := by
  have hFb : (encBase (fr.takeWhile (· ≠ 45)) ++
      [2 * suffixVal (fr.dropWhile (· ≠ 45)) + r]).length = 7 := by
    simp [encBase_length]
  have h14 : (T ++ (encBase (fr.takeWhile (· ≠ 45)) ++
      [2 * suffixVal (fr.dropWhile (· ≠ 45)) + r])).length = 14 := by
    simp only [List.length_append, hT, hFb]
  cases via with
  | nil =>
    simp only [List.map_nil, List.flatten_nil, List.append_nil, List.isEmpty_nil, if_true,
      viaBumped]
    rw [h14]
    rw [setAdd_append_ge _ _ _ _ (by rw [hT]; omega), hT]
    rw [show (14 : Nat) - 1 - 7 = 6 from rfl, setAdd_block]
    rw [Nat.mod_eq_of_lt (by omega)]
  | cons v vs =>
    have hVf : (((v :: vs).map callBlock0).flatten).length = 7 * (v :: vs).length := by
      clear h14 hFb
      induction (v :: vs) with
      | nil => simp
      | cons w ws ih =>
        simp only [List.map_cons, List.flatten_cons, List.length_append, callBlock0_length,
          ih, List.length_cons]
        omega
    have hlen : ((T ++ (encBase (fr.takeWhile (· ≠ 45)) ++
        [2 * suffixVal (fr.dropWhile (· ≠ 45)) + r]) ++ ((v :: vs).map callBlock0).flatten).length)
        = 14 + 7 * (v :: vs).length := by
      simp only [List.length_append, hT, hFb, hVf]
    rw [hlen]
    have h1 : (T ++ (encBase (fr.takeWhile (· ≠ 45)) ++
        [2 * suffixVal (fr.dropWhile (· ≠ 45)) + r])).length ≤ 14 + 7 * (v :: vs).length - 1 := by
      rw [h14]; simp; omega
    rw [setAdd_append_ge _ _ _ _ h1, h14]
    have h3 : 14 + 7 * (v :: vs).length - 1 - 14 = 7 * (v :: vs).length - 1 := by
      simp; omega
    rw [h3, setAdd_flatten_last _ (by simp)]
    have h4 : ((v :: vs).isEmpty) = false := by simp
    rw [h4]
    simp


/-- The bytes `encodePacket` produces for a valid packet, in structured
form: destination block (with the command bit), source block (with the
response bit and, when there are no digipeaters, the end-of-addresses
bit), digipeater blocks, control byte, PID byte for I/UI, info. -/
theorem encodePacket_valid (p : Packet) (h : validPacket p) :
    encodePacket p = .ok (
      (encBase (p.toAddress.takeWhile (· ≠ 45)) ++
        [2 * suffixVal (p.toAddress.dropWhile (· ≠ 45)) + (if p.command then 128 else 0)]) ++
      (encBase (p.fromAddress.takeWhile (· ≠ 45)) ++
        [2 * suffixVal (p.fromAddress.dropWhile (· ≠ 45)) + (if p.response then 128 else 0)
          + (if p.via.isEmpty then 1 else 0)]) ++
      viaBumped p.via ++
      [controlVal p % 256] ++
      (if p.type = some PType.I ∨ p.type = some PType.UI then [(p.PID.getD 0xF0) % 256]
        else []) ++
      p.info.getD []) := by
  unfold validPacket at h
  obtain ⟨hvt, hcTo, hcFrom, hcVia, hvia8, hcr, hpf, hpa, hfa, hnr, hns, hpid, hinfo⟩ := h
  have hvto := callOk_validateCallSign _ hcTo
  have hvfrom := callOk_validateCallSign _ hcFrom
  have hvall : p.via.all validateCallSign = true := by
    rw [List.all_eq_true]
    intro v hv
    exact callOk_validateCallSign v (hcVia v hv)
  have hpfB : (p.P && p.F) = false := by
    cases hP2 : p.P
    · rfl
    · simp [hpf hP2]
  have hcrB : (p.command && p.response) = false := by
    cases hC2 : p.command
    · rfl
    · simp [hcr hC2]
  have hRB : (p.response && !p.command) = p.response := by
    cases hC2 : p.command
    · simp
    · simp [hcr hC2]
  obtain ⟨hsplitT, h6T, hchT, hmemT, hneT⟩ := callOk_parts _ hcTo
  obtain ⟨hsplitF, h6F, hchF, hmemF, hneF⟩ := callOk_parts _ hcFrom
  have hsT := (suffix_facts _ hmemT).1
  have hsF := (suffix_facts _ hmemF).1
  simp only [encodePacket, hvto, hvfrom, hvall, hpfB, hcrB, Bool.not_true,
    Bool.false_eq_true, if_false, encodeCallSign_ok _ hcTo, encodeCallSign_ok _ hcFrom,
    encodeVia_ok _ hcVia]
  rw [addr_tweak1 p.command p.response p.toAddress p.fromAddress
    ((List.map callBlock0 p.via).flatten) hsT hsF, hRB]
  rw [addr_end _ (by simp [encBase_length]) p.fromAddress _
    (by cases p.response <;> simp) hsF p.via]
  rcases htp : p.type with _ | t
  · rw [htp] at hvt
    simp [validType] at hvt
  · rw [htp] at hvt hpa hfa
    have hS : ∀ t2 : PType, pAllowed t2 = false → fAllowed t2 = false → t = t2 →
        p.P = false ∧ p.F = false := by
      intro t2 hp2 hf2 hteq
      subst hteq
      constructor
      · cases hp3 : p.P
        · rfl
        · have h2 := hpa hp3
          rw [Option.map_some', Option.getD_some, hp2] at h2
          exact absurd h2 (by simp)
      · cases hf3 : p.F
        · rfl
        · have h2 := hfa hf3
          rw [Option.map_some', Option.getD_some, hf2] at h2
          exact absurd h2 (by simp)
    cases t
    · simp [controlVal, htp]
      omega
    · obtain ⟨hP0, hF0⟩ := hS PType.RR rfl rfl rfl
      simp [controlVal, htp, hP0, hF0]
    · obtain ⟨hP0, hF0⟩ := hS PType.RNR rfl rfl rfl
      simp [controlVal, htp, hP0, hF0]
    · obtain ⟨hP0, hF0⟩ := hS PType.REJ rfl rfl rfl
      simp [controlVal, htp, hP0, hF0]
    · obtain ⟨hP0, hF0⟩ := hS PType.SREJ rfl rfl rfl
      simp [controlVal, htp, hP0, hF0]
    · simp [controlVal, htp]
    · simp [controlVal, htp]
    · simp [controlVal, htp]
    · simp [controlVal, htp]
    · simp [controlVal, htp]
    · simp [validType] at hvt
    · simp [controlVal, htp]
    · simp [controlVal, htp]
    · simp [validType] at hvt

/-- The decoder's digipeater loop walks exactly the encoder's digipeater
blocks: starting right after the address blocks in `pre` (whose last byte
carries the end-of-addresses bit exactly when there are no digipeaters),
it returns the digipeater call signs in order (no has-been-repeated
markers, since the encoder never sets bit 7 of a digipeater SSID byte)
and stops at the control byte. -/
theorem decodeViaLoop_ok (B tail : List Nat) (via : List (List Nat)) :
    ∀ (fuel : Nat) (pre : List Nat) (acc : List (List Nat)),
    (∀ v ∈ via, callOkB v = true) →
    B = pre ++ viaBumped via ++ tail →
    via.length + 1 ≤ fuel →
    1 ≤ pre.length →
    (B.getD (pre.length - 1) 0) &&& 1 = (if via.isEmpty then 1 else 0) →
    decodeViaLoop B fuel pre.length acc = .ok (acc ++ via, pre.length + 7 * via.length) := by
  induction via with
  | nil =>
    intro fuel pre acc hv hB hfuel hpre hbit
    cases fuel with
    | zero => omega
    | succ f =>
      simp only [decodeViaLoop]
      simp only [List.isEmpty_nil, if_true] at hbit
      rw [if_neg (by omega)]
      simp
  | cons v rest ih =>
    intro fuel pre acc hv hB hfuel hpre hbit
    cases fuel with
    | zero =>
      have hfl : (v :: rest).length = rest.length + 1 := rfl
      omega
    | succ f =>
      simp only [decodeViaLoop]
      simp only [List.isEmpty_cons, Bool.false_eq_true, if_false] at hbit
      rw [if_pos hbit]
      have hcv := hv v (List.mem_cons_self _ _)
      have hsv : suffixVal (v.dropWhile (· ≠ 45)) ≤ 15 :=
        (suffix_facts _ (callOk_parts v hcv).2.2.2.1).1
      have hblock : (if rest.isEmpty then setAdd (callBlock0 v) 6 1 else callBlock0 v)
          = encBase (v.takeWhile (· ≠ 45)) ++
            [2 * suffixVal (v.dropWhile (· ≠ 45)) + (if rest.isEmpty then 1 else 0)] := by
        cases hre : rest.isEmpty
        · simp only [hre, Bool.false_eq_true, if_false]
          unfold callBlock0
          simp
        · simp only [hre, if_true]
          unfold callBlock0
          rw [setAdd_block, Nat.mod_eq_of_lt (by omega)]
      have hB' : B = pre ++ ((encBase (v.takeWhile (· ≠ 45)) ++
          [2 * suffixVal (v.dropWhile (· ≠ 45)) + (if rest.isEmpty then 1 else 0)]) ++
          (viaBumped rest ++ tail)) := by
        rw [hB, viaBumped_cons, hblock]
        simp [List.append_assoc]
      have hdc : decodeCallSign B pre.length = .ok v := by
        rw [hB']
        exact decodeCallSign_block v _ (if rest.isEmpty then 1 else 0) 0 pre _ hcv
          (by cases rest.isEmpty <;> simp) (by omega) (by simp)
      simp only [hdc]
      have hmk : B.getD (pre.length + 6) 0 =
          2 * suffixVal (v.dropWhile (· ≠ 45)) + (if rest.isEmpty then 1 else 0) := by
        rw [hB', getD_append_ge _ _ _ (by omega), Nat.add_sub_cancel_left,
          getD_append_lt _ _ _ (by simp [encBase_length]),
          getD_append_ge _ _ _ (by rw [encBase_length])]
        simp [encBase_length]
      have hsh : (2 * suffixVal (v.dropWhile (· ≠ 45)) +
          (if rest.isEmpty then 1 else 0)) >>> 7 = 0 := by
        rw [Nat.shiftRight_eq_div_pow]
        have h2 : (2:Nat)^7 = 128 := by norm_num
        rw [h2]
        cases hre : rest.isEmpty <;>
          simp only [hre, Bool.false_eq_true, if_false, if_true] <;> omega
      rw [if_neg (by rw [hmk, hsh]; simp)]
      have hplen : (pre ++ (encBase (v.takeWhile (· ≠ 45)) ++
          [2 * suffixVal (v.dropWhile (· ≠ 45)) + (if rest.isEmpty then 1 else 0)])).length
          = pre.length + 7 := by
        simp [encBase_length, List.length_append]
      have ihh := ih f (pre ++ (encBase (v.takeWhile (· ≠ 45)) ++
          [2 * suffixVal (v.dropWhile (· ≠ 45)) + (if rest.isEmpty then 1 else 0)]))
        (acc ++ [v]) (fun w hw => hv w (List.mem_cons_of_mem _ hw))
        (by rw [hB']; simp [List.append_assoc])
        (by
          have hfl : (v :: rest).length = rest.length + 1 := rfl
          omega)
        (by rw [hplen]; omega)
        (by
          rw [hplen, show pre.length + 7 - 1 = pre.length + 6 from by omega, hmk]
          cases hre : rest.isEmpty <;>
            simp only [hre, Bool.false_eq_true, if_false, if_true, Nat.and_one_is_mod] <;>
            omega)
      rw [hplen] at ihh
      rw [ihh]
      simp [List.append_assoc]
      try omega

theorem byte_hi (s : Nat) (hs : s ≤ 15) (b : Bool) :
    decide (((2 * s + (if b then 128 else 0)) >>> 7) ≠ 0) = b := by
  have h2 : (2:Nat)^7 = 128 := by norm_num
  cases b
  · simp only [Bool.false_eq_true, if_false]
    rw [Nat.shiftRight_eq_div_pow, h2]
    have hz : (2 * s + 0) / 128 = 0 := by omega
    rw [hz]
    simp
  · simp only [if_true]
    rw [Nat.shiftRight_eq_div_pow, h2]
    have hz : (2 * s + 128) / 128 = 1 := by omega
    rw [hz]
    simp

theorem byte_hi2 (s e1 : Nat) (hs : s ≤ 15) (he : e1 ≤ 1) (b : Bool) :
    decide (((2 * s + (if b then 128 else 0) + e1) >>> 7) ≠ 0) = b := by
  have h2 : (2:Nat)^7 = 128 := by norm_num
  cases b
  · simp only [Bool.false_eq_true, if_false]
    rw [Nat.shiftRight_eq_div_pow, h2]
    have hz : (2 * s + 0 + e1) / 128 = 0 := by omega
    rw [hz]
    simp
  · simp only [if_true]
    rw [Nat.shiftRight_eq_div_pow, h2]
    have hz : (2 * s + 128 + e1) / 128 = 1 := by omega
    rw [hz]
    simp

theorem optNRok_none_of (t : PType) (nr : Option Nat)
    (h : optNRok (some t) nr = true) (ht : nrHas t = false) : nr = none := by
  rcases nr with _ | n
  · rfl
  · simp [optNRok, ht] at h

theorem optNRok_some_le (t : PType) (n : Nat)
    (h : optNRok (some t) (some n) = true) : n ≤ 7 := by
  simp only [optNRok, Option.map_some', Option.getD_some, Bool.and_eq_true,
    decide_eq_true_eq] at h
  exact h.2

theorem optNRok_not_none (t : PType) (h : optNRok (some t) none = true) :
    nrHas t = false := by
  simp only [optNRok, Option.map_some', Option.getD_some, Bool.not_eq_true'] at h
  exact h

theorem optNSok_none_of (t : PType) (ns : Option Nat)
    (h : optNSok (some t) ns = true) (ht : t ≠ .I) : ns = none := by
  rcases ns with _ | n
  · rfl
  · simp only [optNSok, Bool.and_eq_true, decide_eq_true_eq, Option.some_inj] at h
    exact absurd h.1 ht

theorem optNSok_some_le (n : Nat) (h : optNSok (some PType.I) (some n) = true) : n ≤ 7 := by
  simp only [optNSok, Bool.and_eq_true, decide_eq_true_eq] at h
  exact h.2

theorem optNSok_not_none_I (h : optNSok (some PType.I) none = true) : False := by
  simp [optNSok] at h

theorem optPIDok_none_of (t : PType) (pid : Option Nat)
    (h : optPIDok (some t) pid = true) (ht : isIUI t = false) : pid = none := by
  rcases pid with _ | v
  · rfl
  · simp [optPIDok, ht] at h

theorem optPIDok_some_facts (t : PType) (v : Nat)
    (h : optPIDok (some t) (some v) = true) :
    v < 256 ∧ v ≠ 0xF0 ∧ v ≠ 0xFF ∧ v ≠ 0x08 := by
  simp only [optPIDok, Option.map_some', Option.getD_some, Bool.and_eq_true,
    decide_eq_true_eq] at h
  exact ⟨h.1.1.1.2, h.1.1.2, h.1.2, h.2⟩

theorem optInfoOk_none_of (t : PType) (info : Option (List Nat))
    (h : optInfoOk (some t) info = true) (ht : isIUI t = false) : info = none := by
  rcases info with _ | l
  · rfl
  · simp [optInfoOk, ht] at h

theorem optInfoOk_some_ne (t : PType) (l : List Nat)
    (h : optInfoOk (some t) (some l) = true) : l ≠ [] := by
  simp only [optInfoOk, Option.map_some', Option.getD_some, Bool.and_eq_true,
    Bool.not_eq_true', List.isEmpty_eq_false] at h
  exact h.1.2

/-- C2 (amended): for every valid AX.25 packet — type in the control table
other than FRMR and TEST, canonical call signs, at most 8 digipeaters, not
both P and F, not both command and response, P only for SABM/SABME/DISC/I,
F only for DM/UA, N(R) present exactly for S and I frames (at most 7),
N(S) exactly for I (at most 7), PID only for I/UI and not one of the
sentinel values 0xF0/0xFF/0x08, info only for I/UI and nonempty —
`decodePacket` inverts `encodePacket` exactly. -/
theorem packet_roundtrip (p : Packet) (h : validPacket p) :
    ∃ b, encodePacket p = .ok b ∧ decodePacket b = .ok p := by
  have henc := encodePacket_valid p h
  refine ⟨_, henc, ?_⟩
  unfold validPacket at h
  obtain ⟨hvt, hcTo, hcFrom, hcVia, hvia8, hcr, hpf, hpa, hfa, hnr, hns, hpid, hinfo⟩ := h
  obtain ⟨hsplitT, h6T, hchT, hmemT, hneT⟩ := callOk_parts _ hcTo
  obtain ⟨hsplitF, h6F, hchF, hmemF, hneF⟩ := callOk_parts _ hcFrom
  have hsT := (suffix_facts _ hmemT).1
  have hsF := (suffix_facts _ hmemF).1
  have hT7 : ((encBase (p.toAddress.takeWhile (· ≠ 45)) ++ [2 * suffixVal (p.toAddress.dropWhile (· ≠ 45)) + (if p.command then 128 else 0)])).length = 7 := by simp [encBase_length]
  have hF7 : ((encBase (p.fromAddress.takeWhile (· ≠ 45)) ++ [2 * suffixVal (p.fromAddress.dropWhile (· ≠ 45)) + (if p.response then 128 else 0) + (if p.via.isEmpty then 1 else 0)])).length = 7 := by simp [encBase_length]
  have hV7 : (viaBumped p.via).length = 7 * p.via.length := viaBumped_length _
  have h14 : ((encBase (p.toAddress.takeWhile (· ≠ 45)) ++ [2 * suffixVal (p.toAddress.dropWhile (· ≠ 45)) + (if p.command then 128 else 0)]) ++ (encBase (p.fromAddress.takeWhile (· ≠ 45)) ++ [2 * suffixVal (p.fromAddress.dropWhile (· ≠ 45)) + (if p.response then 128 else 0) + (if p.via.isEmpty then 1 else 0)])).length = 14 := by
    rw [List.length_append, hT7, hF7]
  generalize hBdef : (encBase (p.toAddress.takeWhile (· ≠ 45)) ++ [2 * suffixVal (p.toAddress.dropWhile (· ≠ 45)) + (if p.command then 128 else 0)]) ++ (encBase (p.fromAddress.takeWhile (· ≠ 45)) ++ [2 * suffixVal (p.fromAddress.dropWhile (· ≠ 45)) + (if p.response then 128 else 0) + (if p.via.isEmpty then 1 else 0)]) ++ viaBumped p.via ++ [controlVal p % 256] ++ (if p.type = some PType.I ∨ p.type = some PType.UI then [(p.PID.getD 0xF0) % 256] else []) ++ p.info.getD [] = B
  have hdc0 : decodeCallSign B 0 = .ok p.toAddress := by
    rw [← hBdef, show (encBase (p.toAddress.takeWhile (· ≠ 45)) ++ [2 * suffixVal (p.toAddress.dropWhile (· ≠ 45)) + (if p.command then 128 else 0)]) ++ (encBase (p.fromAddress.takeWhile (· ≠ 45)) ++ [2 * suffixVal (p.fromAddress.dropWhile (· ≠ 45)) + (if p.response then 128 else 0) + (if p.via.isEmpty then 1 else 0)]) ++ viaBumped p.via ++ [controlVal p % 256] ++ (if p.type = some PType.I ∨ p.type = some PType.UI then [(p.PID.getD 0xF0) % 256] else []) ++ p.info.getD []
        = [] ++ ((encBase (p.toAddress.takeWhile (· ≠ 45)) ++
          [2 * suffixVal (p.toAddress.dropWhile (· ≠ 45)) + (if p.command then 128 else 0)]) ++
          ((encBase (p.fromAddress.takeWhile (· ≠ 45)) ++ [2 * suffixVal (p.fromAddress.dropWhile (· ≠ 45)) + (if p.response then 128 else 0) + (if p.via.isEmpty then 1 else 0)]) ++ (viaBumped p.via ++ ([controlVal p % 256] ++ ((if p.type = some PType.I ∨ p.type = some PType.UI then [(p.PID.getD 0xF0) % 256] else []) ++ p.info.getD [])))))
        from by simp [List.append_assoc]]
    exact decodeCallSign_block p.toAddress
      (2 * suffixVal (p.toAddress.dropWhile (· ≠ 45)) + (if p.command then 128 else 0))
      0 (if p.command then 1 else 0) [] _ hcTo
      (by omega) (by cases p.command <;> simp) (by cases hc2 : p.command <;> simp [hc2])
  have hdc7 : decodeCallSign B 7 = .ok p.fromAddress := by
    have h7 := decodeCallSign_block p.fromAddress
      (2 * suffixVal (p.fromAddress.dropWhile (· ≠ 45)) + (if p.response then 128 else 0)
        + (if p.via.isEmpty then 1 else 0))
      (if p.via.isEmpty then 1 else 0) (if p.response then 1 else 0)
      (encBase (p.toAddress.takeWhile (· ≠ 45)) ++ [2 * suffixVal (p.toAddress.dropWhile (· ≠ 45)) + (if p.command then 128 else 0)]) (viaBumped p.via ++ ([controlVal p % 256] ++ ((if p.type = some PType.I ∨ p.type = some PType.UI then [(p.PID.getD 0xF0) % 256] else []) ++ p.info.getD []))) hcFrom
      (by cases hve : p.via.isEmpty <;> simp [hve])
      (by cases hre : p.response <;> simp [hre])
      (by cases hve : p.via.isEmpty <;> cases hre : p.response <;> simp [hve, hre] <;> omega)
    rw [hT7] at h7
    rw [← hBdef, show (encBase (p.toAddress.takeWhile (· ≠ 45)) ++ [2 * suffixVal (p.toAddress.dropWhile (· ≠ 45)) + (if p.command then 128 else 0)]) ++ (encBase (p.fromAddress.takeWhile (· ≠ 45)) ++ [2 * suffixVal (p.fromAddress.dropWhile (· ≠ 45)) + (if p.response then 128 else 0) + (if p.via.isEmpty then 1 else 0)]) ++ viaBumped p.via ++ [controlVal p % 256] ++ (if p.type = some PType.I ∨ p.type = some PType.UI then [(p.PID.getD 0xF0) % 256] else []) ++ p.info.getD []
        = (encBase (p.toAddress.takeWhile (· ≠ 45)) ++ [2 * suffixVal (p.toAddress.dropWhile (· ≠ 45)) + (if p.command then 128 else 0)]) ++ ((encBase (p.fromAddress.takeWhile (· ≠ 45)) ++
          [2 * suffixVal (p.fromAddress.dropWhile (· ≠ 45)) + (if p.response then 128 else 0)
            + (if p.via.isEmpty then 1 else 0)]) ++
          (viaBumped p.via ++ ([controlVal p % 256] ++ ((if p.type = some PType.I ∨ p.type = some PType.UI then [(p.PID.getD 0xF0) % 256] else []) ++ p.info.getD []))))
        from by simp [List.append_assoc]]
    exact h7
  have hBlen : B.length = 15 + 7 * p.via.length + ((if p.type = some PType.I ∨ p.type = some PType.UI then [(p.PID.getD 0xF0) % 256] else [])).length + (p.info.getD []).length := by
    rw [← hBdef]
    simp only [List.length_append, encBase_length, List.length_cons, List.length_nil, hV7]
    omega
  have hg6 : B.getD 6 0 = 2 * suffixVal (p.toAddress.dropWhile (· ≠ 45)) +
      (if p.command then 128 else 0) := by
    rw [← hBdef, show (encBase (p.toAddress.takeWhile (· ≠ 45)) ++ [2 * suffixVal (p.toAddress.dropWhile (· ≠ 45)) + (if p.command then 128 else 0)]) ++ (encBase (p.fromAddress.takeWhile (· ≠ 45)) ++ [2 * suffixVal (p.fromAddress.dropWhile (· ≠ 45)) + (if p.response then 128 else 0) + (if p.via.isEmpty then 1 else 0)]) ++ viaBumped p.via ++ [controlVal p % 256] ++ (if p.type = some PType.I ∨ p.type = some PType.UI then [(p.PID.getD 0xF0) % 256] else []) ++ p.info.getD []
        = (encBase (p.toAddress.takeWhile (· ≠ 45)) ++ [2 * suffixVal (p.toAddress.dropWhile (· ≠ 45)) + (if p.command then 128 else 0)]) ++ ((encBase (p.fromAddress.takeWhile (· ≠ 45)) ++ [2 * suffixVal (p.fromAddress.dropWhile (· ≠ 45)) + (if p.response then 128 else 0) + (if p.via.isEmpty then 1 else 0)]) ++ (viaBumped p.via ++ ([controlVal p % 256] ++ ((if p.type = some PType.I ∨ p.type = some PType.UI then [(p.PID.getD 0xF0) % 256] else []) ++ p.info.getD []))))
        from by simp [List.append_assoc]]
    rw [getD_append_lt _ _ _ (by rw [hT7]; omega)]
    rw [getD_append_ge _ _ _ (by rw [encBase_length])]
    simp [encBase_length]
  have hg13 : B.getD 13 0 = 2 * suffixVal (p.fromAddress.dropWhile (· ≠ 45)) +
      (if p.response then 128 else 0) + (if p.via.isEmpty then 1 else 0) := by
    rw [← hBdef, show (encBase (p.toAddress.takeWhile (· ≠ 45)) ++ [2 * suffixVal (p.toAddress.dropWhile (· ≠ 45)) + (if p.command then 128 else 0)]) ++ (encBase (p.fromAddress.takeWhile (· ≠ 45)) ++ [2 * suffixVal (p.fromAddress.dropWhile (· ≠ 45)) + (if p.response then 128 else 0) + (if p.via.isEmpty then 1 else 0)]) ++ viaBumped p.via ++ [controlVal p % 256] ++ (if p.type = some PType.I ∨ p.type = some PType.UI then [(p.PID.getD 0xF0) % 256] else []) ++ p.info.getD []
        = ((encBase (p.toAddress.takeWhile (· ≠ 45)) ++ [2 * suffixVal (p.toAddress.dropWhile (· ≠ 45)) + (if p.command then 128 else 0)]) ++ (encBase (p.fromAddress.takeWhile (· ≠ 45)) ++ [2 * suffixVal (p.fromAddress.dropWhile (· ≠ 45)) + (if p.response then 128 else 0) + (if p.via.isEmpty then 1 else 0)])) ++ (viaBumped p.via ++ ([controlVal p % 256] ++ ((if p.type = some PType.I ∨ p.type = some PType.UI then [(p.PID.getD 0xF0) % 256] else []) ++ p.info.getD [])))
        from by simp [List.append_assoc]]
    rw [getD_append_lt _ _ _ (by rw [h14]; omega)]
    rw [getD_append_ge _ _ _ (by rw [hT7]; omega), hT7]
    rw [show (13:Nat) - 7 = 6 from rfl]
    rw [getD_append_ge _ _ _ (by rw [encBase_length])]
    simp [encBase_length]
  have hlen2 : (((encBase (p.toAddress.takeWhile (· ≠ 45)) ++ [2 * suffixVal (p.toAddress.dropWhile (· ≠ 45)) + (if p.command then 128 else 0)]) ++ (encBase (p.fromAddress.takeWhile (· ≠ 45)) ++ [2 * suffixVal (p.fromAddress.dropWhile (· ≠ 45)) + (if p.response then 128 else 0) + (if p.via.isEmpty then 1 else 0)])) ++ viaBumped p.via).length = 14 + 7 * p.via.length := by
    rw [List.length_append, h14, hV7]
  have hgc : B.getD (14 + 7 * p.via.length) 0 = controlVal p % 256 := by
    rw [← hBdef, show (encBase (p.toAddress.takeWhile (· ≠ 45)) ++ [2 * suffixVal (p.toAddress.dropWhile (· ≠ 45)) + (if p.command then 128 else 0)]) ++ (encBase (p.fromAddress.takeWhile (· ≠ 45)) ++ [2 * suffixVal (p.fromAddress.dropWhile (· ≠ 45)) + (if p.response then 128 else 0) + (if p.via.isEmpty then 1 else 0)]) ++ viaBumped p.via ++ [controlVal p % 256] ++ (if p.type = some PType.I ∨ p.type = some PType.UI then [(p.PID.getD 0xF0) % 256] else []) ++ p.info.getD []
        = (((encBase (p.toAddress.takeWhile (· ≠ 45)) ++ [2 * suffixVal (p.toAddress.dropWhile (· ≠ 45)) + (if p.command then 128 else 0)]) ++ (encBase (p.fromAddress.takeWhile (· ≠ 45)) ++ [2 * suffixVal (p.fromAddress.dropWhile (· ≠ 45)) + (if p.response then 128 else 0) + (if p.via.isEmpty then 1 else 0)])) ++ viaBumped p.via) ++ ([controlVal p % 256] ++ ((if p.type = some PType.I ∨ p.type = some PType.UI then [(p.PID.getD 0xF0) % 256] else []) ++ p.info.getD []))
        from by simp [List.append_assoc]]
    rw [getD_append_ge _ _ _ (by rw [hlen2]), hlen2, Nat.sub_self]
    simp
  have hdropPI : B.drop (15 + 7 * p.via.length + ((if p.type = some PType.I ∨ p.type = some PType.UI then [(p.PID.getD 0xF0) % 256] else [])).length) = p.info.getD [] := by
    rw [← hBdef]
    apply List.drop_left'
    simp only [List.length_append, encBase_length, List.length_cons, List.length_nil, hV7]
    omega
  have hvl0 := decodeViaLoop_ok B ([controlVal p % 256] ++ ((if p.type = some PType.I ∨ p.type = some PType.UI then [(p.PID.getD 0xF0) % 256] else []) ++ p.info.getD [])) p.via (B.length + 1)
    ((encBase (p.toAddress.takeWhile (· ≠ 45)) ++ [2 * suffixVal (p.toAddress.dropWhile (· ≠ 45)) + (if p.command then 128 else 0)]) ++ (encBase (p.fromAddress.takeWhile (· ≠ 45)) ++ [2 * suffixVal (p.fromAddress.dropWhile (· ≠ 45)) + (if p.response then 128 else 0) + (if p.via.isEmpty then 1 else 0)])) [] hcVia
    (by rw [← hBdef]; simp [List.append_assoc])
    (by omega)
    (by rw [h14]; omega)
    (by
      rw [h14, show (14:Nat) - 1 = 13 from rfl, hg13]
      cases hve : p.via.isEmpty <;> cases hre : p.response <;>
        simp only [hve, hre, Bool.false_eq_true, if_false, if_true, Nat.and_one_is_mod] <;>
        omega)
  rw [h14] at hvl0
  have hcmdB : (p.command && !p.response) = p.command := by
    cases hC2 : p.command
    · simp
    · simp [hcr hC2]
  have hrespB : (!p.command && p.response) = p.response := by
    cases hC2 : p.command
    · simp
    · simp [hcr hC2]
  have htoC : decide ((B.getD 6 0) >>> 7 ≠ 0) = p.command := by
    rw [hg6]
    exact byte_hi _ hsT p.command
  have hfromC : decide ((B.getD 13 0) >>> 7 ≠ 0) = p.response := by
    rw [hg13]
    exact byte_hi2 _ _ hsF (by cases hve : p.via.isEmpty <;> simp [hve]) p.response
  rcases htp : p.type with _ | t
  · rw [htp] at hvt
    simp [validType] at hvt
  · rw [htp] at hvt hpa hfa hnr hns hpid hinfo hBlen hdropPI
    cases t
    · -- I
      rcases hnrv : p.NR with _ | n
      · rw [hnrv] at hnr
        have := optNRok_not_none _ hnr
        simp [nrHas] at this
      rw [hnrv] at hnr
      have hn7 := optNRok_some_le _ _ hnr
      rcases hnsv : p.NS with _ | m
      · rw [hnsv] at hns
        exact absurd hns (by simp [optNSok])
      rw [hnsv] at hns
      have hm7 := optNSok_some_le _ hns
      have hF0 : p.F = false := by
        cases hf3 : p.F
        · rfl
        · have h2 := hfa hf3
          rw [Option.map_some', Option.getD_some] at h2
          exact absurd h2 (by simp [fAllowed])
      have hPLe : (if some PType.I = some PType.I ∨ some PType.I = some PType.UI
          then [(p.PID.getD 0xF0) % 256] else []) = [(p.PID.getD 0xF0) % 256] := by simp
      rw [hPLe] at hBlen hdropPI
      simp only [List.length_cons, List.length_nil, Nat.zero_add] at hBlen hdropPI
      have hlen3 : ((encBase (p.toAddress.takeWhile (· ≠ 45)) ++ [2 * suffixVal (p.toAddress.dropWhile (· ≠ 45)) + (if p.command then 128 else 0)]) ++ (encBase (p.fromAddress.takeWhile (· ≠ 45)) ++ [2 * suffixVal (p.fromAddress.dropWhile (· ≠ 45)) + (if p.response then 128 else 0) + (if p.via.isEmpty then 1 else 0)]) ++ viaBumped p.via ++ [controlVal p % 256]).length
          = 15 + 7 * p.via.length := by
        simp only [List.length_append, encBase_length, List.length_cons, List.length_nil, hV7]
        omega
      have hgp : B.getD (14 + 7 * p.via.length + 1) 0 = (p.PID.getD 0xF0) % 256 := by
        rw [← hBdef, show (encBase (p.toAddress.takeWhile (· ≠ 45)) ++ [2 * suffixVal (p.toAddress.dropWhile (· ≠ 45)) + (if p.command then 128 else 0)]) ++ (encBase (p.fromAddress.takeWhile (· ≠ 45)) ++ [2 * suffixVal (p.fromAddress.dropWhile (· ≠ 45)) + (if p.response then 128 else 0) + (if p.via.isEmpty then 1 else 0)]) ++ viaBumped p.via ++ [controlVal p % 256] ++ (if p.type = some PType.I ∨ p.type = some PType.UI then [(p.PID.getD 0xF0) % 256] else []) ++ p.info.getD []
            = ((encBase (p.toAddress.takeWhile (· ≠ 45)) ++ [2 * suffixVal (p.toAddress.dropWhile (· ≠ 45)) + (if p.command then 128 else 0)]) ++ (encBase (p.fromAddress.takeWhile (· ≠ 45)) ++ [2 * suffixVal (p.fromAddress.dropWhile (· ≠ 45)) + (if p.response then 128 else 0) + (if p.via.isEmpty then 1 else 0)]) ++ viaBumped p.via ++ [controlVal p % 256]) ++ ((if p.type = some PType.I ∨ p.type = some PType.UI then [(p.PID.getD 0xF0) % 256] else []) ++ p.info.getD [])
            from by simp [List.append_assoc]]
        rw [getD_append_ge _ _ _ (by rw [hlen3]; omega), hlen3]
        rw [show 14 + 7 * p.via.length + 1 - (15 + 7 * p.via.length) = 0 from by omega]
        rw [htp, hPLe]
        simp
      cases hPv : p.P
      · have hcv0 : controlVal p = 32 * n + 2 * m := by
          simp only [controlVal, htp, hnrv, hnsv, hPv, Option.map_some', Option.getD_some,
            controlBits, Bool.false_eq_true, if_false, eq_self_iff_true, if_true]
          simp only [and7_eq, Nat.shiftLeft_eq]
          have hne : n % 8 = n := Nat.mod_eq_of_lt (by omega)
          have hme : m % 8 = m := Nat.mod_eq_of_lt (by omega)
          rw [hne, hme]
          have h32 : (2:Nat)^5 = 32 := by norm_num
          have h21 : (2:Nat)^1 = 2 := by norm_num
          rw [h32, h21]
          omega
        have hcm : controlVal p % 256 = 32 * n + 2 * m := by
          rw [hcv0]
          exact Nat.mod_eq_of_lt (by omega)
        rcases hpidv : p.PID with _ | v
        · have hgp240 : B.getD (14 + 7 * p.via.length + 1) 0 = 240 := by
            rw [hgp, hpidv]
            rfl
          rcases hinfov : p.info with _ | l
          · rw [hinfov] at hBlen hdropPI
            simp only [Option.getD_none, List.length_nil, Nat.add_zero] at hBlen hdropPI
            have hx1 : ((32 * n + 2 * m) &&& 1 = 0) = True := eq_true (by
              rw [Nat.and_one_is_mod]
              omega)
            have hNR : (32 * n + 2 * m) >>> 5 = n := by
              rw [Nat.shiftRight_eq_div_pow]
              have h32 : (2:Nat)^5 = 32 := by norm_num
              rw [h32]
              omega
            have hNS : ((32 * n + 2 * m) >>> 1) &&& 7 = m := by
              rw [Nat.shiftRight_eq_div_pow, and7_eq]
              have h21 : (2:Nat)^1 = 2 := by norm_num
              rw [h21]
              omega
            have hx4 : (((32 * n + 2 * m) >>> 4) &&& 1 = 1) = False := eq_false (by
              rw [Nat.shiftRight_eq_div_pow, Nat.and_one_is_mod]
              have h16 : (2:Nat)^4 = 16 := by norm_num
              rw [h16]
              omega)
            simp only [decodePacket, hdc0, hdc7, hvl0, List.nil_append, htoC, hfromC,
              hcmdB, hrespB, hgc, hcm,
              show ((B.length ≤ 14 + 7 * p.via.length) = False) from eq_false (by omega),
              hx1, hNR, hNS, hx4,
              show ((some PType.I = some PType.I ∨ some PType.I = some PType.UI) = True)
                from by simp,
              show ((B.length ≤ 14 + 7 * p.via.length + 1) = False) from eq_false (by omega),
              hgp240,
              show ((14 + 7 * p.via.length + 2 < B.length) = False) from eq_false (by omega),
              true_or, or_true, if_false, if_true, eq_self_iff_true]
            have hEta : p =
                { type := p.type, toAddress := p.toAddress, fromAddress := p.fromAddress,
                  via := p.via, command := p.command, response := p.response, P := p.P,
                  F := p.F, NR := p.NR, NS := p.NS, PID := p.PID, info := p.info } := rfl
            conv_rhs => rw [hEta]
            rw [htp, hnrv, hnsv, hpidv, hinfov, hPv, hF0]
          · rw [hinfov] at hinfo hBlen hdropPI
            have hlne := optInfoOk_some_ne _ _ hinfo
            have hlpos : 0 < l.length := List.length_pos.mpr hlne
            simp only [Option.getD_some] at hBlen hdropPI
            have hdrop2 : B.drop (14 + 7 * p.via.length + 2) = l := by
              rw [show 14 + 7 * p.via.length + 2 = 15 + 7 * p.via.length + 1 from by omega]
              exact hdropPI
            have hx1 : ((32 * n + 2 * m) &&& 1 = 0) = True := eq_true (by
              rw [Nat.and_one_is_mod]
              omega)
            have hNR : (32 * n + 2 * m) >>> 5 = n := by
              rw [Nat.shiftRight_eq_div_pow]
              have h32 : (2:Nat)^5 = 32 := by norm_num
              rw [h32]
              omega
            have hNS : ((32 * n + 2 * m) >>> 1) &&& 7 = m := by
              rw [Nat.shiftRight_eq_div_pow, and7_eq]
              have h21 : (2:Nat)^1 = 2 := by norm_num
              rw [h21]
              omega
            have hx4 : (((32 * n + 2 * m) >>> 4) &&& 1 = 1) = False := eq_false (by
              rw [Nat.shiftRight_eq_div_pow, Nat.and_one_is_mod]
              have h16 : (2:Nat)^4 = 16 := by norm_num
              rw [h16]
              omega)
            simp only [decodePacket, hdc0, hdc7, hvl0, List.nil_append, htoC, hfromC,
              hcmdB, hrespB, hgc, hcm,
              show ((B.length ≤ 14 + 7 * p.via.length) = False) from eq_false (by omega),
              hx1, hNR, hNS, hx4,
              show ((some PType.I = some PType.I ∨ some PType.I = some PType.UI) = True)
                from by simp,
              show ((B.length ≤ 14 + 7 * p.via.length + 1) = False) from eq_false (by omega),
              hgp240,
              show ((14 + 7 * p.via.length + 2 < B.length) = True) from eq_true (by omega),
              hdrop2,
              true_or, or_true, if_false, if_true, eq_self_iff_true]
            have hEta : p =
                { type := p.type, toAddress := p.toAddress, fromAddress := p.fromAddress,
                  via := p.via, command := p.command, response := p.response, P := p.P,
                  F := p.F, NR := p.NR, NS := p.NS, PID := p.PID, info := p.info } := rfl
            conv_rhs => rw [hEta]
            rw [htp, hnrv, hnsv, hpidv, hinfov, hPv, hF0]
        · rw [hpidv] at hpid
          obtain ⟨hv1, hv2, hv3, hv4⟩ := optPIDok_some_facts _ _ hpid
          have hgpv : B.getD (14 + 7 * p.via.length + 1) 0 = v := by
            rw [hgp, hpidv, Option.getD_some]
            exact Nat.mod_eq_of_lt hv1
          rcases hinfov : p.info with _ | l
          · rw [hinfov] at hBlen hdropPI
            simp only [Option.getD_none, List.length_nil, Nat.add_zero] at hBlen hdropPI
            have hx1 : ((32 * n + 2 * m) &&& 1 = 0) = True := eq_true (by
              rw [Nat.and_one_is_mod]
              omega)
            have hNR : (32 * n + 2 * m) >>> 5 = n := by
              rw [Nat.shiftRight_eq_div_pow]
              have h32 : (2:Nat)^5 = 32 := by norm_num
              rw [h32]
              omega
            have hNS : ((32 * n + 2 * m) >>> 1) &&& 7 = m := by
              rw [Nat.shiftRight_eq_div_pow, and7_eq]
              have h21 : (2:Nat)^1 = 2 := by norm_num
              rw [h21]
              omega
            have hx4 : (((32 * n + 2 * m) >>> 4) &&& 1 = 1) = False := eq_false (by
              rw [Nat.shiftRight_eq_div_pow, Nat.and_one_is_mod]
              have h16 : (2:Nat)^4 = 16 := by norm_num
              rw [h16]
              omega)
            simp only [decodePacket, hdc0, hdc7, hvl0, List.nil_append, htoC, hfromC,
              hcmdB, hrespB, hgc, hcm,
              show ((B.length ≤ 14 + 7 * p.via.length) = False) from eq_false (by omega),
              hx1, hNR, hNS, hx4,
              show ((some PType.I = some PType.I ∨ some PType.I = some PType.UI) = True)
                from by simp,
              show ((B.length ≤ 14 + 7 * p.via.length + 1) = False) from eq_false (by omega),
              hgpv,
              show ((v = 240) = False) from eq_false hv2,
              show ((v = 255 ∨ v = 8) = False) from eq_false (fun hvv => hvv.elim hv3 hv4),
              show ((14 + 7 * p.via.length + 2 < B.length) = False) from eq_false (by omega),
              true_or, or_true, if_false, if_true, eq_self_iff_true]
            have hEta : p =
                { type := p.type, toAddress := p.toAddress, fromAddress := p.fromAddress,
                  via := p.via, command := p.command, response := p.response, P := p.P,
                  F := p.F, NR := p.NR, NS := p.NS, PID := p.PID, info := p.info } := rfl
            conv_rhs => rw [hEta]
            rw [htp, hnrv, hnsv, hpidv, hinfov, hPv, hF0]
          · rw [hinfov] at hinfo hBlen hdropPI
            have hlne := optInfoOk_some_ne _ _ hinfo
            have hlpos : 0 < l.length := List.length_pos.mpr hlne
            simp only [Option.getD_some] at hBlen hdropPI
            have hdrop2 : B.drop (14 + 7 * p.via.length + 2) = l := by
              rw [show 14 + 7 * p.via.length + 2 = 15 + 7 * p.via.length + 1 from by omega]
              exact hdropPI
            have hx1 : ((32 * n + 2 * m) &&& 1 = 0) = True := eq_true (by
              rw [Nat.and_one_is_mod]
              omega)
            have hNR : (32 * n + 2 * m) >>> 5 = n := by
              rw [Nat.shiftRight_eq_div_pow]
              have h32 : (2:Nat)^5 = 32 := by norm_num
              rw [h32]
              omega
            have hNS : ((32 * n + 2 * m) >>> 1) &&& 7 = m := by
              rw [Nat.shiftRight_eq_div_pow, and7_eq]
              have h21 : (2:Nat)^1 = 2 := by norm_num
              rw [h21]
              omega
            have hx4 : (((32 * n + 2 * m) >>> 4) &&& 1 = 1) = False := eq_false (by
              rw [Nat.shiftRight_eq_div_pow, Nat.and_one_is_mod]
              have h16 : (2:Nat)^4 = 16 := by norm_num
              rw [h16]
              omega)
            simp only [decodePacket, hdc0, hdc7, hvl0, List.nil_append, htoC, hfromC,
              hcmdB, hrespB, hgc, hcm,
              show ((B.length ≤ 14 + 7 * p.via.length) = False) from eq_false (by omega),
              hx1, hNR, hNS, hx4,
              show ((some PType.I = some PType.I ∨ some PType.I = some PType.UI) = True)
                from by simp,
              show ((B.length ≤ 14 + 7 * p.via.length + 1) = False) from eq_false (by omega),
              hgpv,
              show ((v = 240) = False) from eq_false hv2,
              show ((v = 255 ∨ v = 8) = False) from eq_false (fun hvv => hvv.elim hv3 hv4),
              show ((14 + 7 * p.via.length + 2 < B.length) = True) from eq_true (by omega),
              hdrop2,
              true_or, or_true, if_false, if_true, eq_self_iff_true]
            have hEta : p =
                { type := p.type, toAddress := p.toAddress, fromAddress := p.fromAddress,
                  via := p.via, command := p.command, response := p.response, P := p.P,
                  F := p.F, NR := p.NR, NS := p.NS, PID := p.PID, info := p.info } := rfl
            conv_rhs => rw [hEta]
            rw [htp, hnrv, hnsv, hpidv, hinfov, hPv, hF0]
      · have hcv0 : controlVal p = 16 + 32 * n + 2 * m := by
          simp only [controlVal, htp, hnrv, hnsv, hPv, Option.map_some', Option.getD_some,
            controlBits, Bool.false_eq_true, if_false, eq_self_iff_true, if_true]
          simp only [and7_eq, Nat.shiftLeft_eq]
          have hne : n % 8 = n := Nat.mod_eq_of_lt (by omega)
          have hme : m % 8 = m := Nat.mod_eq_of_lt (by omega)
          rw [hne, hme]
          have h32 : (2:Nat)^5 = 32 := by norm_num
          have h21 : (2:Nat)^1 = 2 := by norm_num
          rw [h32, h21]
          omega
        have hcm : controlVal p % 256 = 16 + 32 * n + 2 * m := by
          rw [hcv0]
          exact Nat.mod_eq_of_lt (by omega)
        rcases hpidv : p.PID with _ | v
        · have hgp240 : B.getD (14 + 7 * p.via.length + 1) 0 = 240 := by
            rw [hgp, hpidv]
            rfl
          rcases hinfov : p.info with _ | l
          · rw [hinfov] at hBlen hdropPI
            simp only [Option.getD_none, List.length_nil, Nat.add_zero] at hBlen hdropPI
            have hx1 : ((16 + 32 * n + 2 * m) &&& 1 = 0) = True := eq_true (by
              rw [Nat.and_one_is_mod]
              omega)
            have hNR : (16 + 32 * n + 2 * m) >>> 5 = n := by
              rw [Nat.shiftRight_eq_div_pow]
              have h32 : (2:Nat)^5 = 32 := by norm_num
              rw [h32]
              omega
            have hNS : ((16 + 32 * n + 2 * m) >>> 1) &&& 7 = m := by
              rw [Nat.shiftRight_eq_div_pow, and7_eq]
              have h21 : (2:Nat)^1 = 2 := by norm_num
              rw [h21]
              omega
            have hx4 : (((16 + 32 * n + 2 * m) >>> 4) &&& 1 = 1) = True := eq_true (by
              rw [Nat.shiftRight_eq_div_pow, Nat.and_one_is_mod]
              have h16 : (2:Nat)^4 = 16 := by norm_num
              rw [h16]
              omega)
            simp only [decodePacket, hdc0, hdc7, hvl0, List.nil_append, htoC, hfromC,
              hcmdB, hrespB, hgc, hcm,
              show ((B.length ≤ 14 + 7 * p.via.length) = False) from eq_false (by omega),
              hx1, hNR, hNS, hx4,
              show ((some PType.I = some PType.I ∨ some PType.I = some PType.UI) = True)
                from by simp,
              show ((B.length ≤ 14 + 7 * p.via.length + 1) = False) from eq_false (by omega),
              hgp240,
              show ((14 + 7 * p.via.length + 2 < B.length) = False) from eq_false (by omega),
              true_or, or_true, if_false, if_true, eq_self_iff_true]
            have hEta : p =
                { type := p.type, toAddress := p.toAddress, fromAddress := p.fromAddress,
                  via := p.via, command := p.command, response := p.response, P := p.P,
                  F := p.F, NR := p.NR, NS := p.NS, PID := p.PID, info := p.info } := rfl
            conv_rhs => rw [hEta]
            rw [htp, hnrv, hnsv, hpidv, hinfov, hPv, hF0]
          · rw [hinfov] at hinfo hBlen hdropPI
            have hlne := optInfoOk_some_ne _ _ hinfo
            have hlpos : 0 < l.length := List.length_pos.mpr hlne
            simp only [Option.getD_some] at hBlen hdropPI
            have hdrop2 : B.drop (14 + 7 * p.via.length + 2) = l := by
              rw [show 14 + 7 * p.via.length + 2 = 15 + 7 * p.via.length + 1 from by omega]
              exact hdropPI
            have hx1 : ((16 + 32 * n + 2 * m) &&& 1 = 0) = True := eq_true (by
              rw [Nat.and_one_is_mod]
              omega)
            have hNR : (16 + 32 * n + 2 * m) >>> 5 = n := by
              rw [Nat.shiftRight_eq_div_pow]
              have h32 : (2:Nat)^5 = 32 := by norm_num
              rw [h32]
              omega
            have hNS : ((16 + 32 * n + 2 * m) >>> 1) &&& 7 = m := by
              rw [Nat.shiftRight_eq_div_pow, and7_eq]
              have h21 : (2:Nat)^1 = 2 := by norm_num
              rw [h21]
              omega
            have hx4 : (((16 + 32 * n + 2 * m) >>> 4) &&& 1 = 1) = True := eq_true (by
              rw [Nat.shiftRight_eq_div_pow, Nat.and_one_is_mod]
              have h16 : (2:Nat)^4 = 16 := by norm_num
              rw [h16]
              omega)
            simp only [decodePacket, hdc0, hdc7, hvl0, List.nil_append, htoC, hfromC,
              hcmdB, hrespB, hgc, hcm,
              show ((B.length ≤ 14 + 7 * p.via.length) = False) from eq_false (by omega),
              hx1, hNR, hNS, hx4,
              show ((some PType.I = some PType.I ∨ some PType.I = some PType.UI) = True)
                from by simp,
              show ((B.length ≤ 14 + 7 * p.via.length + 1) = False) from eq_false (by omega),
              hgp240,
              show ((14 + 7 * p.via.length + 2 < B.length) = True) from eq_true (by omega),
              hdrop2,
              true_or, or_true, if_false, if_true, eq_self_iff_true]
            have hEta : p =
                { type := p.type, toAddress := p.toAddress, fromAddress := p.fromAddress,
                  via := p.via, command := p.command, response := p.response, P := p.P,
                  F := p.F, NR := p.NR, NS := p.NS, PID := p.PID, info := p.info } := rfl
            conv_rhs => rw [hEta]
            rw [htp, hnrv, hnsv, hpidv, hinfov, hPv, hF0]
        · rw [hpidv] at hpid
          obtain ⟨hv1, hv2, hv3, hv4⟩ := optPIDok_some_facts _ _ hpid
          have hgpv : B.getD (14 + 7 * p.via.length + 1) 0 = v := by
            rw [hgp, hpidv, Option.getD_some]
            exact Nat.mod_eq_of_lt hv1
          rcases hinfov : p.info with _ | l
          · rw [hinfov] at hBlen hdropPI
            simp only [Option.getD_none, List.length_nil, Nat.add_zero] at hBlen hdropPI
            have hx1 : ((16 + 32 * n + 2 * m) &&& 1 = 0) = True := eq_true (by
              rw [Nat.and_one_is_mod]
              omega)
            have hNR : (16 + 32 * n + 2 * m) >>> 5 = n := by
              rw [Nat.shiftRight_eq_div_pow]
              have h32 : (2:Nat)^5 = 32 := by norm_num
              rw [h32]
              omega
            have hNS : ((16 + 32 * n + 2 * m) >>> 1) &&& 7 = m := by
              rw [Nat.shiftRight_eq_div_pow, and7_eq]
              have h21 : (2:Nat)^1 = 2 := by norm_num
              rw [h21]
              omega
            have hx4 : (((16 + 32 * n + 2 * m) >>> 4) &&& 1 = 1) = True := eq_true (by
              rw [Nat.shiftRight_eq_div_pow, Nat.and_one_is_mod]
              have h16 : (2:Nat)^4 = 16 := by norm_num
              rw [h16]
              omega)
            simp only [decodePacket, hdc0, hdc7, hvl0, List.nil_append, htoC, hfromC,
              hcmdB, hrespB, hgc, hcm,
              show ((B.length ≤ 14 + 7 * p.via.length) = False) from eq_false (by omega),
              hx1, hNR, hNS, hx4,
              show ((some PType.I = some PType.I ∨ some PType.I = some PType.UI) = True)
                from by simp,
              show ((B.length ≤ 14 + 7 * p.via.length + 1) = False) from eq_false (by omega),
              hgpv,
              show ((v = 240) = False) from eq_false hv2,
              show ((v = 255 ∨ v = 8) = False) from eq_false (fun hvv => hvv.elim hv3 hv4),
              show ((14 + 7 * p.via.length + 2 < B.length) = False) from eq_false (by omega),
              true_or, or_true, if_false, if_true, eq_self_iff_true]
            have hEta : p =
                { type := p.type, toAddress := p.toAddress, fromAddress := p.fromAddress,
                  via := p.via, command := p.command, response := p.response, P := p.P,
                  F := p.F, NR := p.NR, NS := p.NS, PID := p.PID, info := p.info } := rfl
            conv_rhs => rw [hEta]
            rw [htp, hnrv, hnsv, hpidv, hinfov, hPv, hF0]
          · rw [hinfov] at hinfo hBlen hdropPI
            have hlne := optInfoOk_some_ne _ _ hinfo
            have hlpos : 0 < l.length := List.length_pos.mpr hlne
            simp only [Option.getD_some] at hBlen hdropPI
            have hdrop2 : B.drop (14 + 7 * p.via.length + 2) = l := by
              rw [show 14 + 7 * p.via.length + 2 = 15 + 7 * p.via.length + 1 from by omega]
              exact hdropPI
            have hx1 : ((16 + 32 * n + 2 * m) &&& 1 = 0) = True := eq_true (by
              rw [Nat.and_one_is_mod]
              omega)
            have hNR : (16 + 32 * n + 2 * m) >>> 5 = n := by
              rw [Nat.shiftRight_eq_div_pow]
              have h32 : (2:Nat)^5 = 32 := by norm_num
              rw [h32]
              omega
            have hNS : ((16 + 32 * n + 2 * m) >>> 1) &&& 7 = m := by
              rw [Nat.shiftRight_eq_div_pow, and7_eq]
              have h21 : (2:Nat)^1 = 2 := by norm_num
              rw [h21]
              omega
            have hx4 : (((16 + 32 * n + 2 * m) >>> 4) &&& 1 = 1) = True := eq_true (by
              rw [Nat.shiftRight_eq_div_pow, Nat.and_one_is_mod]
              have h16 : (2:Nat)^4 = 16 := by norm_num
              rw [h16]
              omega)
            simp only [decodePacket, hdc0, hdc7, hvl0, List.nil_append, htoC, hfromC,
              hcmdB, hrespB, hgc, hcm,
              show ((B.length ≤ 14 + 7 * p.via.length) = False) from eq_false (by omega),
              hx1, hNR, hNS, hx4,
              show ((some PType.I = some PType.I ∨ some PType.I = some PType.UI) = True)
                from by simp,
              show ((B.length ≤ 14 + 7 * p.via.length + 1) = False) from eq_false (by omega),
              hgpv,
              show ((v = 240) = False) from eq_false hv2,
              show ((v = 255 ∨ v = 8) = False) from eq_false (fun hvv => hvv.elim hv3 hv4),
              show ((14 + 7 * p.via.length + 2 < B.length) = True) from eq_true (by omega),
              hdrop2,
              true_or, or_true, if_false, if_true, eq_self_iff_true]
            have hEta : p =
                { type := p.type, toAddress := p.toAddress, fromAddress := p.fromAddress,
                  via := p.via, command := p.command, response := p.response, P := p.P,
                  F := p.F, NR := p.NR, NS := p.NS, PID := p.PID, info := p.info } := rfl
            conv_rhs => rw [hEta]
            rw [htp, hnrv, hnsv, hpidv, hinfov, hPv, hF0]
    · -- RR
      rcases hnrv : p.NR with _ | n
      · rw [hnrv] at hnr
        have := optNRok_not_none _ hnr
        simp [nrHas] at this
      rw [hnrv] at hnr
      have hn7 := optNRok_some_le _ _ hnr
      have hnsv : p.NS = none := optNSok_none_of _ _ hns (by simp)
      have hpidv : p.PID = none := optPIDok_none_of _ _ hpid rfl
      have hinfov : p.info = none := optInfoOk_none_of _ _ hinfo rfl
      have hP0 : p.P = false := by
        cases hp3 : p.P
        · rfl
        · have h2 := hpa hp3
          rw [Option.map_some', Option.getD_some] at h2
          exact absurd h2 (by simp [pAllowed])
      have hF0 : p.F = false := by
        cases hf3 : p.F
        · rfl
        · have h2 := hfa hf3
          rw [Option.map_some', Option.getD_some] at h2
          exact absurd h2 (by simp [fAllowed])
      have hPLe : (if some PType.RR = some PType.I ∨ some PType.RR = some PType.UI
          then [(p.PID.getD 0xF0) % 256] else []) = [] := by simp
      rw [hPLe, hinfov] at hBlen hdropPI
      simp only [List.length_nil, Nat.add_zero, Option.getD_none] at hBlen hdropPI
      have hcv : controlVal p = 1 + 32 * n := by
        simp only [controlVal, htp, hnrv, Option.map_some', Option.getD_some, controlBits]
        rw [and7_eq, Nat.shiftLeft_eq]
        have hne : n % 8 = n := Nat.mod_eq_of_lt (by omega)
        rw [hne]
        have h32 : (2:Nat)^5 = 32 := by norm_num
        rw [h32]
        omega
      have hcm : controlVal p % 256 = 1 + 32 * n := by
        rw [hcv]
        exact Nat.mod_eq_of_lt (by omega)
      have hx1 : ((1 + 32 * n) &&& 1 = 0) = False := eq_false (by
        rw [Nat.and_one_is_mod]
        omega)
      have hx2 : (1 + 32 * n) &&& 2 = 0 := by
        interval_cases n <;> decide
      have hx3 : ((1 + 32 * n) >>> 2) &&& 3 = 0 := by
        rw [Nat.shiftRight_eq_div_pow, and3_eq]
        have h4 : (2:Nat)^2 = 4 := by norm_num
        rw [h4]
        omega
      have hx5 : (1 + 32 * n) >>> 5 = n := by
        rw [Nat.shiftRight_eq_div_pow]
        have h32 : (2:Nat)^5 = 32 := by norm_num
        rw [h32]
        omega
      have hx4 : (((1 + 32 * n) >>> 4) &&& 1 = 1) = False := eq_false (by
        rw [Nat.shiftRight_eq_div_pow, Nat.and_one_is_mod]
        have h16 : (2:Nat)^4 = 16 := by norm_num
        rw [h16]
        omega)
      simp only [decodePacket, hdc0, hdc7, hvl0, List.nil_append, htoC, hfromC,
        hcmdB, hrespB, hgc, hcm,
        show (B.length ≤ 14 + 7 * p.via.length) = False from eq_false (by omega),
        hx1, hx2, hx3, hx5, hx4,
        show sTypes 0 = PType.RR from by decide,
        show (some PType.RR = some PType.I ∨ some PType.RR = some PType.UI) = False
          from by simp,
        show (14 + 7 * p.via.length + 1 < B.length) = False from eq_false (by omega),
        true_or, or_true, if_false, if_true, eq_self_iff_true]
      have hEta : p =
          { type := p.type, toAddress := p.toAddress, fromAddress := p.fromAddress,
            via := p.via, command := p.command, response := p.response, P := p.P,
            F := p.F, NR := p.NR, NS := p.NS, PID := p.PID, info := p.info } := rfl
      conv_rhs => rw [hEta]
      rw [htp, hnrv, hnsv, hpidv, hinfov, hP0, hF0]
    · -- RNR
      rcases hnrv : p.NR with _ | n
      · rw [hnrv] at hnr
        have := optNRok_not_none _ hnr
        simp [nrHas] at this
      rw [hnrv] at hnr
      have hn7 := optNRok_some_le _ _ hnr
      have hnsv : p.NS = none := optNSok_none_of _ _ hns (by simp)
      have hpidv : p.PID = none := optPIDok_none_of _ _ hpid rfl
      have hinfov : p.info = none := optInfoOk_none_of _ _ hinfo rfl
      have hP0 : p.P = false := by
        cases hp3 : p.P
        · rfl
        · have h2 := hpa hp3
          rw [Option.map_some', Option.getD_some] at h2
          exact absurd h2 (by simp [pAllowed])
      have hF0 : p.F = false := by
        cases hf3 : p.F
        · rfl
        · have h2 := hfa hf3
          rw [Option.map_some', Option.getD_some] at h2
          exact absurd h2 (by simp [fAllowed])
      have hPLe : (if some PType.RNR = some PType.I ∨ some PType.RNR = some PType.UI
          then [(p.PID.getD 0xF0) % 256] else []) = [] := by simp
      rw [hPLe, hinfov] at hBlen hdropPI
      simp only [List.length_nil, Nat.add_zero, Option.getD_none] at hBlen hdropPI
      have hcv : controlVal p = 5 + 32 * n := by
        simp only [controlVal, htp, hnrv, Option.map_some', Option.getD_some, controlBits]
        rw [and7_eq, Nat.shiftLeft_eq]
        have hne : n % 8 = n := Nat.mod_eq_of_lt (by omega)
        rw [hne]
        have h32 : (2:Nat)^5 = 32 := by norm_num
        rw [h32]
        omega
      have hcm : controlVal p % 256 = 5 + 32 * n := by
        rw [hcv]
        exact Nat.mod_eq_of_lt (by omega)
      have hx1 : ((5 + 32 * n) &&& 1 = 0) = False := eq_false (by
        rw [Nat.and_one_is_mod]
        omega)
      have hx2 : (5 + 32 * n) &&& 2 = 0 := by
        interval_cases n <;> decide
      have hx3 : ((5 + 32 * n) >>> 2) &&& 3 = 1 := by
        rw [Nat.shiftRight_eq_div_pow, and3_eq]
        have h4 : (2:Nat)^2 = 4 := by norm_num
        rw [h4]
        omega
      have hx5 : (5 + 32 * n) >>> 5 = n := by
        rw [Nat.shiftRight_eq_div_pow]
        have h32 : (2:Nat)^5 = 32 := by norm_num
        rw [h32]
        omega
      have hx4 : (((5 + 32 * n) >>> 4) &&& 1 = 1) = False := eq_false (by
        rw [Nat.shiftRight_eq_div_pow, Nat.and_one_is_mod]
        have h16 : (2:Nat)^4 = 16 := by norm_num
        rw [h16]
        omega)
      simp only [decodePacket, hdc0, hdc7, hvl0, List.nil_append, htoC, hfromC,
        hcmdB, hrespB, hgc, hcm,
        show (B.length ≤ 14 + 7 * p.via.length) = False from eq_false (by omega),
        hx1, hx2, hx3, hx5, hx4,
        show sTypes 1 = PType.RNR from by decide,
        show (some PType.RNR = some PType.I ∨ some PType.RNR = some PType.UI) = False
          from by simp,
        show (14 + 7 * p.via.length + 1 < B.length) = False from eq_false (by omega),
        true_or, or_true, if_false, if_true, eq_self_iff_true]
      have hEta : p =
          { type := p.type, toAddress := p.toAddress, fromAddress := p.fromAddress,
            via := p.via, command := p.command, response := p.response, P := p.P,
            F := p.F, NR := p.NR, NS := p.NS, PID := p.PID, info := p.info } := rfl
      conv_rhs => rw [hEta]
      rw [htp, hnrv, hnsv, hpidv, hinfov, hP0, hF0]
    · -- REJ
      rcases hnrv : p.NR with _ | n
      · rw [hnrv] at hnr
        have := optNRok_not_none _ hnr
        simp [nrHas] at this
      rw [hnrv] at hnr
      have hn7 := optNRok_some_le _ _ hnr
      have hnsv : p.NS = none := optNSok_none_of _ _ hns (by simp)
      have hpidv : p.PID = none := optPIDok_none_of _ _ hpid rfl
      have hinfov : p.info = none := optInfoOk_none_of _ _ hinfo rfl
      have hP0 : p.P = false := by
        cases hp3 : p.P
        · rfl
        · have h2 := hpa hp3
          rw [Option.map_some', Option.getD_some] at h2
          exact absurd h2 (by simp [pAllowed])
      have hF0 : p.F = false := by
        cases hf3 : p.F
        · rfl
        · have h2 := hfa hf3
          rw [Option.map_some', Option.getD_some] at h2
          exact absurd h2 (by simp [fAllowed])
      have hPLe : (if some PType.REJ = some PType.I ∨ some PType.REJ = some PType.UI
          then [(p.PID.getD 0xF0) % 256] else []) = [] := by simp
      rw [hPLe, hinfov] at hBlen hdropPI
      simp only [List.length_nil, Nat.add_zero, Option.getD_none] at hBlen hdropPI
      have hcv : controlVal p = 9 + 32 * n := by
        simp only [controlVal, htp, hnrv, Option.map_some', Option.getD_some, controlBits]
        rw [and7_eq, Nat.shiftLeft_eq]
        have hne : n % 8 = n := Nat.mod_eq_of_lt (by omega)
        rw [hne]
        have h32 : (2:Nat)^5 = 32 := by norm_num
        rw [h32]
        omega
      have hcm : controlVal p % 256 = 9 + 32 * n := by
        rw [hcv]
        exact Nat.mod_eq_of_lt (by omega)
      have hx1 : ((9 + 32 * n) &&& 1 = 0) = False := eq_false (by
        rw [Nat.and_one_is_mod]
        omega)
      have hx2 : (9 + 32 * n) &&& 2 = 0 := by
        interval_cases n <;> decide
      have hx3 : ((9 + 32 * n) >>> 2) &&& 3 = 2 := by
        rw [Nat.shiftRight_eq_div_pow, and3_eq]
        have h4 : (2:Nat)^2 = 4 := by norm_num
        rw [h4]
        omega
      have hx5 : (9 + 32 * n) >>> 5 = n := by
        rw [Nat.shiftRight_eq_div_pow]
        have h32 : (2:Nat)^5 = 32 := by norm_num
        rw [h32]
        omega
      have hx4 : (((9 + 32 * n) >>> 4) &&& 1 = 1) = False := eq_false (by
        rw [Nat.shiftRight_eq_div_pow, Nat.and_one_is_mod]
        have h16 : (2:Nat)^4 = 16 := by norm_num
        rw [h16]
        omega)
      simp only [decodePacket, hdc0, hdc7, hvl0, List.nil_append, htoC, hfromC,
        hcmdB, hrespB, hgc, hcm,
        show (B.length ≤ 14 + 7 * p.via.length) = False from eq_false (by omega),
        hx1, hx2, hx3, hx5, hx4,
        show sTypes 2 = PType.REJ from by decide,
        show (some PType.REJ = some PType.I ∨ some PType.REJ = some PType.UI) = False
          from by simp,
        show (14 + 7 * p.via.length + 1 < B.length) = False from eq_false (by omega),
        true_or, or_true, if_false, if_true, eq_self_iff_true]
      have hEta : p =
          { type := p.type, toAddress := p.toAddress, fromAddress := p.fromAddress,
            via := p.via, command := p.command, response := p.response, P := p.P,
            F := p.F, NR := p.NR, NS := p.NS, PID := p.PID, info := p.info } := rfl
      conv_rhs => rw [hEta]
      rw [htp, hnrv, hnsv, hpidv, hinfov, hP0, hF0]
    · -- SREJ
      rcases hnrv : p.NR with _ | n
      · rw [hnrv] at hnr
        have := optNRok_not_none _ hnr
        simp [nrHas] at this
      rw [hnrv] at hnr
      have hn7 := optNRok_some_le _ _ hnr
      have hnsv : p.NS = none := optNSok_none_of _ _ hns (by simp)
      have hpidv : p.PID = none := optPIDok_none_of _ _ hpid rfl
      have hinfov : p.info = none := optInfoOk_none_of _ _ hinfo rfl
      have hP0 : p.P = false := by
        cases hp3 : p.P
        · rfl
        · have h2 := hpa hp3
          rw [Option.map_some', Option.getD_some] at h2
          exact absurd h2 (by simp [pAllowed])
      have hF0 : p.F = false := by
        cases hf3 : p.F
        · rfl
        · have h2 := hfa hf3
          rw [Option.map_some', Option.getD_some] at h2
          exact absurd h2 (by simp [fAllowed])
      have hPLe : (if some PType.SREJ = some PType.I ∨ some PType.SREJ = some PType.UI
          then [(p.PID.getD 0xF0) % 256] else []) = [] := by simp
      rw [hPLe, hinfov] at hBlen hdropPI
      simp only [List.length_nil, Nat.add_zero, Option.getD_none] at hBlen hdropPI
      have hcv : controlVal p = 13 + 32 * n := by
        simp only [controlVal, htp, hnrv, Option.map_some', Option.getD_some, controlBits]
        rw [and7_eq, Nat.shiftLeft_eq]
        have hne : n % 8 = n := Nat.mod_eq_of_lt (by omega)
        rw [hne]
        have h32 : (2:Nat)^5 = 32 := by norm_num
        rw [h32]
        omega
      have hcm : controlVal p % 256 = 13 + 32 * n := by
        rw [hcv]
        exact Nat.mod_eq_of_lt (by omega)
      have hx1 : ((13 + 32 * n) &&& 1 = 0) = False := eq_false (by
        rw [Nat.and_one_is_mod]
        omega)
      have hx2 : (13 + 32 * n) &&& 2 = 0 := by
        interval_cases n <;> decide
      have hx3 : ((13 + 32 * n) >>> 2) &&& 3 = 3 := by
        rw [Nat.shiftRight_eq_div_pow, and3_eq]
        have h4 : (2:Nat)^2 = 4 := by norm_num
        rw [h4]
        omega
      have hx5 : (13 + 32 * n) >>> 5 = n := by
        rw [Nat.shiftRight_eq_div_pow]
        have h32 : (2:Nat)^5 = 32 := by norm_num
        rw [h32]
        omega
      have hx4 : (((13 + 32 * n) >>> 4) &&& 1 = 1) = False := eq_false (by
        rw [Nat.shiftRight_eq_div_pow, Nat.and_one_is_mod]
        have h16 : (2:Nat)^4 = 16 := by norm_num
        rw [h16]
        omega)
      simp only [decodePacket, hdc0, hdc7, hvl0, List.nil_append, htoC, hfromC,
        hcmdB, hrespB, hgc, hcm,
        show (B.length ≤ 14 + 7 * p.via.length) = False from eq_false (by omega),
        hx1, hx2, hx3, hx5, hx4,
        show sTypes 3 = PType.SREJ from by decide,
        show (some PType.SREJ = some PType.I ∨ some PType.SREJ = some PType.UI) = False
          from by simp,
        show (14 + 7 * p.via.length + 1 < B.length) = False from eq_false (by omega),
        true_or, or_true, if_false, if_true, eq_self_iff_true]
      have hEta : p =
          { type := p.type, toAddress := p.toAddress, fromAddress := p.fromAddress,
            via := p.via, command := p.command, response := p.response, P := p.P,
            F := p.F, NR := p.NR, NS := p.NS, PID := p.PID, info := p.info } := rfl
      conv_rhs => rw [hEta]
      rw [htp, hnrv, hnsv, hpidv, hinfov, hP0, hF0]
    · -- SABME
      have hnrv : p.NR = none := optNRok_none_of _ _ hnr rfl
      have hnsv : p.NS = none := optNSok_none_of _ _ hns (by simp)
      have hpidv : p.PID = none := optPIDok_none_of _ _ hpid rfl
      have hinfov : p.info = none := optInfoOk_none_of _ _ hinfo rfl
      have hF0 : p.F = false := by
        cases hf3 : p.F
        · rfl
        · have h2 := hfa hf3
          rw [Option.map_some', Option.getD_some] at h2
          exact absurd h2 (by simp [fAllowed])
      have hPLe : (if some PType.SABME = some PType.I ∨ some PType.SABME = some PType.UI
          then [(p.PID.getD 0xF0) % 256] else []) = [] := by simp
      rw [hPLe, hinfov] at hBlen hdropPI
      simp only [List.length_nil, Nat.add_zero, Option.getD_none] at hBlen hdropPI
      cases hPv : p.P
      · have hcv : controlVal p % 256 = 111 := by
          simp [controlVal, htp, hPv, controlBits]
        simp only [decodePacket, hdc0, hdc7, hvl0, List.nil_append, htoC, hfromC,
          hcmdB, hrespB, hgc, hcv,
          show (B.length ≤ 14 + 7 * p.via.length) = False from eq_false (by omega),
          show ((111 &&& 1 = 0) = False) from by decide,
          show ((111 &&& 2 = 0) = False) from by decide,
          show uTypes (((111 &&& 0xE0) >>> 3) + ((111 >>> 2) &&& 3)) = some PType.SABME
            from by decide,
          show (((111 >>> 4) &&& 1 = 1) = False) from by decide,
          show ((some PType.SABME = some PType.I ∨ some PType.SABME = some PType.UI) = False)
            from by simp,
          show ((14 + 7 * p.via.length + 1 < B.length) = False) from eq_false (by omega),
          true_or, or_true, if_false, if_true, eq_self_iff_true]
        have hEta : p =
            { type := p.type, toAddress := p.toAddress, fromAddress := p.fromAddress,
                via := p.via, command := p.command, response := p.response, P := p.P,
                F := p.F, NR := p.NR, NS := p.NS, PID := p.PID, info := p.info } := rfl
        conv_rhs => rw [hEta]
        rw [htp, hnrv, hnsv, hpidv, hinfov, hPv, hF0]
      · have hcv : controlVal p % 256 = 127 := by
          simp [controlVal, htp, hPv, controlBits]
        simp only [decodePacket, hdc0, hdc7, hvl0, List.nil_append, htoC, hfromC,
          hcmdB, hrespB, hgc, hcv,
          show (B.length ≤ 14 + 7 * p.via.length) = False from eq_false (by omega),
          show ((127 &&& 1 = 0) = False) from by decide,
          show ((127 &&& 2 = 0) = False) from by decide,
          show uTypes (((127 &&& 0xE0) >>> 3) + ((127 >>> 2) &&& 3)) = some PType.SABME
            from by decide,
          show (((127 >>> 4) &&& 1 = 1) = True) from by decide,
          show ((some PType.SABME = some PType.I ∨ some PType.SABME = some PType.UI) = False)
            from by simp,
          show ((14 + 7 * p.via.length + 1 < B.length) = False) from eq_false (by omega),
          true_or, or_true, if_false, if_true, eq_self_iff_true]
        have hEta : p =
            { type := p.type, toAddress := p.toAddress, fromAddress := p.fromAddress,
                via := p.via, command := p.command, response := p.response, P := p.P,
                F := p.F, NR := p.NR, NS := p.NS, PID := p.PID, info := p.info } := rfl
        conv_rhs => rw [hEta]
        rw [htp, hnrv, hnsv, hpidv, hinfov, hPv, hF0]
    · -- SABM
      have hnrv : p.NR = none := optNRok_none_of _ _ hnr rfl
      have hnsv : p.NS = none := optNSok_none_of _ _ hns (by simp)
      have hpidv : p.PID = none := optPIDok_none_of _ _ hpid rfl
      have hinfov : p.info = none := optInfoOk_none_of _ _ hinfo rfl
      have hF0 : p.F = false := by
        cases hf3 : p.F
        · rfl
        · have h2 := hfa hf3
          rw [Option.map_some', Option.getD_some] at h2
          exact absurd h2 (by simp [fAllowed])
      have hPLe : (if some PType.SABM = some PType.I ∨ some PType.SABM = some PType.UI
          then [(p.PID.getD 0xF0) % 256] else []) = [] := by simp
      rw [hPLe, hinfov] at hBlen hdropPI
      simp only [List.length_nil, Nat.add_zero, Option.getD_none] at hBlen hdropPI
      cases hPv : p.P
      · have hcv : controlVal p % 256 = 47 := by
          simp [controlVal, htp, hPv, controlBits]
        simp only [decodePacket, hdc0, hdc7, hvl0, List.nil_append, htoC, hfromC,
          hcmdB, hrespB, hgc, hcv,
          show (B.length ≤ 14 + 7 * p.via.length) = False from eq_false (by omega),
          show ((47 &&& 1 = 0) = False) from by decide,
          show ((47 &&& 2 = 0) = False) from by decide,
          show uTypes (((47 &&& 0xE0) >>> 3) + ((47 >>> 2) &&& 3)) = some PType.SABM
            from by decide,
          show (((47 >>> 4) &&& 1 = 1) = False) from by decide,
          show ((some PType.SABM = some PType.I ∨ some PType.SABM = some PType.UI) = False)
            from by simp,
          show ((14 + 7 * p.via.length + 1 < B.length) = False) from eq_false (by omega),
          true_or, or_true, if_false, if_true, eq_self_iff_true]
        have hEta : p =
            { type := p.type, toAddress := p.toAddress, fromAddress := p.fromAddress,
                via := p.via, command := p.command, response := p.response, P := p.P,
                F := p.F, NR := p.NR, NS := p.NS, PID := p.PID, info := p.info } := rfl
        conv_rhs => rw [hEta]
        rw [htp, hnrv, hnsv, hpidv, hinfov, hPv, hF0]
      · have hcv : controlVal p % 256 = 63 := by
          simp [controlVal, htp, hPv, controlBits]
        simp only [decodePacket, hdc0, hdc7, hvl0, List.nil_append, htoC, hfromC,
          hcmdB, hrespB, hgc, hcv,
          show (B.length ≤ 14 + 7 * p.via.length) = False from eq_false (by omega),
          show ((63 &&& 1 = 0) = False) from by decide,
          show ((63 &&& 2 = 0) = False) from by decide,
          show uTypes (((63 &&& 0xE0) >>> 3) + ((63 >>> 2) &&& 3)) = some PType.SABM
            from by decide,
          show (((63 >>> 4) &&& 1 = 1) = True) from by decide,
          show ((some PType.SABM = some PType.I ∨ some PType.SABM = some PType.UI) = False)
            from by simp,
          show ((14 + 7 * p.via.length + 1 < B.length) = False) from eq_false (by omega),
          true_or, or_true, if_false, if_true, eq_self_iff_true]
        have hEta : p =
            { type := p.type, toAddress := p.toAddress, fromAddress := p.fromAddress,
                via := p.via, command := p.command, response := p.response, P := p.P,
                F := p.F, NR := p.NR, NS := p.NS, PID := p.PID, info := p.info } := rfl
        conv_rhs => rw [hEta]
        rw [htp, hnrv, hnsv, hpidv, hinfov, hPv, hF0]
    · -- DISC
      have hnrv : p.NR = none := optNRok_none_of _ _ hnr rfl
      have hnsv : p.NS = none := optNSok_none_of _ _ hns (by simp)
      have hpidv : p.PID = none := optPIDok_none_of _ _ hpid rfl
      have hinfov : p.info = none := optInfoOk_none_of _ _ hinfo rfl
      have hF0 : p.F = false := by
        cases hf3 : p.F
        · rfl
        · have h2 := hfa hf3
          rw [Option.map_some', Option.getD_some] at h2
          exact absurd h2 (by simp [fAllowed])
      have hPLe : (if some PType.DISC = some PType.I ∨ some PType.DISC = some PType.UI
          then [(p.PID.getD 0xF0) % 256] else []) = [] := by simp
      rw [hPLe, hinfov] at hBlen hdropPI
      simp only [List.length_nil, Nat.add_zero, Option.getD_none] at hBlen hdropPI
      cases hPv : p.P
      · have hcv : controlVal p % 256 = 67 := by
          simp [controlVal, htp, hPv, controlBits]
        simp only [decodePacket, hdc0, hdc7, hvl0, List.nil_append, htoC, hfromC,
          hcmdB, hrespB, hgc, hcv,
          show (B.length ≤ 14 + 7 * p.via.length) = False from eq_false (by omega),
          show ((67 &&& 1 = 0) = False) from by decide,
          show ((67 &&& 2 = 0) = False) from by decide,
          show uTypes (((67 &&& 0xE0) >>> 3) + ((67 >>> 2) &&& 3)) = some PType.DISC
            from by decide,
          show (((67 >>> 4) &&& 1 = 1) = False) from by decide,
          show ((some PType.DISC = some PType.I ∨ some PType.DISC = some PType.UI) = False)
            from by simp,
          show ((14 + 7 * p.via.length + 1 < B.length) = False) from eq_false (by omega),
          true_or, or_true, if_false, if_true, eq_self_iff_true]
        have hEta : p =
            { type := p.type, toAddress := p.toAddress, fromAddress := p.fromAddress,
                via := p.via, command := p.command, response := p.response, P := p.P,
                F := p.F, NR := p.NR, NS := p.NS, PID := p.PID, info := p.info } := rfl
        conv_rhs => rw [hEta]
        rw [htp, hnrv, hnsv, hpidv, hinfov, hPv, hF0]
      · have hcv : controlVal p % 256 = 83 := by
          simp [controlVal, htp, hPv, controlBits]
        simp only [decodePacket, hdc0, hdc7, hvl0, List.nil_append, htoC, hfromC,
          hcmdB, hrespB, hgc, hcv,
          show (B.length ≤ 14 + 7 * p.via.length) = False from eq_false (by omega),
          show ((83 &&& 1 = 0) = False) from by decide,
          show ((83 &&& 2 = 0) = False) from by decide,
          show uTypes (((83 &&& 0xE0) >>> 3) + ((83 >>> 2) &&& 3)) = some PType.DISC
            from by decide,
          show (((83 >>> 4) &&& 1 = 1) = True) from by decide,
          show ((some PType.DISC = some PType.I ∨ some PType.DISC = some PType.UI) = False)
            from by simp,
          show ((14 + 7 * p.via.length + 1 < B.length) = False) from eq_false (by omega),
          true_or, or_true, if_false, if_true, eq_self_iff_true]
        have hEta : p =
            { type := p.type, toAddress := p.toAddress, fromAddress := p.fromAddress,
                via := p.via, command := p.command, response := p.response, P := p.P,
                F := p.F, NR := p.NR, NS := p.NS, PID := p.PID, info := p.info } := rfl
        conv_rhs => rw [hEta]
        rw [htp, hnrv, hnsv, hpidv, hinfov, hPv, hF0]
    · -- DM
      have hnrv : p.NR = none := optNRok_none_of _ _ hnr rfl
      have hnsv : p.NS = none := optNSok_none_of _ _ hns (by simp)
      have hpidv : p.PID = none := optPIDok_none_of _ _ hpid rfl
      have hinfov : p.info = none := optInfoOk_none_of _ _ hinfo rfl
      have hP0 : p.P = false := by
        cases hp3 : p.P
        · rfl
        · have h2 := hpa hp3
          rw [Option.map_some', Option.getD_some] at h2
          exact absurd h2 (by simp [pAllowed])
      have hPLe : (if some PType.DM = some PType.I ∨ some PType.DM = some PType.UI
          then [(p.PID.getD 0xF0) % 256] else []) = [] := by simp
      rw [hPLe, hinfov] at hBlen hdropPI
      simp only [List.length_nil, Nat.add_zero, Option.getD_none] at hBlen hdropPI
      cases hFv : p.F
      · have hcv : controlVal p % 256 = 15 := by
          simp [controlVal, htp, hFv, controlBits]
        simp only [decodePacket, hdc0, hdc7, hvl0, List.nil_append, htoC, hfromC,
          hcmdB, hrespB, hgc, hcv,
          show (B.length ≤ 14 + 7 * p.via.length) = False from eq_false (by omega),
          show ((15 &&& 1 = 0) = False) from by decide,
          show ((15 &&& 2 = 0) = False) from by decide,
          show uTypes (((15 &&& 0xE0) >>> 3) + ((15 >>> 2) &&& 3)) = some PType.DM
            from by decide,
          show (((15 >>> 4) &&& 1 = 1) = False) from by decide,
          show ((some PType.DM = some PType.I ∨ some PType.DM = some PType.UI) = False)
            from by simp,
          show ((14 + 7 * p.via.length + 1 < B.length) = False) from eq_false (by omega),
          true_or, or_true, if_false, if_true, eq_self_iff_true]
        have hEta : p =
            { type := p.type, toAddress := p.toAddress, fromAddress := p.fromAddress,
                via := p.via, command := p.command, response := p.response, P := p.P,
                F := p.F, NR := p.NR, NS := p.NS, PID := p.PID, info := p.info } := rfl
        conv_rhs => rw [hEta]
        rw [htp, hnrv, hnsv, hpidv, hinfov, hP0, hFv]
      · have hcv : controlVal p % 256 = 31 := by
          simp [controlVal, htp, hFv, controlBits]
        simp only [decodePacket, hdc0, hdc7, hvl0, List.nil_append, htoC, hfromC,
          hcmdB, hrespB, hgc, hcv,
          show (B.length ≤ 14 + 7 * p.via.length) = False from eq_false (by omega),
          show ((31 &&& 1 = 0) = False) from by decide,
          show ((31 &&& 2 = 0) = False) from by decide,
          show uTypes (((31 &&& 0xE0) >>> 3) + ((31 >>> 2) &&& 3)) = some PType.DM
            from by decide,
          show (((31 >>> 4) &&& 1 = 1) = True) from by decide,
          show ((some PType.DM = some PType.I ∨ some PType.DM = some PType.UI) = False)
            from by simp,
          show ((14 + 7 * p.via.length + 1 < B.length) = False) from eq_false (by omega),
          true_or, or_true, if_false, if_true, eq_self_iff_true]
        have hEta : p =
            { type := p.type, toAddress := p.toAddress, fromAddress := p.fromAddress,
                via := p.via, command := p.command, response := p.response, P := p.P,
                F := p.F, NR := p.NR, NS := p.NS, PID := p.PID, info := p.info } := rfl
        conv_rhs => rw [hEta]
        rw [htp, hnrv, hnsv, hpidv, hinfov, hP0, hFv]
    · -- UA
      have hnrv : p.NR = none := optNRok_none_of _ _ hnr rfl
      have hnsv : p.NS = none := optNSok_none_of _ _ hns (by simp)
      have hpidv : p.PID = none := optPIDok_none_of _ _ hpid rfl
      have hinfov : p.info = none := optInfoOk_none_of _ _ hinfo rfl
      have hP0 : p.P = false := by
        cases hp3 : p.P
        · rfl
        · have h2 := hpa hp3
          rw [Option.map_some', Option.getD_some] at h2
          exact absurd h2 (by simp [pAllowed])
      have hPLe : (if some PType.UA = some PType.I ∨ some PType.UA = some PType.UI
          then [(p.PID.getD 0xF0) % 256] else []) = [] := by simp
      rw [hPLe, hinfov] at hBlen hdropPI
      simp only [List.length_nil, Nat.add_zero, Option.getD_none] at hBlen hdropPI
      cases hFv : p.F
      · have hcv : controlVal p % 256 = 99 := by
          simp [controlVal, htp, hFv, controlBits]
        simp only [decodePacket, hdc0, hdc7, hvl0, List.nil_append, htoC, hfromC,
          hcmdB, hrespB, hgc, hcv,
          show (B.length ≤ 14 + 7 * p.via.length) = False from eq_false (by omega),
          show ((99 &&& 1 = 0) = False) from by decide,
          show ((99 &&& 2 = 0) = False) from by decide,
          show uTypes (((99 &&& 0xE0) >>> 3) + ((99 >>> 2) &&& 3)) = some PType.UA
            from by decide,
          show (((99 >>> 4) &&& 1 = 1) = False) from by decide,
          show ((some PType.UA = some PType.I ∨ some PType.UA = some PType.UI) = False)
            from by simp,
          show ((14 + 7 * p.via.length + 1 < B.length) = False) from eq_false (by omega),
          true_or, or_true, if_false, if_true, eq_self_iff_true]
        have hEta : p =
            { type := p.type, toAddress := p.toAddress, fromAddress := p.fromAddress,
                via := p.via, command := p.command, response := p.response, P := p.P,
                F := p.F, NR := p.NR, NS := p.NS, PID := p.PID, info := p.info } := rfl
        conv_rhs => rw [hEta]
        rw [htp, hnrv, hnsv, hpidv, hinfov, hP0, hFv]
      · have hcv : controlVal p % 256 = 115 := by
          simp [controlVal, htp, hFv, controlBits]
        simp only [decodePacket, hdc0, hdc7, hvl0, List.nil_append, htoC, hfromC,
          hcmdB, hrespB, hgc, hcv,
          show (B.length ≤ 14 + 7 * p.via.length) = False from eq_false (by omega),
          show ((115 &&& 1 = 0) = False) from by decide,
          show ((115 &&& 2 = 0) = False) from by decide,
          show uTypes (((115 &&& 0xE0) >>> 3) + ((115 >>> 2) &&& 3)) = some PType.UA
            from by decide,
          show (((115 >>> 4) &&& 1 = 1) = True) from by decide,
          show ((some PType.UA = some PType.I ∨ some PType.UA = some PType.UI) = False)
            from by simp,
          show ((14 + 7 * p.via.length + 1 < B.length) = False) from eq_false (by omega),
          true_or, or_true, if_false, if_true, eq_self_iff_true]
        have hEta : p =
            { type := p.type, toAddress := p.toAddress, fromAddress := p.fromAddress,
                via := p.via, command := p.command, response := p.response, P := p.P,
                F := p.F, NR := p.NR, NS := p.NS, PID := p.PID, info := p.info } := rfl
        conv_rhs => rw [hEta]
        rw [htp, hnrv, hnsv, hpidv, hinfov, hP0, hFv]
    · -- FRMR: excluded
      simp [validType] at hvt
    · -- UI
      have hnrv : p.NR = none := optNRok_none_of _ _ hnr rfl
      have hnsv : p.NS = none := optNSok_none_of _ _ hns (by simp)
      have hP0 : p.P = false := by
        cases hp3 : p.P
        · rfl
        · have h2 := hpa hp3
          rw [Option.map_some', Option.getD_some] at h2
          exact absurd h2 (by simp [pAllowed])
      have hF0 : p.F = false := by
        cases hf3 : p.F
        · rfl
        · have h2 := hfa hf3
          rw [Option.map_some', Option.getD_some] at h2
          exact absurd h2 (by simp [fAllowed])
      have hPLe : (if some PType.UI = some PType.I ∨ some PType.UI = some PType.UI
          then [(p.PID.getD 0xF0) % 256] else []) = [(p.PID.getD 0xF0) % 256] := by simp
      rw [hPLe] at hBlen hdropPI
      simp only [List.length_cons, List.length_nil, Nat.zero_add] at hBlen hdropPI
      have hlen3 : ((encBase (p.toAddress.takeWhile (· ≠ 45)) ++ [2 * suffixVal (p.toAddress.dropWhile (· ≠ 45)) + (if p.command then 128 else 0)]) ++ (encBase (p.fromAddress.takeWhile (· ≠ 45)) ++ [2 * suffixVal (p.fromAddress.dropWhile (· ≠ 45)) + (if p.response then 128 else 0) + (if p.via.isEmpty then 1 else 0)]) ++ viaBumped p.via ++ [controlVal p % 256]).length
          = 15 + 7 * p.via.length := by
        simp only [List.length_append, encBase_length, List.length_cons, List.length_nil, hV7]
        omega
      have hgp : B.getD (14 + 7 * p.via.length + 1) 0 = (p.PID.getD 0xF0) % 256 := by
        rw [← hBdef, show (encBase (p.toAddress.takeWhile (· ≠ 45)) ++ [2 * suffixVal (p.toAddress.dropWhile (· ≠ 45)) + (if p.command then 128 else 0)]) ++ (encBase (p.fromAddress.takeWhile (· ≠ 45)) ++ [2 * suffixVal (p.fromAddress.dropWhile (· ≠ 45)) + (if p.response then 128 else 0) + (if p.via.isEmpty then 1 else 0)]) ++ viaBumped p.via ++ [controlVal p % 256] ++ (if p.type = some PType.I ∨ p.type = some PType.UI then [(p.PID.getD 0xF0) % 256] else []) ++ p.info.getD []
            = ((encBase (p.toAddress.takeWhile (· ≠ 45)) ++ [2 * suffixVal (p.toAddress.dropWhile (· ≠ 45)) + (if p.command then 128 else 0)]) ++ (encBase (p.fromAddress.takeWhile (· ≠ 45)) ++ [2 * suffixVal (p.fromAddress.dropWhile (· ≠ 45)) + (if p.response then 128 else 0) + (if p.via.isEmpty then 1 else 0)]) ++ viaBumped p.via ++ [controlVal p % 256]) ++ ((if p.type = some PType.I ∨ p.type = some PType.UI then [(p.PID.getD 0xF0) % 256] else []) ++ p.info.getD [])
            from by simp [List.append_assoc]]
        rw [getD_append_ge _ _ _ (by rw [hlen3]; omega), hlen3]
        rw [show 14 + 7 * p.via.length + 1 - (15 + 7 * p.via.length) = 0 from by omega]
        rw [htp, hPLe]
        simp
      have hcm : controlVal p % 256 = 3 := by
        simp [controlVal, htp, hP0, controlBits]
      rcases hpidv : p.PID with _ | v
      · have hgp240 : B.getD (14 + 7 * p.via.length + 1) 0 = 240 := by
          rw [hgp, hpidv]
          rfl
        rcases hinfov : p.info with _ | l
        · rw [hinfov] at hBlen hdropPI
          simp only [Option.getD_none, List.length_nil, Nat.add_zero] at hBlen hdropPI
          simp only [decodePacket, hdc0, hdc7, hvl0, List.nil_append, htoC, hfromC,
            hcmdB, hrespB, hgc, hcm,
            show ((B.length ≤ 14 + 7 * p.via.length) = False) from eq_false (by omega),
            show ((3 &&& 1 = 0) = False) from by decide,
            show ((3 &&& 2 = 0) = False) from by decide,
            show uTypes (((3 &&& 0xE0) >>> 3) + ((3 >>> 2) &&& 3)) = some PType.UI
              from by decide,
            show (((3 >>> 4) &&& 1 = 1) = False) from by decide,
            show ((some PType.UI = some PType.I ∨ some PType.UI = some PType.UI) = True)
              from by simp,
            show ((B.length ≤ 14 + 7 * p.via.length + 1) = False) from eq_false (by omega),
            hgp240,
            show ((14 + 7 * p.via.length + 2 < B.length) = False) from eq_false (by omega),
            true_or, or_true, if_false, if_true, eq_self_iff_true]
          have hEta : p =
              { type := p.type, toAddress := p.toAddress, fromAddress := p.fromAddress,
                via := p.via, command := p.command, response := p.response, P := p.P,
                F := p.F, NR := p.NR, NS := p.NS, PID := p.PID, info := p.info } := rfl
          conv_rhs => rw [hEta]
          rw [htp, hnrv, hnsv, hpidv, hinfov, hP0, hF0]
        · rw [hinfov] at hinfo hBlen hdropPI
          have hlne := optInfoOk_some_ne _ _ hinfo
          have hlpos : 0 < l.length := List.length_pos.mpr hlne
          simp only [Option.getD_some] at hBlen hdropPI
          have hdrop2 : B.drop (14 + 7 * p.via.length + 2) = l := by
            rw [show 14 + 7 * p.via.length + 2 = 15 + 7 * p.via.length + 1 from by omega]
            exact hdropPI
          simp only [decodePacket, hdc0, hdc7, hvl0, List.nil_append, htoC, hfromC,
            hcmdB, hrespB, hgc, hcm,
            show ((B.length ≤ 14 + 7 * p.via.length) = False) from eq_false (by omega),
            show ((3 &&& 1 = 0) = False) from by decide,
            show ((3 &&& 2 = 0) = False) from by decide,
            show uTypes (((3 &&& 0xE0) >>> 3) + ((3 >>> 2) &&& 3)) = some PType.UI
              from by decide,
            show (((3 >>> 4) &&& 1 = 1) = False) from by decide,
            show ((some PType.UI = some PType.I ∨ some PType.UI = some PType.UI) = True)
              from by simp,
            show ((B.length ≤ 14 + 7 * p.via.length + 1) = False) from eq_false (by omega),
            hgp240,
            show ((14 + 7 * p.via.length + 2 < B.length) = True) from eq_true (by omega),
            hdrop2,
            true_or, or_true, if_false, if_true, eq_self_iff_true]
          have hEta : p =
              { type := p.type, toAddress := p.toAddress, fromAddress := p.fromAddress,
                via := p.via, command := p.command, response := p.response, P := p.P,
                F := p.F, NR := p.NR, NS := p.NS, PID := p.PID, info := p.info } := rfl
          conv_rhs => rw [hEta]
          rw [htp, hnrv, hnsv, hpidv, hinfov, hP0, hF0]
      · rw [hpidv] at hpid
        obtain ⟨hv1, hv2, hv3, hv4⟩ := optPIDok_some_facts _ _ hpid
        have hgpv : B.getD (14 + 7 * p.via.length + 1) 0 = v := by
          rw [hgp, hpidv, Option.getD_some]
          exact Nat.mod_eq_of_lt hv1
        rcases hinfov : p.info with _ | l
        · rw [hinfov] at hBlen hdropPI
          simp only [Option.getD_none, List.length_nil, Nat.add_zero] at hBlen hdropPI
          simp only [decodePacket, hdc0, hdc7, hvl0, List.nil_append, htoC, hfromC,
            hcmdB, hrespB, hgc, hcm,
            show ((B.length ≤ 14 + 7 * p.via.length) = False) from eq_false (by omega),
            show ((3 &&& 1 = 0) = False) from by decide,
            show ((3 &&& 2 = 0) = False) from by decide,
            show uTypes (((3 &&& 0xE0) >>> 3) + ((3 >>> 2) &&& 3)) = some PType.UI
              from by decide,
            show (((3 >>> 4) &&& 1 = 1) = False) from by decide,
            show ((some PType.UI = some PType.I ∨ some PType.UI = some PType.UI) = True)
              from by simp,
            show ((B.length ≤ 14 + 7 * p.via.length + 1) = False) from eq_false (by omega),
            hgpv,
            show ((v = 240) = False) from eq_false hv2,
            show ((v = 255 ∨ v = 8) = False) from eq_false (fun hvv => hvv.elim hv3 hv4),
            show ((14 + 7 * p.via.length + 2 < B.length) = False) from eq_false (by omega),
            true_or, or_true, if_false, if_true, eq_self_iff_true]
          have hEta : p =
              { type := p.type, toAddress := p.toAddress, fromAddress := p.fromAddress,
                via := p.via, command := p.command, response := p.response, P := p.P,
                F := p.F, NR := p.NR, NS := p.NS, PID := p.PID, info := p.info } := rfl
          conv_rhs => rw [hEta]
          rw [htp, hnrv, hnsv, hpidv, hinfov, hP0, hF0]
        · rw [hinfov] at hinfo hBlen hdropPI
          have hlne := optInfoOk_some_ne _ _ hinfo
          have hlpos : 0 < l.length := List.length_pos.mpr hlne
          simp only [Option.getD_some] at hBlen hdropPI
          have hdrop2 : B.drop (14 + 7 * p.via.length + 2) = l := by
            rw [show 14 + 7 * p.via.length + 2 = 15 + 7 * p.via.length + 1 from by omega]
            exact hdropPI
          simp only [decodePacket, hdc0, hdc7, hvl0, List.nil_append, htoC, hfromC,
            hcmdB, hrespB, hgc, hcm,
            show ((B.length ≤ 14 + 7 * p.via.length) = False) from eq_false (by omega),
            show ((3 &&& 1 = 0) = False) from by decide,
            show ((3 &&& 2 = 0) = False) from by decide,
            show uTypes (((3 &&& 0xE0) >>> 3) + ((3 >>> 2) &&& 3)) = some PType.UI
              from by decide,
            show (((3 >>> 4) &&& 1 = 1) = False) from by decide,
            show ((some PType.UI = some PType.I ∨ some PType.UI = some PType.UI) = True)
              from by simp,
            show ((B.length ≤ 14 + 7 * p.via.length + 1) = False) from eq_false (by omega),
            hgpv,
            show ((v = 240) = False) from eq_false hv2,
            show ((v = 255 ∨ v = 8) = False) from eq_false (fun hvv => hvv.elim hv3 hv4),
            show ((14 + 7 * p.via.length + 2 < B.length) = True) from eq_true (by omega),
            hdrop2,
            true_or, or_true, if_false, if_true, eq_self_iff_true]
          have hEta : p =
              { type := p.type, toAddress := p.toAddress, fromAddress := p.fromAddress,
                via := p.via, command := p.command, response := p.response, P := p.P,
                F := p.F, NR := p.NR, NS := p.NS, PID := p.PID, info := p.info } := rfl
          conv_rhs => rw [hEta]
          rw [htp, hnrv, hnsv, hpidv, hinfov, hP0, hF0]
    · -- XID
      have hnrv : p.NR = none := optNRok_none_of _ _ hnr rfl
      have hnsv : p.NS = none := optNSok_none_of _ _ hns (by simp)
      have hpidv : p.PID = none := optPIDok_none_of _ _ hpid rfl
      have hinfov : p.info = none := optInfoOk_none_of _ _ hinfo rfl
      have hP0 : p.P = false := by
        cases hp3 : p.P
        · rfl
        · have h2 := hpa hp3
          rw [Option.map_some', Option.getD_some] at h2
          exact absurd h2 (by simp [pAllowed])
      have hF0 : p.F = false := by
        cases hf3 : p.F
        · rfl
        · have h2 := hfa hf3
          rw [Option.map_some', Option.getD_some] at h2
          exact absurd h2 (by simp [fAllowed])
      have hPLe : (if some PType.XID = some PType.I ∨ some PType.XID = some PType.UI
          then [(p.PID.getD 0xF0) % 256] else []) = [] := by simp
      rw [hPLe, hinfov] at hBlen hdropPI
      simp only [List.length_nil, Nat.add_zero, Option.getD_none] at hBlen hdropPI
      have hcv : controlVal p % 256 = 175 := by
        simp [controlVal, htp, controlBits]
      simp only [decodePacket, hdc0, hdc7, hvl0, List.nil_append, htoC, hfromC,
        hcmdB, hrespB, hgc, hcv,
        show (B.length ≤ 14 + 7 * p.via.length) = False from eq_false (by omega),
        show ((175 &&& 1 = 0) = False) from by decide,
        show ((175 &&& 2 = 0) = False) from by decide,
        show uTypes (((175 &&& 0xE0) >>> 3) + ((175 >>> 2) &&& 3)) = some PType.XID
          from by decide,
        show (((175 >>> 4) &&& 1 = 1) = False) from by decide,
        show ((some PType.XID = some PType.I ∨ some PType.XID = some PType.UI) = False)
          from by simp,
        show ((14 + 7 * p.via.length + 1 < B.length) = False) from eq_false (by omega),
        true_or, or_true, if_false, if_true, eq_self_iff_true]
      have hEta : p =
          { type := p.type, toAddress := p.toAddress, fromAddress := p.fromAddress,
            via := p.via, command := p.command, response := p.response, P := p.P,
            F := p.F, NR := p.NR, NS := p.NS, PID := p.PID, info := p.info } := rfl
      conv_rhs => rw [hEta]
      rw [htp, hnrv, hnsv, hpidv, hinfov, hP0, hF0]
    · -- TEST: excluded
      simp [validType] at hvt

/-- Witness for C2: the sample I packet `pktI` satisfies `validPacket` and
round-trips through `encodePacket` and `decodePacket`. -/
theorem packet_roundtrip_witness :
    ∃ b, encodePacket pktI = .ok b ∧ decodePacket b = .ok pktI :=
  packet_roundtrip pktI (by decide)

end Agwpe
